import Mathlib

/-!
podman-cinder-volume-plugin: the Cinder volume driver.

A shallow embedding of `driver/udev.go` and `driver/driver.go`.

* Go strings are Lean strings; `strings.Split`, `strings.HasPrefix`, `path.Join` and
  `strconv.Atoi` are the Go standard library functions the driver calls, written out
  by their documented behaviour.
* A Go function that can hit a run-time panic (an index past the end of a slice)
  returns an `Option`: `none` is the panic.
* A Go `error` is a `GoError`; the three sentinel errors of the driver, which the code
  compares by identity, are constructors of their own.
-/

namespace Cinder

/-! ## Go standard library: strings and paths -/

/-- Pieces of a character list between occurrences of `sep`; there is always at least
one piece. -/
def splitChars (sep : Char) : List Char → List (List Char)
  | [] => [[]]
  | c :: cs =>
    if c = sep then [] :: splitChars sep cs
    else
      match splitChars sep cs with
      | [] => [[c]]
      | w :: ws => (c :: w) :: ws

/-- Go `strings.Split(s, sep)` for a one-character separator. -/
def Split (s : String) (sep : Char) : List String :=
  (splitChars sep s.data).map String.mk

/-- Go `strings.HasPrefix(s, pfx)`. -/
def HasPrefix (s pfx : String) : Bool :=
  pfx.data.isPrefixOf s.data

/-- The component pass of Go `path.Clean`: empty and `.` components are dropped, a `..`
removes the component before it, is dropped at the root of a rooted path and is kept
at the start of a relative one. `out` is the output so far, last component first. -/
def cleanComponents (rooted : Bool) : List (List Char) → List (List Char) → List (List Char)
  | [], out => out.reverse
  | c :: cs, out =>
    if c = [] ∨ c = ['.'] then cleanComponents rooted cs out
    else if c = ['.', '.'] then
      match out with
      | top :: below =>
        if top = ['.', '.'] then cleanComponents rooted cs (c :: out)
        else cleanComponents rooted cs below
      | [] => if rooted then cleanComponents rooted cs [] else cleanComponents rooted cs [c]
    else cleanComponents rooted cs (c :: out)

/-- Components joined with single slashes. -/
def joinSlash : List (List Char) → List Char
  | [] => []
  | [c] => c
  | c :: d :: rest => c ++ '/' :: joinSlash (d :: rest)

/-- Go `path.Clean` on a character list. -/
def cleanChars (p : List Char) : List Char :=
  match p with
  | [] => ['.']
  | c :: _ =>
    let rooted : Bool := c = '/'
    let comps := cleanComponents rooted (splitChars '/' p) []
    if rooted then '/' :: joinSlash comps
    else if comps = [] then ['.'] else joinSlash comps

/-- Go `path.Clean`. -/
def Clean (p : String) : String := String.mk (cleanChars p.data)

/-- The buffer loop of Go `path.Join`: leading empty elements are skipped, every later
element is appended after a slash. -/
def joinBuf : List String → List Char → List Char
  | [], buf => buf
  | e :: rest, buf =>
    if buf ≠ [] ∨ e ≠ "" then
      joinBuf rest ((if buf ≠ [] then buf ++ ['/'] else buf) ++ e.data)
    else joinBuf rest buf

/-- Go `path.Join(elem...)`. -/
def Join (elem : List String) : String :=
  if (elem.map String.length).sum = 0 then ""
  else Clean (String.mk (joinBuf elem []))

/-- A name a directory listing can hold: not empty, not `.` or `..`, no slash. -/
def isFileName (n : String) : Prop :=
  n ≠ "" ∧ n ≠ "." ∧ n ≠ ".." ∧ '/' ∉ n.data

instance (n : String) : Decidable (isFileName n) := by
  unfold isFileName; infer_instance

/-! ## Errors -/

deriving instance DecidableEq for Except

/-- A Go `error` value of the driver. -/
inductive GoError where
  /-- The sentinel `errDeviceNotFound` of `udev.go`. -/
  | errDeviceNotFound
  /-- The sentinel `errMoreThanOneFound` of `udev.go`. -/
  | errMoreThanOneFound
  /-- The sentinel `errVolumeNotFound` of `driver.go`. -/
  | errVolumeNotFound
  /-- An error built by `fmt.Errorf` or `errors.New` at the place it is returned. -/
  | errorf (msg : String)
deriving DecidableEq, Repr

/-- Go `err.Error()`. -/
def GoError.Error : GoError → String
  | .errDeviceNotFound => "device not found"
  | .errMoreThanOneFound => "more than one device with provided serial found"
  | .errVolumeNotFound => "volume not found"
  | .errorf msg => msg

/-! ## The local file system, as the driver reads it -/

/-- What a `bufio.Scanner` over an opened file delivers: the lines, and the error
`scanner.Err()` reports when the loop is left. -/
structure Scan where
  lines : List String
  err : Option String
deriving DecidableEq, Repr

/-- Reply to `os.Open(dev)` followed by `f.ReadAt(buf, off)`. -/
inductive ReadAtReply where
  /-- `os.Open` failed. -/
  | openFailed (msg : String)
  /-- `ReadAt` returned the bytes it read (`l` is their number) and its error. -/
  | read (bytes : List Nat) (err : Option String)
deriving DecidableEq, Repr

/-- Reply to `os.Stat(path)`, as far as `Mount` tells the cases apart. -/
inductive StatReply where
  | found
  /-- An error for which `os.IsNotExist` is true. -/
  | notExist
  /-- Any other error. -/
  | failed (msg : String)
deriving DecidableEq, Repr

/-- A snapshot of the files the driver reads. -/
structure FS where
  /-- `ioutil.ReadDir(path)`: the entry names, sorted by the library. -/
  ReadDir : String → Except String (List String)
  /-- `os.Open(path)` and a line scanner over the file. -/
  Open : String → Except String Scan
  /-- `os.Open(path)` and `ReadAt` of `len` bytes at offset `off`. -/
  ReadAt : String → Nat → Nat → ReadAtReply
  /-- `os.Stat(path)`. -/
  Stat : String → StatReply

/-! ## udev.go -/

/-- The scanner loop of `readUevent`; `none` is the panic of `tokens[1]` on a line
without `=`. -/
def readUeventLoop : List String → String × String → Option (String × String)
  | [], acc => some acc
  | line :: rest, (major, minor) => do
    let tokens := Split line '='
    let t0 ← tokens[0]?
    let major ← if t0 = "MAJOR" then tokens[1]? else some major
    let minor ← if t0 = "MINOR" then tokens[1]? else some minor
    readUeventLoop rest (major, minor)

/-- Go `readUevent(sysname)`: the MAJOR and MINOR fields of the uevent file. -/
def readUevent (fs : FS) (sysname : String) : Option (Except GoError (String × String)) :=
  let uevent := Join ["/sys/class/block", sysname, "uevent"]
  match fs.Open uevent with
  | .error err => some (.error (.errorf ("could not open " ++ uevent ++ ": " ++ err)))
  | .ok f =>
    match readUeventLoop f.lines ("", "") with
    | none => none
    | some (major, minor) =>
      match f.err with
      | some err => some (.error (.errorf ("could not parse uevent file: " ++ err)))
      | none =>
        if major = "" ∨ minor = "" then
          some (.error (.errorf
            ("either or both MAJOR and/or MINOR fields were not found in " ++ uevent)))
        else some (.ok (major, minor))

/-- The scanner loop of `readUdevData`, which stops at the first serial line. -/
def readUdevDataLoop : List String → Option String
  | [] => some ""
  | line :: rest => do
    let tokens := Split line '='
    let t0 ← tokens[0]?
    if t0 = "E:ID_SERIAL_SHORT" then tokens[1]? else readUdevDataLoop rest

/-- Go `readUdevData(major, minor)`: the short serial in the udev record. -/
def readUdevData (fs : FS) (major minor : String) : Option (Except GoError String) :=
  let udev := "/run/udev/data/b" ++ major ++ ":" ++ minor
  match fs.Open udev with
  | .error err => some (.error (.errorf ("could not open " ++ udev ++ ": " ++ err)))
  | .ok f =>
    match readUdevDataLoop f.lines with
    | none => none
    | some serial =>
      match f.err with
      | some err => some (.error (.errorf ("failed to parse udev data file: " ++ err)))
      | none => some (.ok serial)

/-- The loop of `findDevWithSerial` over the directory entries; `devices` are the
names collected so far. -/
def findDevLoop (fs : FS) (expectedSerial : String) :
    List String → List String → Option (Except GoError (List String))
  | [], devices => some (.ok devices)
  | sysname :: rest, devices =>
    match readUevent fs sysname with
    | none => none
    | some (.error err) => some (.error err)
    | some (.ok (major, minor)) =>
      match readUdevData fs major minor with
      | none => none
      | some (.error err) => some (.error err)
      | some (.ok devSerial) =>
        findDevLoop fs expectedSerial rest
          (if devSerial = expectedSerial then devices ++ [sysname] else devices)

/-- Go `findDevWithSerial(expectedSerial)`. -/
def findDevWithSerial (fs : FS) (expectedSerial : String) : Option (Except GoError String) :=
  match fs.ReadDir "/sys/class/block" with
  | .error err => some (.error (.errorf ("could not read dir /sys/class/block: " ++ err)))
  | .ok entries =>
    match findDevLoop fs expectedSerial entries [] with
    | none => none
    | some (.error err) => some (.error err)
    | some (.ok devices) =>
      match devices with
      | [] => some (.error .errDeviceNotFound)
      | [dev] => some (.ok (Join ["/dev", dev]))
      | _ :: _ :: _ => some (.error .errMoreThanOneFound)

/-- The serial `findDevWithSerial` reads for one directory entry: `readUevent`, then
`readUdevData` on the pair it returns. -/
def serialOf (fs : FS) (sysname : String) : Option (Except GoError String) :=
  match readUevent fs sysname with
  | none => none
  | some (.error err) => some (.error err)
  | some (.ok (major, minor)) => readUdevData fs major minor

/-- Whether the serial read for an entry is `expectedSerial`. -/
def hasSerial (fs : FS) (expectedSerial sysname : String) : Bool :=
  match serialOf fs sysname with
  | some (.ok serial) => serial = expectedSerial
  | _ => false

/-! ## The mount table: `listMounts` and `isMounted` -/

/-- The constant `propagatedMount`. -/
def propagatedMount : String := "/var/lib/cinder"
/-- The constant `metadataFieldUID`. -/
def metadataFieldUID : String := "docker-volume-driver:uid"
/-- The constant `metadataFieldGID`. -/
def metadataFieldGID : String := "docker-volume-driver:gid"
/-- The constant `metadataFieldMode`. -/
def metadataFieldMode : String := "docker-volume-driver:mode"

/-- Go `m[k] = v` on a `map[string]string` kept as a list of pairs with distinct keys:
an earlier value under the same key is replaced. -/
def mapInsert (m : List (String × String)) (k v : String) : List (String × String) :=
  (k, v) :: m.filter (fun kv => kv.1 ≠ k)

/-- The scanner loop of `listMounts`; `none` is the panic of `w[1]` on a line without a
space. -/
def listMountsLoop : List String → List (String × String) → Option (List (String × String))
  | [], mounts => some mounts
  | line :: rest, mounts => do
    let w := Split line ' '
    let w1 ← w[1]?
    if !HasPrefix w1 propagatedMount then listMountsLoop rest mounts
    else do
      let w0 ← w[0]?
      listMountsLoop rest (mapInsert mounts w0 w1)

/-- Go `listMounts()`: the map from source device to mount target, for the targets that
start with `propagatedMount`. The scanner error is not looked at. -/
def listMounts (fs : FS) : Option (Except GoError (List (String × String))) :=
  match fs.Open "/proc/mounts" with
  | .error err => some (.error (.errorf ("opening /proc/mounts: " ++ err)))
  | .ok f =>
    match listMountsLoop f.lines [] with
    | none => none
    | some mounts => some (.ok mounts)

/-- Go `isMounted(expectedMountpoint)`. -/
def isMounted (fs : FS) (expectedMountpoint : String) : Option (Except GoError Bool) :=
  match listMounts fs with
  | none => none
  | some (.error err) =>
    some (.error (.errorf
      ("checking if a device is mounted on " ++ expectedMountpoint ++ ": " ++ err.Error)))
  | some (.ok mounts) => some (.ok (mounts.any (fun kv => kv.2 = expectedMountpoint)))

/-! ## Go standard library: `strconv.Atoi` -/

/-- Value of a list of decimal digits, `none` if a character is not a digit. -/
def digitsValue : List Char → Nat → Option Nat
  | [], acc => some acc
  | c :: cs, acc =>
    if '0' ≤ c ∧ c ≤ '9' then digitsValue cs (acc * 10 + (c.toNat - '0'.toNat)) else none

/-- Go `strconv.Atoi(s)` on a 64-bit platform: an optional sign and at least one decimal
digit, nothing else; the value has to fit an `int`. The error text puts `s` between double
quotes as it is, where Go applies `strconv.Quote`: the two texts agree for a string of
printable characters without a double quote or a backslash, and differ in the escapes Go
writes for the other characters. The inputs accepted and the values returned are those of
Go. -/
def Atoi (s : String) : Except String Int :=
  let syntaxErr : Except String Int :=
    .error ("strconv.Atoi: parsing \"" ++ s ++ "\": invalid syntax")
  let rangeErr : Except String Int :=
    .error ("strconv.Atoi: parsing \"" ++ s ++ "\": value out of range")
  let (neg, digits) : Bool × List Char :=
    match s.data with
    | '-' :: ds => (true, ds)
    | '+' :: ds => (false, ds)
    | ds => (false, ds)
  if digits = [] then syntaxErr
  else
    match digitsValue digits 0 with
    | none => syntaxErr
    | some n =>
      if neg then (if n ≤ 2 ^ 63 then .ok (-(n : Int)) else rangeErr)
      else (if n < 2 ^ 63 then .ok (n : Int) else rangeErr)

/-! ## The remote control plane and the calls that change the host -/

/-- An entry of `volumes.Volume.Attachments`. -/
structure Attachment where
  ServerID : String
  VolumeID : String
deriving DecidableEq, Repr

/-- The fields of `volumes.Volume` the driver reads. -/
structure Volume where
  ID : String
  Name : String
  Multiattach : Bool
  Attachments : List Attachment
  Metadata : List (String × String)
deriving DecidableEq, Repr

/-- The `volumes.CreateOpts` the driver submits. -/
structure CreateOpts where
  Name : String
  Size : Int
  AvailabilityZone : String
  ConsistencyGroupID : String
  Description : String
  SnapshotID : String
  BackupID : String
  VolumeType : String
  Metadata : List (String × String)
deriving DecidableEq, Repr

/-- The `volumeattach.VolumeAttachment` returned by an attach request. -/
structure VolumeAttachment where
  ServerID : String
  VolumeID : String
  Device : String
deriving DecidableEq, Repr

/-- Reply to `volumes.List(...).AllPages()` followed by `volumes.ExtractVolumes`. -/
inductive ListReply where
  | pagesFailed (msg : String)
  | extractFailed (msg : String)
  | ok (list : List Volume)
deriving DecidableEq, Repr

/-- Reply to `storageClient.Get(url, nil, nil)`: success, or an error together with the
status code of the response when there is one. -/
inductive GetReply where
  | ok
  | failed (status : Option Nat) (msg : String)
deriving DecidableEq, Repr

/-- A Go call result `(T, error)` coming from a collaborator. -/
inductive Reply (α : Type) where
  | ok (a : α)
  | failed (msg : String)
deriving DecidableEq, Repr

/-- One call the driver issued, with the reply it got: the remote requests, the calls
that change the host, and the read of the raw device by `isExt4`. Reads of the text
files under `/sys`, `/run/udev` and `/proc` and `os.Stat` are not logged: they are
answered by the snapshot `FS` of the current state. -/
inductive Event where
  | volumesList (reply : ListReply)
  | volumesCreate (opts : CreateOpts) (reply : Reply Volume)
  | volumesWaitForStatus (id status : String) (secs : Nat) (reply : Option String)
  | volumesDelete (id : String) (reply : Option String)
  | serviceGet (id : String) (reply : GetReply)
  | volumesGet (id : String) (reply : Reply Volume)
  | attachCreate (serverID volumeID : String) (reply : Reply VolumeAttachment)
  | attachDelete (serverID volumeID : String) (reply : Option String)
  | sleep (ms : Nat)
  | readAt (dev : String) (len off : Nat) (reply : ReadAtReply)
  | mkfs (dev : String) (reply : Option String)
  | mkdirAll (path : String) (mode : Nat) (reply : Option String)
  | mountSyscall (dev mountpoint fstype : String) (flags : Nat) (data : String)
      (reply : Option String)
  | mkdir (path : String) (mode : Nat) (reply : Option String)
  | chown (path : String) (uid gid : Int) (reply : Option String)
  | unmountSyscall (mountpoint : String) (flags : Nat) (reply : Option String)
  | remove (path : String) (reply : Option String)
deriving DecidableEq, Repr

/-- The world around the driver, over a state `σ` of its own: the files as they are in
a state, and for every call the reply and the state after it. An `Option String` reply
is a Go `error` (`none` is `nil`). -/
structure Env (σ : Type) where
  fs : σ → FS
  volumesList : σ → ListReply × σ
  volumesCreate : CreateOpts → σ → Reply Volume × σ
  volumesWaitForStatus : String → String → Nat → σ → Option String × σ
  volumesDelete : String → σ → Option String × σ
  serviceGet : String → σ → GetReply × σ
  volumesGet : String → σ → Reply Volume × σ
  attachCreate : String → String → σ → Reply VolumeAttachment × σ
  attachDelete : String → String → σ → Option String × σ
  sleep : Nat → σ → σ
  mkfs : String → σ → Option String × σ
  mkdirAll : String → Nat → σ → Option String × σ
  mountSyscall : String → String → String → Nat → String → σ → Option String × σ
  mkdir : String → Nat → σ → Option String × σ
  chown : String → Int → Int → σ → Option String × σ
  unmountSyscall : String → Nat → σ → Option String × σ
  remove : String → σ → Option String × σ

/-- Outcome of running a piece of the driver: the value (`none` when the code
panicked), the state of the world afterwards, and the calls issued, oldest first. -/
structure Res (σ α : Type) where
  val : Option α
  st : σ
  log : List Event
deriving DecidableEq

/-- A piece of the driver: run in a world and a state of it. -/
def Prog (σ α : Type) : Type := Env σ → σ → Res σ α

namespace Prog

variable {σ α β ρ : Type}

/-- Return a value without touching the world. -/
def ret (a : α) : Prog σ α := fun _ s => ⟨some a, s, []⟩

/-- Sequencing: a panic stops the run, the logs are concatenated. -/
def andThen (x : Prog σ α) (f : α → Prog σ β) : Prog σ β := fun env s =>
  match x env s with
  | ⟨none, s1, l1⟩ => ⟨none, s1, l1⟩
  | ⟨some a, s1, l1⟩ =>
    match f a env s1 with
    | ⟨v, s2, l2⟩ => ⟨v, s2, l1 ++ l2⟩

instance : Monad (Prog σ) where
  pure := ret
  bind := andThen

/-- Issue a call: ask the world, log the call with its reply. -/
def call (h : Env σ → σ → ρ × σ) (ev : ρ → Event) : Prog σ ρ := fun env s =>
  ⟨some (h env s).1, (h env s).2, [ev (h env s).1]⟩

/-- Read the files of the current state; `none` is a panic of the reading code. -/
def read (f : FS → Option α) : Prog σ α := fun env s => ⟨f (env.fs s), s, []⟩

end Prog

/-- Go `gophercloud.WaitFor(timeout, predicate)`: the predicate is polled once a second
until it holds or fails; `timeout` seconds allow at most `timeout` polls, after which
the call fails with a timeout. -/
def WaitFor {σ : Type} : Nat → Prog σ (Reply Bool) → Prog σ (Option String)
  | 0, _ => pure (some "A timeout occurred")
  | n + 1, predicate => do
    match ← predicate with
    | .failed err => pure (some err)
    | .ok true => pure none
    | .ok false => WaitFor n predicate

/-! ## driver.go -/

/-- The configuration held by a `CinderDriver`; its two service clients are the
remote calls of `Env`. -/
structure CinderDriver where
  defaultSize : Int
  serverID : String
  volumePrefix : String
deriving DecidableEq, Repr

/-- The `VolumeCreateOpts` of a request. `main.go` declares `Uid` and `Gid` as `int`,
while `Create` (`driver.go`, lines 105 and 106) stores them as values of a
`map[string]string`, which Go accepts only for strings; the two fields are strings here,
the type under which `Create` is well typed. Nothing else reads them. -/
structure VolumeCreateOpts where
  Size : String
  AvailabilityZone : String
  ConsistencyGroupID : String
  Description : String
  SnapshotID : String
  BackupID : String
  VolumeType : String
  Uid : String
  Gid : String
  Mode : String
deriving DecidableEq, Repr

structure VolumeCreateReq where
  Name : String
  Opts : VolumeCreateOpts
deriving DecidableEq, Repr

structure VolumeCreateResp where
  Err : String
deriving DecidableEq, Repr

structure VolumeRemoveReq where
  Name : String
deriving DecidableEq, Repr

structure VolumeRemoveResp where
  Err : String
deriving DecidableEq, Repr

structure VolumeMountReq where
  Name : String
  ID : String
deriving DecidableEq, Repr

structure VolumeMountResp where
  Mountpoint : String
  Err : String
deriving DecidableEq, Repr

structure VolumePathReq where
  Name : String
deriving DecidableEq, Repr

structure VolumePathResp where
  Mountpoint : String
  Err : String
deriving DecidableEq, Repr

structure VolumeUnmountReq where
  Name : String
  ID : String
deriving DecidableEq, Repr

structure VolumeUnmountResp where
  Err : String
deriving DecidableEq, Repr

structure ListVolume where
  Name : String
  Mountpoint : String
deriving DecidableEq, Repr

structure VolumeListResp where
  Volumes : List ListVolume
  Err : String
deriving DecidableEq, Repr

variable {σ : Type}

/-- Go `d.listVolumes()`: the remote volumes whose name has the configured prefix. -/
def CinderDriver.listVolumes (d : CinderDriver) : Prog σ (Except GoError (List Volume)) := do
  match ← Prog.call (fun env => env.volumesList) Event.volumesList with
  | .pagesFailed err => pure (.error (.errorf ("listing openstack volumes: " ++ err)))
  | .extractFailed err =>
    pure (.error (.errorf ("extracing openstack volumes from api response: " ++ err)))
  | .ok list => pure (.ok (list.filter (fun v => HasPrefix v.Name d.volumePrefix)))

/-- Go `d.findVolume(name)`: the first listed volume with that name. -/
def CinderDriver.findVolume (d : CinderDriver) (name : String) :
    Prog σ (Except GoError Volume) := do
  match ← d.listVolumes with
  | .error err =>
    pure (.error (.errorf ("failed to find volume " ++ name ++ ": " ++ err.Error)))
  | .ok vols =>
    match vols.find? (fun vol => vol.Name = name) with
    | some vol => pure (.ok vol)
    | none => pure (.error .errVolumeNotFound)

/-- The predicate polled by `waitForVolumeDeletion`: done when the lookup fails with
status 404. -/
def deletionPredicate (volID : String) : Prog σ (Reply Bool) := do
  match ← Prog.call (fun env => env.serviceGet volID) (Event.serviceGet volID) with
  | .failed status err => if status = some 404 then pure (.ok true) else pure (.failed err)
  | .ok => pure (.ok false)

/-- Go `d.waitForVolumeDeletion(volID, secs)`. -/
def CinderDriver.waitForVolumeDeletion (_d : CinderDriver) (volID : String) (secs : Nat) :
    Prog σ (Option String) :=
  WaitFor secs (deletionPredicate volID)

/-- The predicate polled by `waitForVolumeAttachStatus`: whether the volume has an
attachment to `serverID`, or has none, as `attachmentNeeded` asks. -/
def attachStatusPredicate (volID serverID : String) (attachmentNeeded : Bool) :
    Prog σ (Reply Bool) := do
  match ← Prog.call (fun env => env.volumesGet volID) (Event.volumesGet volID) with
  | .failed err => pure (.failed err)
  | .ok vol =>
    if vol.Attachments.any (fun att => att.ServerID = serverID) then
      pure (.ok attachmentNeeded)
    else pure (.ok (!attachmentNeeded))

/-- Go `d.waitForVolumeAttachStatus(volID, serverID, attachmentNeeded, timeout)`, the
timeout in seconds. -/
def CinderDriver.waitForVolumeAttachStatus (_d : CinderDriver) (volID serverID : String)
    (attachmentNeeded : Bool) (timeout : Nat) : Prog σ (Option String) :=
  WaitFor timeout (attachStatusPredicate volID serverID attachmentNeeded)

/-- Go `d.attachVolume(logger, vol)`. -/
def CinderDriver.attachVolume (d : CinderDriver) (vol : Volume) :
    Prog σ (Except GoError String) := do
  match ← Prog.call (fun env => env.attachCreate d.serverID vol.ID)
      (Event.attachCreate d.serverID vol.ID) with
  | .failed err =>
    pure (.error (.errorf ("failed to attach volume " ++ vol.Name ++ ": " ++ err)))
  | .ok att =>
    match ← d.waitForVolumeAttachStatus att.VolumeID att.ServerID true 60 with
    | some err =>
      pure (.error (.errorf
        ("error waiting for volume " ++ vol.Name ++ " to be attached: " ++ err)))
    | none => do
      let _ ← Prog.call (fun env s => ((), env.sleep 200 s)) (fun _ => Event.sleep 200)
      Prog.read (fun fs => findDevWithSerial fs att.VolumeID)

/-- The loop of `detachVolume` over the attachments of the volume. -/
def CinderDriver.detachLoop (d : CinderDriver) (vol : Volume) (skipCurrent onlyCurrent : Bool) :
    List Attachment → Prog σ (Option GoError)
  | [] => pure none
  | att :: rest =>
    if skipCurrent ∧ att.ServerID = d.serverID then
      d.detachLoop vol skipCurrent onlyCurrent rest
    else if onlyCurrent ∧ att.ServerID ≠ d.serverID then
      d.detachLoop vol skipCurrent onlyCurrent rest
    else do
      match ← Prog.call (fun env => env.attachDelete att.ServerID vol.ID)
          (Event.attachDelete att.ServerID vol.ID) with
      | some err =>
        pure (some (.errorf ("could not detach volume " ++ vol.Name ++ " from server "
          ++ att.ServerID ++ ": " ++ err)))
      | none =>
        match ← d.waitForVolumeAttachStatus att.VolumeID att.ServerID false 60 with
        | some err =>
          pure (some (.errorf ("error waiting for volume " ++ vol.Name
            ++ " to be detached from server " ++ att.ServerID ++ ": " ++ err)))
        | none => d.detachLoop vol skipCurrent onlyCurrent rest

/-- Go `d.detachVolume(logger, vol, skipCurrent, onlyCurrent)`. -/
def CinderDriver.detachVolume (d : CinderDriver) (vol : Volume) (skipCurrent onlyCurrent : Bool) :
    Prog σ (Option GoError) :=
  d.detachLoop vol skipCurrent onlyCurrent vol.Attachments

/-- The flag `unix.MS_RELATIME`. -/
def MS_RELATIME : Nat := 0x200000

/-- Go `d.mount(dev, mountpoint)`. -/
def CinderDriver.mount (_d : CinderDriver) (dev mountpoint : String) : Prog σ (Option GoError) := do
  match ← Prog.call (fun env => env.mkdirAll mountpoint 0o750)
      (Event.mkdirAll mountpoint 0o750) with
  | some err =>
    pure (some (.errorf
      ("failed to create mountpoint directory " ++ mountpoint ++ ": " ++ err)))
  | none =>
    match ← Prog.call (fun env => env.mountSyscall dev mountpoint "ext4" MS_RELATIME "")
        (Event.mountSyscall dev mountpoint "ext4" MS_RELATIME "") with
    | some err => pure (some (.errorf ("mount syscall failed: " ++ err)))
    | none => pure none

/-- Go `d.format(dev)`: runs `mkfs.ext4 -F dev`. -/
def CinderDriver.format (_d : CinderDriver) (dev : String) : Prog σ (Option GoError) := do
  match ← Prog.call (fun env => env.mkfs dev) (Event.mkfs dev) with
  | some err => pure (some (.errorf ("mkfs.ext4 on " ++ dev ++ " failed: " ++ err)))
  | none => pure none

/-- One metadata field of `getPermsMetadata`: the default when the key is absent or its
value empty, else the value read by `strconv.Atoi`. -/
def permField (vol : Volume) (key : String) (dflt : Int) : Except GoError Int :=
  match vol.Metadata.lookup key with
  | some v =>
    if v ≠ "" then
      match Atoi v with
      | .error err => .error (.errorf ("reading " ++ key ++ ": " ++ err))
      | .ok n => .ok n
    else .ok dflt
  | none => .ok dflt

/-- Go `getPermsMetadata(vol)`: uid, gid and mode. -/
def getPermsMetadata (vol : Volume) : Except GoError (Int × Int × Int) :=
  match permField vol metadataFieldUID 0 with
  | .error err => .error err
  | .ok uid =>
    match permField vol metadataFieldGID 0 with
    | .error err => .error err
    | .ok gid =>
      match permField vol metadataFieldMode 0o750 with
      | .error err => .error err
      | .ok mode => .ok (uid, gid, mode)

/-- The variable `EXT4_SUPER_MAGIC_OFFSET`. -/
def EXT4_SUPER_MAGIC_OFFSET : Nat := 1024 + 0x38
/-- The variable `EXT4_SUPER_MAGIC`. -/
def EXT4_SUPER_MAGIC : List Nat := [0x53, 0xEF]

/-- Go `isExt4(dev)`, on the reply to the read it makes. -/
def isExt4Reply : ReadAtReply → Except GoError Bool
  | .openFailed err =>
    .error (.errorf ("opening device to read ext4 magic number: " ++ err))
  | .read _ (some err) => .error (.errorf ("reading ext4 magic number: " ++ err))
  | .read buf none =>
    if buf.length ≠ EXT4_SUPER_MAGIC.length then
      .error (.errorf "reading ext4 magic number: could not read enough bytes")
    else .ok (decide (EXT4_SUPER_MAGIC = buf))

/-- Go `isExt4(dev)`. -/
def isExt4 (dev : String) : Prog σ (Except GoError Bool) := do
  let reply ← Prog.call
    (fun env s => ((env.fs s).ReadAt dev EXT4_SUPER_MAGIC.length EXT4_SUPER_MAGIC_OFFSET, s))
    (Event.readAt dev EXT4_SUPER_MAGIC.length EXT4_SUPER_MAGIC_OFFSET)
  pure (isExt4Reply reply)

/-- Go `os.FileMode(mode)` for an `int`: the conversion to `uint32`. -/
def FileMode (mode : Int) : Nat := (mode % 4294967296).toNat

/-- Text of a possibly nil error under the verb `%v`. -/
def errText : Option GoError → String
  | some err => err.Error
  | none => "<nil>"

/-- Go `d.Create(logger, req)`. -/
def CinderDriver.Create (d : CinderDriver) (req : VolumeCreateReq) : Prog σ VolumeCreateResp :=
  if !HasPrefix req.Name d.volumePrefix then
    pure { Err := "volume name should be prefixed with " ++ d.volumePrefix }
  else
    match (if req.Opts.Size ≠ "" then Atoi req.Opts.Size else .ok d.defaultSize) with
    | .error err =>
      pure { Err := "could not convert volume size (" ++ req.Opts.Size
        ++ ") from string to int: " ++ err }
    | .ok size => do
      let opts : CreateOpts :=
        { Name := req.Name
          Size := size
          AvailabilityZone := req.Opts.AvailabilityZone
          ConsistencyGroupID := req.Opts.ConsistencyGroupID
          Description := req.Opts.Description
          SnapshotID := req.Opts.SnapshotID
          BackupID := req.Opts.BackupID
          VolumeType := req.Opts.VolumeType
          Metadata := [(metadataFieldUID, req.Opts.Uid), (metadataFieldGID, req.Opts.Gid),
            (metadataFieldMode, req.Opts.Mode)] }
      match ← Prog.call (fun env => env.volumesCreate opts) (Event.volumesCreate opts) with
      | .failed err => pure { Err := "could not create volume " ++ req.Name ++ ": " ++ err }
      | .ok vol =>
        match ← Prog.call (fun env => env.volumesWaitForStatus vol.ID "available" 60)
            (Event.volumesWaitForStatus vol.ID "available" 60) with
        | some err => pure { Err := "error waiting for volume creation to complete: " ++ err }
        | none => pure { Err := "" }

/-- Go `d.Remove(logger, req)`. -/
def CinderDriver.Remove (d : CinderDriver) (req : VolumeRemoveReq) : Prog σ VolumeRemoveResp := do
  match ← d.findVolume req.Name with
  | .error err => pure { Err := err.Error }
  | .ok vol =>
    let mountpoint := Join [propagatedMount, vol.ID]
    match ← Prog.read (fun fs => isMounted fs mountpoint) with
    | .error err => pure { Err := "checking if volume is still mounted: " ++ err.Error }
    | .ok true => pure { Err := "volume is still mounted" }
    | .ok false => do
      let detachErr ←
        (if vol.Attachments.length > 0 then d.detachVolume vol false true else pure none)
      match detachErr with
      | some err => pure { Err := "detaching volume from current server: " ++ err.Error }
      | none =>
        match ← Prog.call (fun env => env.volumesDelete vol.ID) (Event.volumesDelete vol.ID) with
        | some err => pure { Err := "failed to delete volume: " ++ err }
        | none =>
          match ← d.waitForVolumeDeletion vol.ID 60 with
          | some err => pure { Err := "error waiting for volume deletion to complete: " ++ err }
          | none => pure { Err := "" }

/-- The last part of `d.Mount(logger, req)` (from `datadir := ...` on): the data directory
under the mountpoint is created, with the mode and owner of the metadata, if it does not
exist; its path is the mountpoint returned. -/
def CinderDriver.prepareDatadir (_d : CinderDriver) (vol : Volume) (mountpoint : String) :
    Prog σ VolumeMountResp := do
  let datadir := Join [mountpoint, "data"]
  match ← Prog.read (fun fs => some (fs.Stat datadir)) with
  | .failed err => pure { Mountpoint := "", Err := "stat " ++ datadir ++ " failed: " ++ err }
  | .found => pure { Mountpoint := datadir, Err := "" }
  | .notExist =>
    match getPermsMetadata vol with
    | .error err => pure { Mountpoint := "", Err := err.Error }
    | .ok (uid, gid, mode) =>
      match ← Prog.call (fun env => env.mkdir datadir (FileMode mode))
          (Event.mkdir datadir (FileMode mode)) with
      | some err => pure { Mountpoint := "", Err := err }
      | none =>
        match ← Prog.call (fun env => env.chown datadir uid gid)
            (Event.chown datadir uid gid) with
        | some err => pure { Mountpoint := "", Err := err }
        | none => pure { Mountpoint := datadir, Err := "" }

/-- The part of `d.Mount(logger, req)` from `mountpoint := ...` on: the device is mounted on
the mountpoint unless `isMounted` finds it there, then `prepareDatadir`. -/
def CinderDriver.mountFilesystem (d : CinderDriver) (req : VolumeMountReq) (vol : Volume)
    (dev : String) : Prog σ VolumeMountResp := do
  let mountpoint := Join [propagatedMount, vol.ID]
  match ← Prog.read (fun fs => isMounted fs mountpoint) with
  | .error err =>
    pure { Mountpoint := "", Err := "checking if dev is already mounted: " ++ err.Error }
  | .ok mounted =>
    let mountErr ← (if !mounted then d.mount dev mountpoint else pure none)
    match mountErr with
    | some err =>
      pure { Mountpoint := "", Err := "failed to mount volume " ++ req.Name ++ ": "
        ++ err.Error }
    | none => d.prepareDatadir vol mountpoint

/-- The part of `d.Mount(logger, req)` from the point where the device path `dev` of the
volume is known: the device is formatted unless `isExt4` detects a filesystem, then
`mountFilesystem`. -/
def CinderDriver.mountDevice (d : CinderDriver) (req : VolumeMountReq) (vol : Volume)
    (dev : String) : Prog σ VolumeMountResp := do
  match ← isExt4 dev with
  | .error err => pure { Mountpoint := "", Err := err.Error }
  | .ok fsDetected =>
    let formatErr ← (if !fsDetected then d.format dev else pure none)
    match formatErr with
    | some err => pure { Mountpoint := "", Err := err.Error }
    | none => d.mountFilesystem req vol dev

/-- The part of `d.Mount(logger, req)` after the probe for the device: `dev` and
`alreadyAttached` are the variables of that name. A volume that is not multiattach is
detached from the other servers, the volume is attached unless the probe found its
device, then `mountDevice`. -/
def CinderDriver.mountVolume (d : CinderDriver) (req : VolumeMountReq) (vol : Volume)
    (dev : String) (alreadyAttached : Bool) : Prog σ VolumeMountResp := do
  let detachErr ←
    (if vol.Multiattach = false ∧ vol.Attachments.length > 0 then
      d.detachVolume vol true false
    else pure none)
  match detachErr with
  | some err => pure { Mountpoint := "", Err := err.Error }
  | none =>
    let attached ← (if !alreadyAttached then d.attachVolume vol else pure (.ok dev))
    match attached with
    | .error err => pure { Mountpoint := "", Err := err.Error }
    | .ok dev => d.mountDevice req vol dev

/-- Go `d.Mount(logger, req)`: find the volume and probe for its device by serial; a probe
error other than `errDeviceNotFound` ends the call, else `mountVolume` goes on. -/
def CinderDriver.Mount (d : CinderDriver) (req : VolumeMountReq) : Prog σ VolumeMountResp := do
  match ← d.findVolume req.Name with
  | .error err => pure { Mountpoint := "", Err := err.Error }
  | .ok vol =>
    let probe ← Prog.read (fun fs => findDevWithSerial fs vol.ID)
    let (dev, err) : String × Option GoError :=
      match probe with
      | .ok dev => (dev, none)
      | .error err => ("", some err)
    if err ≠ none ∧ err ≠ some .errDeviceNotFound then
      pure { Mountpoint := "", Err := "failed to probe if " ++ req.Name
        ++ " is already attached: " ++ errText err }
    else d.mountVolume req vol dev (decide (err = none))

/-- Go `d.Path(logger, req)`. -/
def CinderDriver.Path (d : CinderDriver) (req : VolumePathReq) : Prog σ VolumePathResp := do
  match ← d.findVolume req.Name with
  | .error err => pure { Mountpoint := "", Err := err.Error }
  | .ok vol =>
    let mountpoint := Join [propagatedMount, vol.ID]
    match ← Prog.read (fun fs => isMounted fs mountpoint) with
    | .error err =>
      pure { Mountpoint := "", Err := "checking if volume " ++ req.Name
        ++ " is already mounted: " ++ err.Error }
    | .ok false => pure { Mountpoint := "", Err := "volume not mounted" }
    | .ok true => pure { Mountpoint := Join [mountpoint, "data"], Err := "" }

/-- Go `d.Unmount(logger, req)`. A failure to remove the mountpoint directory is only
logged. -/
def CinderDriver.Unmount (d : CinderDriver) (req : VolumeUnmountReq) :
    Prog σ VolumeUnmountResp := do
  match ← d.findVolume req.Name with
  | .error err => pure { Err := err.Error }
  | .ok vol =>
    let mountpoint := Join [propagatedMount, vol.ID]
    match ← Prog.read (fun fs => isMounted fs mountpoint) with
    | .error err =>
      pure { Err := "checking if volume " ++ req.Name ++ " is already mounted: "
        ++ err.Error }
    | .ok false => pure { Err := "volume " ++ req.Name ++ " is not mounted" }
    | .ok true =>
      match ← Prog.call (fun env => env.unmountSyscall mountpoint 0)
          (Event.unmountSyscall mountpoint 0) with
      | some err => pure { Err := "unmounting volume " ++ req.Name ++ ": " ++ err }
      | none => do
        let _ ← Prog.call (fun env => env.remove mountpoint) (Event.remove mountpoint)
        pure { Err := "" }

/-- The loop of `List` over the listed volumes; `acc` is `resp.Volumes` so far. -/
def CinderDriver.listLoop (d : CinderDriver) :
    List Volume → List ListVolume → Prog σ VolumeListResp
  | [], acc => pure { Volumes := acc, Err := "" }
  | vol :: rest, acc => do
    let mountpoint := Join [propagatedMount, vol.ID]
    match ← Prog.read (fun fs => isMounted fs mountpoint) with
    | .error err =>
      pure { Volumes := acc, Err := "checking if volume " ++ vol.Name
        ++ " is already mounted: " ++ err.Error }
    | .ok ok =>
      let v : ListVolume :=
        { Name := vol.Name, Mountpoint := if ok then Join [mountpoint, "data"] else "" }
      d.listLoop rest (acc ++ [v])

/-- Go `d.List(logger)`. -/
def CinderDriver.List (d : CinderDriver) : Prog σ VolumeListResp := do
  match ← d.listVolumes with
  | .error err => pure { Volumes := [], Err := err.Error }
  | .ok osVols => d.listLoop osVols []

/-! ## Concrete hosts, for evaluating the driver -/

/-- A file system given by tables: the entries of `/sys/class/block`, the text files
with their lines, the first bytes at offset 1080 of the readable devices, and the paths
that exist for `os.Stat`. -/
def tableFS (block : List String) (files : List (String × List String))
    (magic : List (String × List Nat)) (existing : List String) : FS where
  ReadDir := fun path =>
    if path = "/sys/class/block" then .ok block else .error "no such file or directory"
  Open := fun path =>
    match files.lookup path with
    | some lines => .ok { lines := lines, err := none }
    | none => .error "no such file or directory"
  ReadAt := fun path len _ =>
    match magic.lookup path with
    | some bytes => .read (bytes.take len) none
    | none => .openFailed "no such file or directory"
  Stat := fun path => if path ∈ existing then .found else .notExist

/-- A host with two disks: `vda` without a serial match and `vdb` carrying the serial
`vol-1`. -/
def twoDiskFS : FS :=
  tableFS ["vda", "vdb"]
    [("/sys/class/block/vda/uevent", ["MAJOR=252", "MINOR=0", "DEVNAME=vda", "DEVTYPE=disk"]),
     ("/sys/class/block/vdb/uevent", ["MAJOR=252", "MINOR=16", "DEVNAME=vdb", "DEVTYPE=disk"]),
     ("/run/udev/data/b252:0", ["S:disk/by-path/virtio-pci-0000:00:05.0", "E:ID_SERIAL_SHORT=root"]),
     ("/run/udev/data/b252:16", ["I:3771", "E:ID_SERIAL_SHORT=vol-1", "E:ID_BUS=virtio"])]
    [] []

/-- A world without a state: the listing always returns `vols`, the files are `fs`,
every request succeeds, a looked-up volume has no attachment left and a deleted volume
is gone at once. -/
def staticEnv (vols : List Volume) (fs : FS) : Env Unit where
  fs := fun _ => fs
  volumesList := fun s => (.ok vols, s)
  volumesCreate := fun opts s =>
    (.ok { ID := "id-of-" ++ opts.Name, Name := opts.Name, Multiattach := false,
           Attachments := [], Metadata := opts.Metadata }, s)
  volumesWaitForStatus := fun _ _ _ s => (none, s)
  volumesDelete := fun _ s => (none, s)
  serviceGet := fun _ s => (.failed (some 404) "Resource not found", s)
  volumesGet := fun id s =>
    (.ok { ID := id, Name := "", Multiattach := false, Attachments := [], Metadata := [] }, s)
  attachCreate := fun serverID volumeID s =>
    (.ok { ServerID := serverID, VolumeID := volumeID, Device := "/dev/vdb" }, s)
  attachDelete := fun _ _ s => (none, s)
  sleep := fun _ s => s
  mkfs := fun _ s => (none, s)
  mkdirAll := fun _ _ s => (none, s)
  mountSyscall := fun _ _ _ _ _ s => (none, s)
  mkdir := fun _ _ s => (none, s)
  chown := fun _ _ _ s => (none, s)
  unmountSyscall := fun _ _ s => (none, s)
  remove := fun _ s => (none, s)

/-- The driver of the examples: host `srv-A`, prefix `ns-`, default size 20. -/
def demoDriver : CinderDriver := { defaultSize := 20, serverID := "srv-A", volumePrefix := "ns-" }

/-- The volume of the examples, attached to the host of `demoDriver`; its metadata is
what `Create` stores for uid 1000, gid 1000 and mode 750. -/
def vol1 : Volume where
  ID := "vol-1"
  Name := "ns-vol1"
  Multiattach := false
  Attachments := [{ ServerID := "srv-A", VolumeID := "vol-1" }]
  Metadata := [(metadataFieldUID, "1000"), (metadataFieldGID, "1000"), (metadataFieldMode, "750")]

/-- The text files of a host where `vdb` is the disk of `vol-1`, with the given lines of
`/proc/mounts`. -/
def hostFiles (mounts : List String) : List (String × List String) :=
  [("/sys/class/block/vda/uevent", ["MAJOR=252", "MINOR=0", "DEVNAME=vda", "DEVTYPE=disk"]),
   ("/sys/class/block/vdb/uevent", ["MAJOR=252", "MINOR=16", "DEVNAME=vdb", "DEVTYPE=disk"]),
   ("/run/udev/data/b252:0", ["S:disk/by-path/virtio-pci-0000:00:05.0", "E:ID_SERIAL_SHORT=root"]),
   ("/run/udev/data/b252:16", ["I:3771", "E:ID_SERIAL_SHORT=vol-1", "E:ID_BUS=virtio"]),
   ("/proc/mounts", mounts)]

/-- A mount table in which the disk of `vol-1` is mounted on the mountpoint of the volume
and, after that, on a second directory under the mount root. -/
def sharedSourceMounts : List String :=
  ["/dev/vda1 / ext4 rw,relatime 0 0",
   "/dev/vdb /var/lib/cinder/vol-1 ext4 rw,relatime 0 0",
   "/dev/vdb /var/lib/cinder/inspect ext4 rw,relatime 0 0"]

/-- The host with the mount table `sharedSourceMounts`. -/
def sharedSourceFS : FS :=
  tableFS ["vda", "vdb"] (hostFiles sharedSourceMounts) [("/dev/vdb", [0x53, 0xEF])]
    ["/var/lib/cinder/vol-1/data"]

/-- The host before the first mount of `vol-1`: the disk is attached and carries an ext4
filesystem, nothing is mounted under the mount root, the data directory does not exist. -/
def attachedFS : FS :=
  tableFS ["vda", "vdb"] (hostFiles ["/dev/vda1 / ext4 rw,relatime 0 0"])
    [("/dev/vdb", [0x53, 0xEF])] []

/-- The host after a mount of `vol-1`: the disk is mounted on the mountpoint of the volume
and the data directory exists. -/
def mountedFS : FS :=
  tableFS ["vda", "vdb"]
    (hostFiles ["/dev/vda1 / ext4 rw,relatime 0 0",
      "/dev/vdb /var/lib/cinder/vol-1 ext4 rw,relatime 0 0"])
    [("/dev/vdb", [0x53, 0xEF])] ["/var/lib/cinder/vol-1/data"]

/-- A volume that is not multiattach and is attached to the host of `demoDriver` and to a
second server. -/
def vol2 : Volume where
  ID := "vol-1"
  Name := "ns-vol1"
  Multiattach := false
  Attachments := [{ ServerID := "srv-A", VolumeID := "vol-1" },
    { ServerID := "srv-B", VolumeID := "vol-1" }]
  Metadata := []

/-- The host of `attachedFS` with a disk that carries no filesystem: the two bytes at
offset 1080 are zero. -/
def blankDiskFS : FS :=
  tableFS ["vda", "vdb"] (hostFiles ["/dev/vda1 / ext4 rw,relatime 0 0"])
    [("/dev/vdb", [0, 0])] []

/-- A host on which two disks, `vdb` and `vdc`, carry the serial `vol-1`. -/
def twoSerialFS : FS :=
  tableFS ["vda", "vdb", "vdc"]
    (("/sys/class/block/vdc/uevent", ["MAJOR=252", "MINOR=32", "DEVNAME=vdc", "DEVTYPE=disk"])
      :: ("/run/udev/data/b252:32", ["E:ID_SERIAL_SHORT=vol-1"])
      :: hostFiles ["/dev/vda1 / ext4 rw,relatime 0 0"])
    [("/dev/vdb", [0x53, 0xEF])] []

/-- State of a simulated host `srv-A` and of the remote volume `vol-1`: the attachments
of the volume, whether its disk `vdb` is present on the host and carries the ext4 magic,
the lines of the mount table, and whether the data directory exists. -/
structure Host where
  attachments : List Attachment
  disk : Bool
  ext4 : Bool
  mounts : List String
  datadir : Bool
deriving DecidableEq, Repr

/-- The files of a simulated host. -/
def Host.fs (h : Host) : FS :=
  tableFS (if h.disk then ["vda", "vdb"] else ["vda"]) (hostFiles h.mounts)
    [("/dev/vdb", if h.ext4 then [0x53, 0xEF] else [0, 0])]
    (if h.datadir then ["/var/lib/cinder/vol-1/data"] else [])

/-- The volume `vol-1` as the remote side reports it for a simulated host. -/
def Host.volume (h : Host) : Volume := { vol1 with Attachments := h.attachments }

/-- A world with a state: requests succeed and take effect at once. An attach request
adds the attachment and makes the disk appear, a detach request removes the attachment
(and the disk, when it is the one of `srv-A`), `mkfs` writes the magic, the mount syscall
appends a line to the mount table, the unmount syscall removes the lines of the
mountpoint, `mkdir` creates the data directory. -/
def simEnv : Env Host where
  fs := Host.fs
  volumesList := fun h => (.ok [h.volume], h)
  volumesCreate := fun opts h =>
    (.ok { ID := "vol-1", Name := opts.Name, Multiattach := false, Attachments := [],
           Metadata := opts.Metadata }, h)
  volumesWaitForStatus := fun _ _ _ h => (none, h)
  volumesDelete := fun _ h => (none, h)
  serviceGet := fun _ h => (.failed (some 404) "Resource not found", h)
  volumesGet := fun _ h => (.ok h.volume, h)
  attachCreate := fun serverID volumeID h =>
    let atts := h.attachments ++ [{ ServerID := serverID, VolumeID := volumeID }]
    (.ok { ServerID := serverID, VolumeID := volumeID, Device := "/dev/vdb" },
      { h with attachments := atts, disk := true })
  attachDelete := fun serverID _ h =>
    let atts := h.attachments.filter (fun att => att.ServerID ≠ serverID)
    (none, { h with attachments := atts, disk := if serverID = "srv-A" then false else h.disk })
  sleep := fun _ h => h
  mkfs := fun _ h => (none, { h with ext4 := true })
  mkdirAll := fun _ _ h => (none, h)
  mountSyscall := fun dev mountpoint fstype _ _ h =>
    let line := dev ++ " " ++ mountpoint ++ " " ++ fstype ++ " rw,relatime 0 0"
    (none, { h with mounts := h.mounts ++ [line] })
  mkdir := fun _ _ h => (none, { h with datadir := true })
  chown := fun _ _ _ h => (none, h)
  unmountSyscall := fun mountpoint _ h =>
    let others := h.mounts.filter (fun line => (Split line ' ')[1]? ≠ some mountpoint)
    (none, { h with mounts := others })
  remove := fun _ h => (none, h)

/-- A simulated host before the first mount: the volume is attached to another server,
the disk is not present, nothing is mounted under the mount root. -/
def freshHost : Host where
  attachments := [{ ServerID := "srv-B", VolumeID := "vol-1" }]
  disk := false
  ext4 := false
  mounts := ["/dev/vda1 / ext4 rw,relatime 0 0"]
  datadir := false

/-- The simulated host in the state the first `Mount` of `ns-vol1` from `freshHost` leaves,
after the disk of the volume has also been mounted on a second directory under the mount
root. -/
def remountedHost : Host :=
  let h := (demoDriver.Mount { Name := "ns-vol1", ID := "" } simEnv freshHost).st
  { h with mounts := h.mounts ++ ["/dev/vdb /var/lib/cinder/inspect ext4 rw,relatime 0 0"] }

/-- A volume attached to three servers, the first of them the host of `demoDriver`. -/
def vol3 : Volume where
  ID := "vol-1"
  Name := "ns-vol1"
  Multiattach := true
  Attachments := [{ ServerID := "srv-A", VolumeID := "vol-1" },
    { ServerID := "srv-B", VolumeID := "vol-1" }, { ServerID := "srv-C", VolumeID := "vol-1" }]
  Metadata := []

/-- The world `staticEnv` in which the detach request for the server `srv-B` is refused. -/
def refusingEnv (vols : List Volume) (fs : FS) : Env Unit :=
  { staticEnv vols fs with
    attachDelete := fun serverID _ s =>
      (if serverID = "srv-B" then some "409 Conflict" else none, s) }

/-- A host whose uevent file and udev record hold an empty line and a line without an
equals sign next to the fields the driver reads. -/
def raggedFS : FS :=
  tableFS ["vdb"]
    [("/sys/class/block/vdb/uevent", ["", "MAJOR=252", "DEVNAME", "MINOR=16"]),
     ("/run/udev/data/b252:16", ["", "I:3771", "E:ID_SERIAL_SHORT=vol-1"]),
     ("/proc/mounts", ["/dev/vda1 / ext4 rw,relatime 0 0",
        "/dev/vdb /var/lib/cinder/vol-1 ext4 rw,relatime 0 0"])]
    [] []

/-- A volume that is not multiattach and is attached to the host of `demoDriver` and to
two other servers. -/
def vol4 : Volume where
  ID := "vol-1"
  Name := "ns-vol1"
  Multiattach := false
  Attachments := [{ ServerID := "srv-A", VolumeID := "vol-1" },
    { ServerID := "srv-B", VolumeID := "vol-1" }, { ServerID := "srv-C", VolumeID := "vol-1" }]
  Metadata := []

/-- A world whose state is the attachment list of the remote volume `vol-1`, listed and
looked up as `vol4` with that list. Every request is answered with success. A detach
request takes effect at once, except for the server `srv-B`: its request is accepted but
the attachment stays in the list, so a wait for its detachment runs into the timeout. -/
def lingerEnv (fs : FS) : Env (List Attachment) where
  fs := fun _ => fs
  volumesList := fun atts => (.ok [{ vol4 with Attachments := atts }], atts)
  volumesCreate := fun opts atts =>
    (.ok { ID := "vol-1", Name := opts.Name, Multiattach := false, Attachments := [],
           Metadata := opts.Metadata }, atts)
  volumesWaitForStatus := fun _ _ _ atts => (none, atts)
  volumesDelete := fun _ atts => (none, atts)
  serviceGet := fun _ atts => (.failed (some 404) "Resource not found", atts)
  volumesGet := fun _ atts => (.ok { vol4 with Attachments := atts }, atts)
  attachCreate := fun serverID volumeID atts =>
    (.ok { ServerID := serverID, VolumeID := volumeID, Device := "/dev/vdb" },
      atts ++ [{ ServerID := serverID, VolumeID := volumeID }])
  attachDelete := fun serverID _ atts =>
    (none, if serverID = "srv-B" then atts else atts.filter (fun att => att.ServerID ≠ serverID))
  sleep := fun _ atts => atts
  mkfs := fun _ atts => (none, atts)
  mkdirAll := fun _ _ atts => (none, atts)
  mountSyscall := fun _ _ _ _ _ atts => (none, atts)
  mkdir := fun _ _ atts => (none, atts)
  chown := fun _ _ _ atts => (none, atts)
  unmountSyscall := fun _ _ atts => (none, atts)
  remove := fun _ atts => (none, atts)

/-! ## Vocabulary of the properties -/

/-- A path component that `path.Clean` keeps as it is. -/
def plain (c : List Char) : Prop :=
  c ≠ [] ∧ c ≠ ['.'] ∧ c ≠ ['.', '.'] ∧ '/' ∉ c

/-- Server and volume of a detach request; `none` for any other call. -/
def detachTarget : Event → Option (String × String)
  | .attachDelete serverID volumeID _ => some (serverID, volumeID)
  | _ => none

/-- The kinds of calls. -/
inductive Kind where
  | list | create | waitStatus | delete | serviceGet | get | attach | detach | sleep
  | readAt | mkfs | mkdirAll | mount | mkdir | chown | unmount | remove
deriving DecidableEq, Repr

/-- The kind of a call: `detach` is a detach request (`volumeattach.Delete`), `attach` an
attach request (`volumeattach.Create`), `delete` a delete request (`volumes.Delete`),
`mkfs` a run of `mkfs.ext4`, `mount` a mount syscall. -/
def Event.kind : Event → Kind
  | .volumesList .. => .list
  | .volumesCreate .. => .create
  | .volumesWaitForStatus .. => .waitStatus
  | .volumesDelete .. => .delete
  | .serviceGet .. => .serviceGet
  | .volumesGet .. => .get
  | .attachCreate .. => .attach
  | .attachDelete .. => .detach
  | .sleep .. => .sleep
  | .readAt .. => .readAt
  | .mkfs .. => .mkfs
  | .mkdirAll .. => .mkdirAll
  | .mountSyscall .. => .mount
  | .mkdir .. => .mkdir
  | .chown .. => .chown
  | .unmountSyscall .. => .unmount
  | .remove .. => .remove

/-- The calls of a remote kind that `Mount` issues before it turns to the device. -/
def remoteKind (e : Event) : Prop :=
  e.kind = .list ∨ e.kind = .detach ∨ e.kind = .get ∨ e.kind = .attach ∨ e.kind = .sleep

/-- Source and target of a line of the mount table, when the line has both fields and the
target starts with `propagatedMount`: the entry `listMounts` records for the line. -/
def mountEntry (line : String) : Option (String × String) :=
  match (Split line ' ')[0]?, (Split line ' ')[1]? with
  | some w0, some w1 => if HasPrefix w1 propagatedMount then some (w0, w1) else none
  | _, _ => none

/-- The data directory of a volume when `isMounted` answers yes for its mountpoint on the
files `fs`, the empty string otherwise. -/
def mountpointIfMounted (fs : FS) (vol : Volume) : String :=
  if isMounted fs (Join [propagatedMount, vol.ID]) = some (.ok true) then
    Join [Join [propagatedMount, vol.ID], "data"]
  else ""

/-- One entry for each volume, in order: its name and `mountpointIfMounted`. -/
def listEntries (fs : FS) (vols : List Volume) : List ListVolume :=
  vols.map (fun vol => { Name := vol.Name, Mountpoint := mountpointIfMounted fs vol })

/-- The calls on the device and the local file system that `mountDevice` can issue. -/
def localKind (e : Event) : Prop :=
  e.kind = .readAt ∨ e.kind = .mkfs ∨ e.kind = .mkdirAll ∨ e.kind = .mount ∨ e.kind = .mkdir
    ∨ e.kind = .chown

/-- Every call a program can issue, in any world and state, satisfies `P`. -/
def Prog.logAll {σ α : Type} (P : Event → Prop) (x : Prog σ α) : Prop :=
  ∀ env s, ∀ e ∈ (x env s).log, P e

/-- Every value a program can return, in any world and state, satisfies `Q`. -/
def Prog.valAll {σ α : Type} (Q : α → Prop) (x : Prog σ α) : Prop :=
  ∀ env s a, (x env s).val = some a → Q a

/-- In the world `env`, the log of a run of the program is a part whose calls satisfy `P`
followed by a rest that satisfies `Q`. -/
def Prog.splits {σ α : Type} (env : Env σ) (P : Event → Prop) (Q : List Event → Prop)
    (x : Prog σ α) : Prop :=
  ∀ s, ∃ pre rest, (x env s).log = pre ++ rest ∧ (∀ e ∈ pre, P e) ∧ Q rest

/-- Whether `detachVolume` with the flags `skipCurrent`, `onlyCurrent` lets an attachment
through its two filters. -/
def CinderDriver.passes (d : CinderDriver) (skipCurrent onlyCurrent : Bool) (att : Attachment) :
    Bool :=
  !(skipCurrent && decide (att.ServerID = d.serverID))
    && !(onlyCurrent && decide (att.ServerID ≠ d.serverID))

/-- The error a detach request was answered with; `none` for a detach request that
succeeded and for any other call. -/
def detachError : Event → Option String
  | .attachDelete _ _ reply => reply
  | _ => none

/-- Whether a call is a lookup of a volume (`volumes.Get`) that succeeded and whose
reply lists no attachment to the server `serverID`. -/
def showsDetached (serverID : String) : Event → Bool
  | .volumesGet _ (.ok vol) => !vol.Attachments.any (fun att => att.ServerID = serverID)
  | _ => false

/-- Every detach request of a log is followed, later in the log, by a lookup of the
volume whose reply lists no attachment to the server of the request. -/
def detachesConfirmed : List Event → Bool
  | [] => true
  | e :: rest =>
    (match detachTarget e with
      | some (serverID, _) => rest.any (showsDetached serverID)
      | none => true) && detachesConfirmed rest

/-- Whether the reply recorded with a call is a success. -/
def Event.replyOk : Event → Bool
  | .volumesList (.ok _) => true
  | .volumesList _ => false
  | .volumesCreate _ (.ok _) => true
  | .volumesCreate _ (.failed _) => false
  | .volumesWaitForStatus _ _ _ reply => reply.isNone
  | .volumesDelete _ reply => reply.isNone
  | .serviceGet _ .ok => true
  | .serviceGet _ (.failed _ _) => false
  | .volumesGet _ (.ok _) => true
  | .volumesGet _ (.failed _) => false
  | .attachCreate _ _ (.ok _) => true
  | .attachCreate _ _ (.failed _) => false
  | .attachDelete _ _ reply => reply.isNone
  | .sleep _ => true
  | .readAt _ _ _ (.read _ none) => true
  | .readAt _ _ _ _ => false
  | .mkfs _ reply => reply.isNone
  | .mkdirAll _ _ reply => reply.isNone
  | .mountSyscall _ _ _ _ _ reply => reply.isNone
  | .mkdir _ _ reply => reply.isNone
  | .chown _ _ _ reply => reply.isNone
  | .unmountSyscall _ _ reply => reply.isNone
  | .remove _ reply => reply.isNone

/-! ## Paths: `path.Join` on clean rooted paths -/

theorem splitChars_ne_nil (sep : Char) (cs : List Char) : splitChars sep cs ≠ [] := by
  cases cs with
  | nil => simp [splitChars]
  | cons c cs =>
    simp only [splitChars]
    split
    · simp
    · split <;> simp

theorem splitChars_not_mem (sep : Char) (cs : List Char) (h : sep ∉ cs) :
    splitChars sep cs = [cs] := by
  induction cs with
  | nil => rfl
  | cons c cs ih =>
    have hc : c ≠ sep := fun e => h (by simp [e])
    have hcs : sep ∉ cs := fun e => h (by simp [e])
    simp [splitChars, hc, ih hcs]

theorem splitChars_append (sep : Char) (a b : List Char) (h : sep ∉ a) :
    splitChars sep (a ++ sep :: b) = a :: splitChars sep b := by
  induction a with
  | nil => simp [splitChars]
  | cons c cs ih =>
    have hc : c ≠ sep := fun e => h (by simp [e])
    have hcs : sep ∉ cs := fun e => h (by simp [e])
    simp [splitChars, hc, ih hcs]

theorem splitChars_joinSlash (comps : List (List Char)) (hne : comps ≠ [])
    (h : ∀ c ∈ comps, '/' ∉ c) : splitChars '/' (joinSlash comps) = comps := by
  induction comps with
  | nil => exact absurd rfl hne
  | cons c rest ih =>
    cases rest with
    | nil => simpa [joinSlash] using splitChars_not_mem '/' c (h c (by simp))
    | cons d rest =>
      have hc : '/' ∉ c := h c (by simp)
      have hrest : ∀ x ∈ d :: rest, '/' ∉ x := fun x hx => h x (by simp [hx])
      rw [joinSlash, splitChars_append '/' c _ hc, ih (by simp) hrest]

theorem cleanComponents_plain (rooted : Bool) (comps out : List (List Char))
    (h : ∀ c ∈ comps, plain c) :
    cleanComponents rooted comps out = out.reverse ++ comps := by
  induction comps generalizing out with
  | nil => simp [cleanComponents]
  | cons c rest ih =>
    obtain ⟨h1, h2, h3, _⟩ := h c (by simp)
    have hrest : ∀ x ∈ rest, plain x := fun x hx => h x (by simp [hx])
    rw [cleanComponents.eq_def]
    simp [h1, h2, h3, ih _ hrest]

/-- Go `path.Clean` leaves a rooted path of plain components as it is. -/
theorem cleanChars_rooted (comps : List (List Char)) (h : ∀ c ∈ comps, plain c) :
    cleanChars ('/' :: joinSlash comps) = '/' :: joinSlash comps := by
  cases comps with
  | nil => simp [cleanChars, joinSlash, splitChars, cleanComponents]
  | cons c rest =>
    have hs : splitChars '/' (joinSlash (c :: rest)) = c :: rest :=
      splitChars_joinSlash _ (by simp) (fun x hx => (h x hx).2.2.2)
    have hskip : cleanComponents true ([] :: c :: rest) [] = c :: rest := by
      rw [cleanComponents.eq_def]
      simp [cleanComponents_plain true (c :: rest) [] h]
    simp [cleanChars, splitChars, hs, hskip]

theorem joinSlash_append_singleton (comps : List (List Char)) (hne : comps ≠ [])
    (n : List Char) : joinSlash (comps ++ [n]) = joinSlash comps ++ '/' :: n := by
  induction comps with
  | nil => exact absurd rfl hne
  | cons c rest ih =>
    cases rest with
    | nil => simp [joinSlash]
    | cons d rest =>
      have := ih (by simp)
      simp only [List.cons_append, joinSlash] at this ⊢
      simp [this]

/-- Joining a file name to a clean rooted path appends it after one slash. -/
theorem Join_rooted (comps : List (List Char)) (hne : comps ≠ [])
    (h : ∀ c ∈ comps, plain c) (n : String) (hn : isFileName n) :
    Join [String.mk ('/' :: joinSlash comps), n]
      = String.mk ('/' :: joinSlash (comps ++ [n.data])) := by
  obtain ⟨n1, n2, n3, n4⟩ := hn
  have hp : plain n.data := by
    refine ⟨?_, ?_, ?_, n4⟩
    · intro e; exact n1 (String.ext e)
    · intro e; exact n2 (String.ext e)
    · intro e; exact n3 (String.ext e)
  have hall : ∀ c ∈ comps ++ [n.data], plain c := by
    intro c hc
    rcases List.mem_append.1 hc with hc | hc
    · exact h c hc
    · simp at hc; exact hc ▸ hp
  have hclean := cleanChars_rooted (comps ++ [n.data]) hall
  rw [joinSlash_append_singleton comps hne] at hclean ⊢
  simp only [Join, List.map, List.sum_cons, List.sum_nil, String.length, List.length_cons]
  rw [if_neg (by omega)]
  have hnon : String.mk ('/' :: joinSlash comps) ≠ "" := by
    intro e
    have := congrArg String.data e
    simp at this
  simp [joinBuf, Clean, hclean, hnon]

theorem Join_dev (n : String) (hn : isFileName n) : Join ["/dev", n] = "/dev/" ++ n := by
  have h := Join_rooted [['d', 'e', 'v']] (by simp) (by simp [plain]) n hn
  have e1 : String.mk ('/' :: joinSlash [['d', 'e', 'v']]) = "/dev" := by decide
  rw [e1] at h
  rw [h]
  apply String.ext
  simp [joinSlash]

/-! ## Device resolution -/

theorem findDevLoop_filter (fs : FS) (expectedSerial : String) (entries devices : List String)
    (hread : ∀ n ∈ entries, ∃ serial, serialOf fs n = some (.ok serial)) :
    findDevLoop fs expectedSerial entries devices
      = some (.ok (devices ++ entries.filter (hasSerial fs expectedSerial))) := by
  induction entries generalizing devices with
  | nil => simp [findDevLoop]
  | cons n rest ih =>
    obtain ⟨serial, hs⟩ := hread n (by simp)
    have hrest : ∀ m ∈ rest, ∃ serial, serialOf fs m = some (.ok serial) :=
      fun m hm => hread m (by simp [hm])
    have hhas : hasSerial fs expectedSerial n = decide (serial = expectedSerial) := by
      simp [hasSerial, hs]
    unfold serialOf at hs
    rw [findDevLoop]
    cases hu : readUevent fs n with
    | none => simp [hu] at hs
    | some r =>
      cases r with
      | error e => simp [hu] at hs
      | ok mm =>
        obtain ⟨major, minor⟩ := mm
        simp only [hu] at hs
        simp only [hs]
        rw [ih _ hrest, List.filter_cons, hhas]
        by_cases heq : serial = expectedSerial <;> simp [heq]

/-- C1: when the directory can be listed and the uevent and udev record of every
block-device entry can be read, `findDevWithSerial(volumeID)` decides by the entries whose
serial equals `volumeID`: none gives `errDeviceNotFound`, exactly one gives `/dev/`
followed by its name, two or more give `errMoreThanOneFound` (so no path). -/
theorem findDevWithSerial_by_match_count (fs : FS) (volumeID : String) (entries : List String)
    (hdir : fs.ReadDir "/sys/class/block" = .ok entries)
    (hnames : ∀ n ∈ entries, isFileName n)
    (hread : ∀ n ∈ entries, ∃ serial, serialOf fs n = some (.ok serial)) :
    ((entries.filter (hasSerial fs volumeID)).length = 0 →
      findDevWithSerial fs volumeID = some (.error .errDeviceNotFound)) ∧
    (∀ n, entries.filter (hasSerial fs volumeID) = [n] →
      findDevWithSerial fs volumeID = some (.ok ("/dev/" ++ n))) ∧
    (2 ≤ (entries.filter (hasSerial fs volumeID)).length →
      findDevWithSerial fs volumeID = some (.error .errMoreThanOneFound)) := by
  have hloop := findDevLoop_filter fs volumeID entries [] hread
  simp only [List.nil_append] at hloop
  refine ⟨?_, ?_, ?_⟩
  · intro h0
    have : entries.filter (hasSerial fs volumeID) = [] := List.length_eq_zero.1 h0
    simp [findDevWithSerial, hdir, hloop, this]
  · intro n hn
    have hmem : n ∈ entries := by
      have : n ∈ entries.filter (hasSerial fs volumeID) := by simp [hn]
      exact (List.mem_filter.1 this).1
    simp [findDevWithSerial, hdir, hloop, hn, Join_dev n (hnames n hmem)]
  · intro h2
    simp only [findDevWithSerial, hdir, hloop]
    match hm : entries.filter (hasSerial fs volumeID), h2 with
    | _ :: _ :: _, _ => rfl

/-- C1 on a host with two disks: only `vdb` carries the serial `vol-1`. -/
theorem findDevWithSerial_by_match_count_witness :
    findDevWithSerial twoDiskFS "vol-1" = some (.ok "/dev/vdb") :=
  (findDevWithSerial_by_match_count twoDiskFS "vol-1" ["vda", "vdb"] rfl (by decide)
    (by
      intro n hn
      simp only [List.mem_cons, List.mem_singleton, List.not_mem_nil, or_false] at hn
      rcases hn with rfl | rfl
      · exact ⟨"root", by decide⟩
      · exact ⟨"vol-1", by decide⟩)).2.1 "vdb" (by decide)

/-! ## Running programs -/

namespace Prog

variable {σ α β ρ : Type}

@[simp] theorem run_pure (a : α) (env : Env σ) (s : σ) :
    (pure a : Prog σ α) env s = ⟨some a, s, []⟩ := rfl

@[simp] theorem run_ret (a : α) (env : Env σ) (s : σ) :
    Prog.ret a env s = ⟨some a, s, []⟩ := rfl

@[simp] theorem run_read (f : FS → Option α) (env : Env σ) (s : σ) :
    Prog.read f env s = ⟨f (env.fs s), s, []⟩ := rfl

@[simp] theorem run_call (h : Env σ → σ → ρ × σ) (ev : ρ → Event) (env : Env σ) (s : σ) :
    Prog.call h ev env s = ⟨some (h env s).1, (h env s).2, [ev (h env s).1]⟩ := rfl

theorem run_bind (x : Prog σ α) (f : α → Prog σ β) (env : Env σ) (s : σ) :
    (x >>= f) env s = andThen x f env s := rfl

theorem bind_of_some {x : Prog σ α} {f : α → Prog σ β} {env : Env σ} {s s1 : σ} {a : α}
    {l1 : List Event} (h : x env s = ⟨some a, s1, l1⟩) :
    (x >>= f) env s = ⟨(f a env s1).val, (f a env s1).st, l1 ++ (f a env s1).log⟩ := by
  simp [run_bind, andThen, h]

theorem bind_of_none {x : Prog σ α} {f : α → Prog σ β} {env : Env σ} {s s1 : σ}
    {l1 : List Event} (h : x env s = ⟨none, s1, l1⟩) :
    (x >>= f) env s = ⟨none, s1, l1⟩ := by
  simp [run_bind, andThen, h]

/-- The log of a sequence is the log of the first part, then the log of what follows. -/
theorem log_bind (x : Prog σ α) (f : α → Prog σ β) (env : Env σ) (s : σ) :
    ((x >>= f) env s).log = (x env s).log ∨
      ∃ a, (x env s).val = some a ∧
        ((x >>= f) env s).log = (x env s).log ++ (f a env (x env s).st).log := by
  rcases hx : x env s with ⟨v, s1, l1⟩
  cases v with
  | none => left; simp [bind_of_none hx]
  | some a => right; exact ⟨a, rfl, by simp [bind_of_some hx]⟩

theorem logAll_pure (P : Event → Prop) (a : α) : logAll P (pure a : Prog σ α) := by
  intro env s e he
  simp at he

theorem logAll_read (P : Event → Prop) (f : FS → Option α) :
    logAll P (Prog.read f : Prog σ α) := by
  intro env s e he
  simp at he

theorem logAll_call (P : Event → Prop) (h : Env σ → σ → ρ × σ) (ev : ρ → Event)
    (hP : ∀ r, P (ev r)) : logAll P (Prog.call h ev) := by
  intro env s e he
  simp at he
  exact he ▸ hP _

theorem logAll_bind (P : Event → Prop) (x : Prog σ α) (f : α → Prog σ β)
    (hx : logAll P x) (hf : ∀ a, logAll P (f a)) : logAll P (x >>= f) := by
  intro env s e he
  rcases log_bind x f env s with h | ⟨a, _, h⟩
  · rw [h] at he; exact hx env s e he
  · rw [h] at he
    rcases List.mem_append.1 he with he | he
    · exact hx env s e he
    · exact hf a env _ e he

theorem logAll_mono {P Q : Event → Prop} {x : Prog σ α} (h : ∀ e, P e → Q e)
    (hx : logAll P x) : logAll Q x :=
  fun env s e he => h e (hx env s e he)

theorem logAll_ite (P : Event → Prop) (c : Prop) [Decidable c] (x y : Prog σ α)
    (hx : logAll P x) (hy : logAll P y) : logAll P (if c then x else y) := by
  split
  · exact hx
  · exact hy

@[simp] theorem pure_bind_run (a : α) (f : α → Prog σ β) (env : Env σ) (s : σ) :
    ((pure a : Prog σ α) >>= f) env s = f a env s := by
  simp [run_bind, andThen]

@[simp] theorem read_bind_run (g : FS → Option α) (f : α → Prog σ β) (env : Env σ) (s : σ)
    (a : α) (h : g (env.fs s) = some a) :
    ((Prog.read g : Prog σ α) >>= f) env s = f a env s := by
  simp [run_bind, andThen, h]

theorem call_bind_run (h : Env σ → σ → ρ × σ) (ev : ρ → Event) (f : ρ → Prog σ β)
    (env : Env σ) (s : σ) :
    (Prog.call h ev >>= f) env s
      = ⟨(f (h env s).1 env (h env s).2).val, (f (h env s).1 env (h env s).2).st,
          ev (h env s).1 :: (f (h env s).1 env (h env s).2).log⟩ := by
  simp [run_bind, andThen]

theorem valAll_pure (Q : α → Prop) (a : α) (h : Q a) : valAll Q (pure a : Prog σ α) := by
  intro env s b hb
  simp at hb
  exact hb ▸ h

theorem valAll_bind (Q : β → Prop) (x : Prog σ α) (f : α → Prog σ β)
    (hf : ∀ a, valAll Q (f a)) : valAll Q (x >>= f) := by
  intro env s b hb
  rcases hx : x env s with ⟨v, s1, l1⟩
  cases v with
  | none => simp [bind_of_none hx] at hb
  | some a =>
    rw [bind_of_some hx] at hb
    exact hf a env s1 b hb

theorem valAll_ite (Q : α → Prop) (c : Prop) [Decidable c] (x y : Prog σ α)
    (hx : valAll Q x) (hy : valAll Q y) : valAll Q (if c then x else y) := by
  split
  · exact hx
  · exact hy

theorem splits_of_logAll {env : Env σ} {P : Event → Prop} {Q : List Event → Prop}
    {x : Prog σ α} (hx : logAll P x) (hQ : Q []) : splits env P Q x := by
  intro s
  exact ⟨(x env s).log, [], by simp, hx env s, hQ⟩

theorem splits_of_rest {env : Env σ} {P : Event → Prop} {Q : List Event → Prop}
    {x : Prog σ α} (hx : ∀ s, Q (x env s).log) : splits env P Q x := by
  intro s
  exact ⟨[], (x env s).log, by simp, by simp, hx s⟩

theorem splits_bind {env : Env σ} {P : Event → Prop} {Q : List Event → Prop}
    (x : Prog σ α) (f : α → Prog σ β) (hx : logAll P x) (hQ : Q [])
    (hf : ∀ a, splits env P Q (f a)) : splits env P Q (x >>= f) := by
  intro s
  rcases log_bind x f env s with h | ⟨a, _, h⟩
  · exact ⟨(x env s).log, [], by simp [h], hx env s, hQ⟩
  · obtain ⟨pre, rest, h1, h2, h3⟩ := hf a (x env s).st
    refine ⟨(x env s).log ++ pre, rest, by simp [h, h1], ?_, h3⟩
    intro e he
    rcases List.mem_append.1 he with he | he
    · exact hx env s e he
    · exact h2 e he

theorem splits_ite {env : Env σ} {P : Event → Prop} {Q : List Event → Prop}
    (c : Prop) [Decidable c] (x y : Prog σ α)
    (hx : splits env P Q x) (hy : splits env P Q y) : splits env P Q (if c then x else y) := by
  split
  · exact hx
  · exact hy

end Prog

/-! ## Create -/

/-- C3: for a name that does not start with the configured volume prefix, `Create`
returns a non-empty error and issues no call at all: no create request, no status wait,
and the world is left as it was. -/
theorem Create_rejects_unprefixed_name {σ : Type} (d : CinderDriver) (req : VolumeCreateReq)
    (env : Env σ) (s : σ) (h : HasPrefix req.Name d.volumePrefix = false) :
    ∃ resp, (d.Create req env s).val = some resp ∧ resp.Err ≠ "" ∧
      (d.Create req env s).log = [] ∧ (d.Create req env s).st = s := by
  refine ⟨{ Err := "volume name should be prefixed with " ++ d.volumePrefix }, ?_, ?_, ?_, ?_⟩
  · simp [CinderDriver.Create, h]
  · intro e
    have := congrArg String.length e
    simp [String.length_append] at this
    have h2 : "volume name should be prefixed with ".length = 36 := by decide
    omega
  · simp [CinderDriver.Create, h]
  · simp [CinderDriver.Create, h]

/-- C3 for the name `vol1` under the prefix `ns-`. -/
theorem Create_rejects_unprefixed_name_witness :
    ∃ resp, (demoDriver.Create
        { Name := "vol1", Opts := ⟨"", "", "", "", "", "", "", "1000", "1000", "750"⟩ }
        (staticEnv [] twoDiskFS) ()).val = some resp ∧ resp.Err ≠ "" ∧
      (demoDriver.Create
        { Name := "vol1", Opts := ⟨"", "", "", "", "", "", "", "1000", "1000", "750"⟩ }
        (staticEnv [] twoDiskFS) ()).log = [] ∧
      (demoDriver.Create
        { Name := "vol1", Opts := ⟨"", "", "", "", "", "", "", "1000", "1000", "750"⟩ }
        (staticEnv [] twoDiskFS) ()).st = () :=
  Create_rejects_unprefixed_name demoDriver _ _ () (by decide)

/-! ## The mount table -/

theorem Join_mountpoint (id : String) (hid : isFileName id) :
    Join [propagatedMount, id] = "/var/lib/cinder/" ++ id := by
  have h := Join_rooted [['v', 'a', 'r'], ['l', 'i', 'b'], ['c', 'i', 'n', 'd', 'e', 'r']]
    (by simp) (by simp [plain]) id hid
  have e1 : String.mk ('/' :: joinSlash
      [['v', 'a', 'r'], ['l', 'i', 'b'], ['c', 'i', 'n', 'd', 'e', 'r']]) = propagatedMount := by
    decide
  rw [e1] at h
  rw [h]
  apply String.ext
  simp [joinSlash]

theorem Join_datadir (id : String) (hid : isFileName id) :
    Join [Join [propagatedMount, id], "data"] = "/var/lib/cinder/" ++ id ++ "/data" := by
  have hp : plain id.data := by
    obtain ⟨n1, n2, n3, n4⟩ := hid
    exact ⟨fun e => n1 (String.ext e), fun e => n2 (String.ext e), fun e => n3 (String.ext e), n4⟩
  have h1 := Join_rooted [['v', 'a', 'r'], ['l', 'i', 'b'], ['c', 'i', 'n', 'd', 'e', 'r']]
    (by simp) (by simp [plain]) id hid
  have e1 : String.mk ('/' :: joinSlash
      [['v', 'a', 'r'], ['l', 'i', 'b'], ['c', 'i', 'n', 'd', 'e', 'r']]) = propagatedMount := by
    decide
  rw [e1] at h1
  have h2 := Join_rooted
    ([['v', 'a', 'r'], ['l', 'i', 'b'], ['c', 'i', 'n', 'd', 'e', 'r']] ++ [id.data])
    (by simp) (by
      intro c hc
      simp only [List.mem_append, List.mem_cons, List.mem_singleton, List.not_mem_nil,
        or_false] at hc
      rcases hc with (rfl | rfl | rfl) | rfl
      · simp [plain]
      · simp [plain]
      · simp [plain]
      · exact hp) "data" (by decide)
  rw [h1, h2]
  apply String.ext
  simp [joinSlash]

/-- C10 fails on a mount table in which two entries share their source device: the table
holds an entry whose target is `/var/lib/cinder/vol-1`, a path under the mount root, and
`isMounted` answers false for that path, while it answers true for the target of the
later entry of the same device. -/
theorem isMounted_misses_shared_source :
    (∃ line ∈ sharedSourceMounts, (Split line ' ')[1]? = some "/var/lib/cinder/vol-1") ∧
    HasPrefix "/var/lib/cinder/vol-1" propagatedMount = true ∧
    isMounted sharedSourceFS "/var/lib/cinder/vol-1" = some (.ok false) ∧
    isMounted sharedSourceFS "/var/lib/cinder/inspect" = some (.ok true) := by
  refine ⟨⟨"/dev/vdb /var/lib/cinder/vol-1 ext4 rw,relatime 0 0", by decide, by decide⟩,
    by decide, by decide, by decide⟩

/-! ## Remove -/

/-- C2 fails on the host `sharedSourceFS`: the mount table holds the mountpoint of the
volume, and `Remove` returns no error after a detach request and the delete request. -/
theorem Remove_deletes_volume_in_mount_table :
    (∃ line ∈ sharedSourceMounts,
      (Split line ' ')[1]? = some (Join [propagatedMount, vol1.ID])) ∧
    (demoDriver.Remove { Name := "ns-vol1" } (staticEnv [vol1] sharedSourceFS) ()).val
      = some { Err := "" } ∧
    (demoDriver.Remove { Name := "ns-vol1" } (staticEnv [vol1] sharedSourceFS) ()).log.filter
        (fun e => e.kind = .detach ∨ e.kind = .delete)
      = [Event.attachDelete "srv-A" "vol-1" none, Event.volumesDelete "vol-1" none] := by
  refine ⟨⟨"/dev/vdb /var/lib/cinder/vol-1 ext4 rw,relatime 0 0", by decide, by decide⟩,
    by decide, by decide⟩

/-! ## Path -/

/-- C8 fails for a volume that is not mounted: on the host `attachedFS`, whose mount
table has no entry under the mount root, `Path` returns the empty mountpoint together
with the error `volume not mounted`, not an empty error. -/
theorem Path_unmounted_returns_error :
    isMounted attachedFS (Join [propagatedMount, vol1.ID]) = some (.ok false) ∧
    ∃ resp, (demoDriver.Path { Name := "ns-vol1" } (staticEnv [vol1] attachedFS) ()).val
        = some resp ∧ resp.Mountpoint = "" ∧ resp.Err = "volume not mounted" ∧ resp.Err ≠ "" :=
  ⟨by decide, { Mountpoint := "", Err := "volume not mounted" }, by decide, rfl, rfl, by decide⟩

/-- For a volume found by name, `Path` follows the answer of `isMounted` for the
mountpoint (mount root joined with the volume ID). If the answer is no, it returns the
empty mountpoint and the error `volume not mounted`; if it is yes, it returns the data
directory under the mountpoint with an empty error, which is
`/var/lib/cinder/<volume ID>/data` when the ID is a file name. -/
theorem Path_follows_isMounted {σ : Type} (d : CinderDriver) (req : VolumePathReq)
    (env : Env σ) (s s1 : σ) (vol : Volume) (l : List Event)
    (hfind : d.findVolume req.Name env s = ⟨some (.ok vol), s1, l⟩) :
    (isMounted (env.fs s1) (Join [propagatedMount, vol.ID]) = some (.ok false) →
      (d.Path req env s).val = some { Mountpoint := "", Err := "volume not mounted" }) ∧
    (isMounted (env.fs s1) (Join [propagatedMount, vol.ID]) = some (.ok true) →
      (d.Path req env s).val
        = some { Mountpoint := Join [Join [propagatedMount, vol.ID], "data"], Err := "" } ∧
      (isFileName vol.ID →
        Join [Join [propagatedMount, vol.ID], "data"]
          = "/var/lib/cinder/" ++ vol.ID ++ "/data")) := by
  constructor
  · intro hm
    simp [CinderDriver.Path, Prog.bind_of_some hfind, Prog.run_bind, Prog.andThen, hm]
  · intro hm
    exact ⟨by simp [CinderDriver.Path, Prog.bind_of_some hfind, Prog.run_bind, Prog.andThen, hm],
      Join_datadir vol.ID⟩

/-! ## Permissions of the data directory -/

/-- C9 fails: for the metadata uid `1000`, gid `1000`, mode `750`, `getPermsMetadata`
returns the mode 750 read in base ten, which is not 0o750 (488), and the first `Mount`
creates the data directory with that number as its file mode, whose permission bits are
0o356; the owner is 1000:1000 as claimed. -/
theorem getPermsMetadata_reads_mode_in_decimal :
    getPermsMetadata vol1 = .ok (1000, 1000, 750) ∧ (750 : Int) ≠ 0o750 ∧
    (demoDriver.Mount { Name := "ns-vol1", ID := "" } (staticEnv [vol1] attachedFS) ()).val
      = some { Mountpoint := "/var/lib/cinder/vol-1/data", Err := "" } ∧
    Event.mkdir "/var/lib/cinder/vol-1/data" 750 none ∈
      (demoDriver.Mount { Name := "ns-vol1", ID := "" } (staticEnv [vol1] attachedFS) ()).log ∧
    Event.chown "/var/lib/cinder/vol-1/data" 1000 1000 none ∈
      (demoDriver.Mount { Name := "ns-vol1", ID := "" } (staticEnv [vol1] attachedFS) ()).log ∧
    750 % 0o1000 = 0o356 := by
  refine ⟨by decide, by decide, by decide, by decide, by decide, by decide⟩

/-! ## The calls each part of the driver can issue -/

theorem listVolumes_kinds {σ : Type} (d : CinderDriver) :
    Prog.logAll (fun e => e.kind = .list) (d.listVolumes : Prog σ _) := by
  unfold CinderDriver.listVolumes
  apply Prog.logAll_bind
  · exact Prog.logAll_call _ _ _ (fun _ => rfl)
  · intro r
    cases r <;> exact Prog.logAll_pure _ _

theorem findVolume_kinds {σ : Type} (d : CinderDriver) (name : String) :
    Prog.logAll (fun e => e.kind = .list) (d.findVolume name : Prog σ _) := by
  unfold CinderDriver.findVolume
  apply Prog.logAll_bind
  · exact listVolumes_kinds d
  · intro r
    cases r with
    | error err => exact Prog.logAll_pure _ _
    | ok vols =>
      dsimp only
      split <;> exact Prog.logAll_pure _ _

theorem WaitFor_kinds {σ : Type} (P : Event → Prop) (predicate : Prog σ (Reply Bool))
    (h : Prog.logAll P predicate) (n : Nat) : Prog.logAll P (WaitFor n predicate) := by
  induction n with
  | zero => exact Prog.logAll_pure _ _
  | succ n ih =>
    rw [WaitFor]
    apply Prog.logAll_bind _ _ _ h
    intro r
    cases r with
    | failed err => exact Prog.logAll_pure _ _
    | ok b => cases b <;> first | exact Prog.logAll_pure _ _ | exact ih

theorem waitForVolumeAttachStatus_kinds {σ : Type} (d : CinderDriver) (volID serverID : String)
    (attachmentNeeded : Bool) (timeout : Nat) :
    Prog.logAll (fun e => e.kind = .get)
      (d.waitForVolumeAttachStatus volID serverID attachmentNeeded timeout : Prog σ _) := by
  unfold CinderDriver.waitForVolumeAttachStatus
  apply WaitFor_kinds
  unfold attachStatusPredicate
  apply Prog.logAll_bind
  · exact Prog.logAll_call _ _ _ (fun _ => rfl)
  · intro r
    cases r with
    | failed err => exact Prog.logAll_pure _ _
    | ok vol =>
      dsimp only
      split <;> exact Prog.logAll_pure _ _

theorem WaitFor_returns {σ : Type} (predicate : Prog σ (Reply Bool))
    (h : ∀ env s, ∃ r, (predicate env s).val = some r) (n : Nat) (env : Env σ) (s : σ) :
    ∃ r, (WaitFor n predicate env s).val = some r := by
  induction n generalizing s with
  | zero => exact ⟨_, rfl⟩
  | succ n ih =>
    rw [WaitFor]
    rcases hp : predicate env s with ⟨pv, ps, pl⟩
    obtain ⟨r, hr⟩ := h env s
    rw [hp] at hr
    simp only at hr
    subst hr
    rw [Prog.bind_of_some hp]
    cases r with
    | failed err => exact ⟨_, rfl⟩
    | ok b =>
      cases b with
      | true => exact ⟨_, rfl⟩
      | false => exact ih ps

theorem waitForVolumeAttachStatus_returns {σ : Type} (d : CinderDriver)
    (volID serverID : String) (needed : Bool) (timeout : Nat) (env : Env σ) (s : σ) :
    ∃ r, (d.waitForVolumeAttachStatus volID serverID needed timeout env s).val = some r := by
  unfold CinderDriver.waitForVolumeAttachStatus
  apply WaitFor_returns
  intro env2 s2
  rw [attachStatusPredicate, Prog.call_bind_run]
  cases (env2.volumesGet volID s2).1 with
  | failed err => exact ⟨_, rfl⟩
  | ok vol =>
    simp only []
    split <;> exact ⟨_, rfl⟩

theorem waitForVolumeDeletion_kinds {σ : Type} (d : CinderDriver) (volID : String) (secs : Nat) :
    Prog.logAll (fun e => e.kind = .serviceGet)
      (d.waitForVolumeDeletion volID secs : Prog σ _) := by
  unfold CinderDriver.waitForVolumeDeletion
  apply WaitFor_kinds
  unfold deletionPredicate
  apply Prog.logAll_bind
  · exact Prog.logAll_call _ _ _ (fun _ => rfl)
  · intro r
    cases r with
    | ok => exact Prog.logAll_pure _ _
    | failed status err =>
      dsimp only
      split <;> exact Prog.logAll_pure _ _

theorem attachVolume_kinds {σ : Type} (d : CinderDriver) (vol : Volume) :
    Prog.logAll (fun e => e.kind = .attach ∨ e.kind = .get ∨ e.kind = .sleep)
      (d.attachVolume vol : Prog σ _) := by
  unfold CinderDriver.attachVolume
  apply Prog.logAll_bind
  · exact Prog.logAll_call _ _ _ (fun _ => Or.inl rfl)
  · intro r
    cases r with
    | failed err => exact Prog.logAll_pure _ _
    | ok att =>
      apply Prog.logAll_bind
      · exact Prog.logAll_mono (fun e he => Or.inr (Or.inl he))
          (waitForVolumeAttachStatus_kinds d _ _ _ _)
      · intro w
        cases w with
        | some err => exact Prog.logAll_pure _ _
        | none =>
          apply Prog.logAll_bind
          · exact Prog.logAll_call _ _ _ (fun _ => Or.inr (Or.inr rfl))
          · intro _
            exact Prog.logAll_read _ _

theorem detachLoop_kinds {σ : Type} (d : CinderDriver) (vol : Volume)
    (skipCurrent onlyCurrent : Bool) (atts : List Attachment) :
    Prog.logAll (fun e => e.kind = .detach ∨ e.kind = .get)
      (d.detachLoop vol skipCurrent onlyCurrent atts : Prog σ _) := by
  induction atts with
  | nil => exact Prog.logAll_pure _ _
  | cons att rest ih =>
    rw [CinderDriver.detachLoop]
    split
    · exact ih
    · split
      · exact ih
      · apply Prog.logAll_bind
        · exact Prog.logAll_call _ _ _ (fun _ => Or.inl rfl)
        · intro r
          cases r with
          | some err => exact Prog.logAll_pure _ _
          | none =>
            apply Prog.logAll_bind
            · exact Prog.logAll_mono (fun e he => Or.inr he)
                (waitForVolumeAttachStatus_kinds d _ _ _ _)
            · intro w
              cases w with
              | some err => exact Prog.logAll_pure _ _
              | none => exact ih

theorem format_kinds {σ : Type} (d : CinderDriver) (dev : String) :
    Prog.logAll (fun e => e.kind = .mkfs) (d.format dev : Prog σ _) := by
  unfold CinderDriver.format
  apply Prog.logAll_bind
  · exact Prog.logAll_call _ _ _ (fun _ => rfl)
  · intro r
    cases r <;> exact Prog.logAll_pure _ _

theorem mount_kinds {σ : Type} (d : CinderDriver) (dev mountpoint : String) :
    Prog.logAll (fun e => e.kind = .mkdirAll ∨ e.kind = .mount)
      (d.mount dev mountpoint : Prog σ _) := by
  unfold CinderDriver.mount
  apply Prog.logAll_bind
  · exact Prog.logAll_call _ _ _ (fun _ => Or.inl rfl)
  · intro r
    cases r with
    | some err => exact Prog.logAll_pure _ _
    | none =>
      apply Prog.logAll_bind
      · exact Prog.logAll_call _ _ _ (fun _ => Or.inr rfl)
      · intro r2
        cases r2 <;> exact Prog.logAll_pure _ _

theorem prepareDatadir_kinds {σ : Type} (d : CinderDriver) (vol : Volume) (mountpoint : String) :
    Prog.logAll (fun e => e.kind = .mkdir ∨ e.kind = .chown)
      (d.prepareDatadir vol mountpoint : Prog σ _) := by
  unfold CinderDriver.prepareDatadir
  apply Prog.logAll_bind
  · exact Prog.logAll_read _ _
  · intro r
    cases r with
    | found => exact Prog.logAll_pure _ _
    | failed err => exact Prog.logAll_pure _ _
    | notExist =>
      dsimp only
      split
      · exact Prog.logAll_pure _ _
      · apply Prog.logAll_bind
        · exact Prog.logAll_call _ _ _ (fun _ => Or.inl rfl)
        · intro r1
          cases r1 with
          | some err => exact Prog.logAll_pure _ _
          | none =>
            apply Prog.logAll_bind
            · exact Prog.logAll_call _ _ _ (fun _ => Or.inr rfl)
            · intro r2
              cases r2 <;> exact Prog.logAll_pure _ _

theorem mountFilesystem_kinds {σ : Type} (d : CinderDriver) (req : VolumeMountReq)
    (vol : Volume) (dev : String) :
    Prog.logAll
      (fun e => e.kind = .mkdirAll ∨ e.kind = .mount ∨ e.kind = .mkdir ∨ e.kind = .chown)
      (d.mountFilesystem req vol dev : Prog σ _) := by
  unfold CinderDriver.mountFilesystem
  apply Prog.logAll_bind
  · exact Prog.logAll_read _ _
  · intro r
    cases r with
    | error err => exact Prog.logAll_pure _ _
    | ok mounted =>
      dsimp only
      apply Prog.logAll_bind
      · apply Prog.logAll_ite
        · exact Prog.logAll_mono
            (fun e he => he.elim Or.inl (fun h => Or.inr (Or.inl h))) (mount_kinds d _ _)
        · exact Prog.logAll_pure _ _
      · intro m
        cases m with
        | some err => exact Prog.logAll_pure _ _
        | none =>
          exact Prog.logAll_mono
            (fun e he => he.elim (fun h => Or.inr (Or.inr (Or.inl h)))
              (fun h => Or.inr (Or.inr (Or.inr h))))
            (prepareDatadir_kinds d _ _)

/-! ## Detach requests -/

theorem detachTarget_eq_none (e : Event) (h : e.kind ≠ .detach) : detachTarget e = none := by
  cases e <;> first | rfl | exact absurd rfl h

theorem filterMap_detachTarget_eq_nil (l : List Event) (h : ∀ e ∈ l, e.kind ≠ .detach) :
    l.filterMap detachTarget = [] := by
  induction l with
  | nil => rfl
  | cons e rest ih =>
    have he : detachTarget e = none := detachTarget_eq_none e (h e (List.mem_cons_self _ _))
    rw [List.filterMap_cons, he]
    exact ih (fun x hx => h x (by simp [hx]))

theorem filterMap_detachTarget_wait {σ : Type} (d : CinderDriver) (volID serverID : String)
    (needed : Bool) (timeout : Nat) (env : Env σ) (s : σ) :
    (d.waitForVolumeAttachStatus volID serverID needed timeout env s).log.filterMap detachTarget
      = [] := by
  apply filterMap_detachTarget_eq_nil
  intro e he
  have := waitForVolumeAttachStatus_kinds d volID serverID needed timeout env s e he
  simp only at this
  simp [this]

/-- The detach requests of `detachVolume` go, in the order of the attachment list, to the
attachments that pass its filters; when it returns without error, to all of them. -/
theorem detachLoop_targets {σ : Type} (d : CinderDriver) (vol : Volume)
    (skipCurrent onlyCurrent : Bool) (atts : List Attachment) (env : Env σ) (s : σ) :
    (d.detachLoop vol skipCurrent onlyCurrent atts env s).log.filterMap detachTarget
        <+: (atts.filter (d.passes skipCurrent onlyCurrent)).map
              (fun att => (att.ServerID, vol.ID)) ∧
    ((d.detachLoop vol skipCurrent onlyCurrent atts env s).val = some none →
      (d.detachLoop vol skipCurrent onlyCurrent atts env s).log.filterMap detachTarget
        = (atts.filter (d.passes skipCurrent onlyCurrent)).map
            (fun att => (att.ServerID, vol.ID))) := by
  induction atts generalizing s with
  | nil => simp [CinderDriver.detachLoop]
  | cons att rest ih =>
    rw [CinderDriver.detachLoop]
    by_cases h1 : skipCurrent = true ∧ att.ServerID = d.serverID
    · have hp : d.passes skipCurrent onlyCurrent att = false := by
        simp [CinderDriver.passes, h1.1, h1.2]
      rw [if_pos h1, List.filter_cons, hp]
      exact ih s
    · rw [if_neg h1]
      by_cases h2 : onlyCurrent = true ∧ att.ServerID ≠ d.serverID
      · have hp : d.passes skipCurrent onlyCurrent att = false := by
          simp [CinderDriver.passes, h2.1, h2.2]
        rw [if_pos h2, List.filter_cons, hp]
        exact ih s
      · have hp : d.passes skipCurrent onlyCurrent att = true := by
          simp only [CinderDriver.passes]
          cases skipCurrent <;> cases onlyCurrent <;> simp_all
        rw [if_neg h2, List.filter_cons, hp, Prog.call_bind_run]
        simp only [if_true, List.map_cons]
        rcases hdel : env.attachDelete att.ServerID vol.ID s with ⟨r, s2⟩
        cases r with
        | some err => simp [detachTarget]
        | none =>
          simp only []
          rcases hw : d.waitForVolumeAttachStatus att.VolumeID att.ServerID false 60 env s2
            with ⟨wv, ws, wl⟩
          have hwl : wl.filterMap detachTarget = [] := by
            have := filterMap_detachTarget_wait d att.VolumeID att.ServerID false 60 env s2
            rw [hw] at this
            exact this
          cases wv with
          | none => simp [Prog.bind_of_none hw, detachTarget, hwl]
          | some w =>
            rw [Prog.bind_of_some hw]
            cases w with
            | some err => simp [detachTarget, hwl]
            | none =>
              obtain ⟨ih1, ih2⟩ := ih ws
              simp only [List.filterMap_cons, detachTarget, List.filterMap_append, hwl,
                List.nil_append]
              constructor
              · exact (List.prefix_cons_inj _).2 ih1
              · intro hv
                rw [ih2 hv]

/-- When every detach request and every wait for a detachment succeeds, `detachVolume`
returns without error. -/
theorem detachLoop_succeeds {σ : Type} (d : CinderDriver) (vol : Volume)
    (skipCurrent onlyCurrent : Bool) (env : Env σ)
    (hdel : ∀ serverID volumeID s, (env.attachDelete serverID volumeID s).1 = none)
    (hwait : ∀ volumeID serverID s,
      (d.waitForVolumeAttachStatus volumeID serverID false 60 env s).val = some none)
    (atts : List Attachment) (s : σ) :
    (d.detachLoop vol skipCurrent onlyCurrent atts env s).val = some none := by
  induction atts generalizing s with
  | nil => simp [CinderDriver.detachLoop]
  | cons att rest ih =>
    rw [CinderDriver.detachLoop]
    split
    · exact ih s
    · split
      · exact ih s
      · rw [Prog.call_bind_run]
        have h1 := hdel att.ServerID vol.ID s
        simp only [h1]
        rcases hw : d.waitForVolumeAttachStatus att.VolumeID att.ServerID false 60 env
            (env.attachDelete att.ServerID vol.ID s).2 with ⟨wv, ws, wl⟩
        have h2 := hwait att.VolumeID att.ServerID (env.attachDelete att.ServerID vol.ID s).2
        rw [hw] at h2
        simp only at h2
        subst h2
        rw [Prog.bind_of_some hw]
        exact ih ws

/-! ## Mount: the shape of the log -/

theorem isExt4_run {σ : Type} (dev : String) (env : Env σ) (s : σ) :
    isExt4 dev env s
      = ⟨some (isExt4Reply ((env.fs s).ReadAt dev 2 1080)), s,
          [Event.readAt dev 2 1080 ((env.fs s).ReadAt dev 2 1080)]⟩ := by
  simp [isExt4, Prog.call_bind_run, EXT4_SUPER_MAGIC, EXT4_SUPER_MAGIC_OFFSET]

theorem isExt4Reply_true_iff (reply : ReadAtReply) :
    isExt4Reply reply = .ok true ↔ reply = .read [0x53, 0xEF] none := by
  constructor
  · intro h
    cases reply with
    | openFailed msg => simp [isExt4Reply] at h
    | read buf err =>
      cases err with
      | some e => simp [isExt4Reply] at h
      | none =>
        simp only [isExt4Reply, EXT4_SUPER_MAGIC] at h
        split at h
        · simp at h
        · simp at h
          simp [h]
  · intro h
    subst h
    decide

theorem isExt4Reply_two_bytes (b0 b1 : Nat) (h : [b0, b1] ≠ [0x53, 0xEF]) :
    isExt4Reply (.read [b0, b1] none) = .ok false := by
  have h2 : ¬ ([0x53, 0xEF] = [b0, b1]) := fun e => h e.symm
  simp only [isExt4Reply, EXT4_SUPER_MAGIC, List.length_cons, List.length_nil]
  simp [h2]

theorem format_run {σ : Type} (d : CinderDriver) (dev : String) (env : Env σ) (s : σ) :
    d.format dev env s
      = ⟨some ((env.mkfs dev s).1.map
            (fun err => GoError.errorf ("mkfs.ext4 on " ++ dev ++ " failed: " ++ err))),
          (env.mkfs dev s).2, [Event.mkfs dev (env.mkfs dev s).1]⟩ := by
  rw [CinderDriver.format, Prog.call_bind_run]
  cases (env.mkfs dev s).1 <;> simp

/-- The log of `mountDevice`: the read of the two magic bytes comes first and is the only
read; with the magic found nothing is formatted; without it the format of the device is
the next call and the only format. -/
theorem mountDevice_log {σ : Type} (d : CinderDriver) (req : VolumeMountReq) (vol : Volume)
    (dev : String) (env : Env σ) (s : σ) :
    ∃ post, (d.mountDevice req vol dev env s).log
        = Event.readAt dev 2 1080 ((env.fs s).ReadAt dev 2 1080) :: post ∧
      (∀ e ∈ post, e.kind ≠ .readAt) ∧
      (isExt4Reply ((env.fs s).ReadAt dev 2 1080) = .ok true → ∀ e ∈ post, e.kind ≠ .mkfs) ∧
      (isExt4Reply ((env.fs s).ReadAt dev 2 1080) = .ok false →
        ∃ r post2, post = Event.mkfs dev r :: post2 ∧ ∀ e ∈ post2, e.kind ≠ .mkfs) := by
  have hk : ∀ s2, ∀ e ∈ (d.mountFilesystem req vol dev env s2).log,
      e.kind ≠ .readAt ∧ e.kind ≠ .mkfs := by
    intro s2 e he
    have := mountFilesystem_kinds d req vol dev env s2 e he
    simp only at this
    rcases this with h | h | h | h <;> simp [h]
  rw [CinderDriver.mountDevice, Prog.bind_of_some (isExt4_run dev env s)]
  cases hr : isExt4Reply ((env.fs s).ReadAt dev 2 1080) with
  | error err => exact ⟨[], by simp, by simp, by simp, by simp⟩
  | ok fsDetected =>
    cases fsDetected with
    | true =>
      refine ⟨(d.mountFilesystem req vol dev env s).log, by simp, ?_, ?_, by simp⟩
      · exact fun e he => (hk s e he).1
      · exact fun _ e he => (hk s e he).2
    | false =>
      simp only [Bool.not_false, if_true]
      rw [Prog.bind_of_some (format_run d dev env s)]
      rcases hm : env.mkfs dev s with ⟨r, s2⟩
      cases r with
      | some err =>
        refine ⟨[Event.mkfs dev (some err)], by simp, by simp [Event.kind], by simp, ?_⟩
        exact fun _ => ⟨some err, [], rfl, by simp⟩
      | none =>
        refine ⟨Event.mkfs dev none :: (d.mountFilesystem req vol dev env s2).log, by simp,
          ?_, by simp, ?_⟩
        · intro e he
          rcases List.mem_cons.1 he with he | he
          · simp [he, Event.kind]
          · exact (hk s2 e he).1
        · exact fun _ => ⟨none, _, rfl, fun e he => (hk s2 e he).2⟩

theorem mountVolume_splits {σ : Type} (d : CinderDriver) (req : VolumeMountReq) (env : Env σ)
    (vol : Volume) (dev : String) (alreadyAttached : Bool) :
    Prog.splits env remoteKind
      (fun rest => rest = [] ∨ ∃ vol dev s2, rest = (d.mountDevice req vol dev env s2).log)
      (d.mountVolume req vol dev alreadyAttached) := by
  unfold CinderDriver.mountVolume
  apply Prog.splits_bind
  · apply Prog.logAll_ite
    · exact Prog.logAll_mono
        (fun e he => he.elim (fun h => Or.inr (Or.inl h))
          (fun h => Or.inr (Or.inr (Or.inl h))))
        (detachLoop_kinds d _ _ _ _)
    · exact Prog.logAll_pure _ _
  · exact Or.inl rfl
  · intro detachErr
    cases detachErr with
    | some err => exact Prog.splits_of_logAll (Prog.logAll_pure _ _) (Or.inl rfl)
    | none =>
      dsimp only
      apply Prog.splits_bind
      · apply Prog.logAll_ite
        · exact Prog.logAll_mono
            (fun e he => he.elim (fun h => Or.inr (Or.inr (Or.inr (Or.inl h))))
              (fun h => h.elim (fun h => Or.inr (Or.inr (Or.inl h)))
                (fun h => Or.inr (Or.inr (Or.inr (Or.inr h))))))
            (attachVolume_kinds d _)
        · exact Prog.logAll_pure _ _
      · exact Or.inl rfl
      · intro attached
        cases attached with
        | error err => exact Prog.splits_of_logAll (Prog.logAll_pure _ _) (Or.inl rfl)
        | ok dev2 => exact Prog.splits_of_rest (fun s2 => Or.inr ⟨vol, dev2, s2, rfl⟩)

/-- The log of `Mount` is a run of remote calls, followed by nothing or by the log of
`mountDevice` on the device found or attached. -/
theorem Mount_splits {σ : Type} (d : CinderDriver) (req : VolumeMountReq) (env : Env σ) :
    Prog.splits env remoteKind
      (fun rest => rest = [] ∨ ∃ vol dev s2, rest = (d.mountDevice req vol dev env s2).log)
      (d.Mount req) := by
  unfold CinderDriver.Mount
  apply Prog.splits_bind
  · exact Prog.logAll_mono (fun e he => Or.inl he) (findVolume_kinds d _)
  · exact Or.inl rfl
  · intro r
    cases r with
    | error err => exact Prog.splits_of_logAll (Prog.logAll_pure _ _) (Or.inl rfl)
    | ok vol =>
      dsimp only
      apply Prog.splits_bind
      · exact Prog.logAll_read _ _
      · exact Or.inl rfl
      · intro probe
        cases probe <;>
        · dsimp only
          apply Prog.splits_ite
          · exact Prog.splits_of_logAll (Prog.logAll_pure _ _) (Or.inl rfl)
          · exact mountVolume_splits d req env vol _ _

theorem remoteKind_ne {e : Event} (h : remoteKind e) :
    e.kind ≠ .readAt ∧ e.kind ≠ .mkfs ∧ e.kind ≠ .mount := by
  rcases h with h | h | h | h | h <;> simp [h]

/-- A read of a device in the log of `Mount` is the read of two bytes at offset 1080 made
by `isExt4`; before it come remote calls only, after it the calls of `mountDevice`. -/
theorem Mount_log_of_read {σ : Type} (d : CinderDriver) (req : VolumeMountReq) (env : Env σ)
    (s : σ) (dev : String) (len off : Nat) (reply : ReadAtReply)
    (hmem : Event.readAt dev len off reply ∈ (d.Mount req env s).log) :
    ∃ pre post, (d.Mount req env s).log = pre ++ Event.readAt dev 2 1080 reply :: post ∧
      (∀ e ∈ pre, remoteKind e) ∧
      (isExt4Reply reply = .ok true → ∀ e ∈ post, e.kind ≠ .mkfs) ∧
      (isExt4Reply reply = .ok false →
        ∃ r post2, post = Event.mkfs dev r :: post2 ∧ ∀ e ∈ post2, e.kind ≠ .mkfs) := by
  obtain ⟨pre, rest, hL, hpre, hrest⟩ := Mount_splits d req env s
  rw [hL] at hmem ⊢
  rcases List.mem_append.1 hmem with hin | hin
  · exact absurd rfl (remoteKind_ne (hpre _ hin)).1
  · rcases hrest with h0 | ⟨vol, dev2, s2, hr⟩
    · simp [h0] at hin
    · obtain ⟨post, hlog, hnoread, htrue, hfalse⟩ := mountDevice_log d req vol dev2 env s2
      rw [hr, hlog] at hin ⊢
      rcases List.mem_cons.1 hin with heq | hin2
      · injection heq with h1 h2 h3 h4
        subst h1 h4
        exact ⟨pre, post, rfl, hpre, htrue, hfalse⟩
      · exact absurd rfl (hnoread _ hin2)

/-! ## Filesystem bootstrap -/

/-- C6: `isExt4` makes one read, of 2 bytes at offset 1080 of the device, and returns true
exactly when the bytes read are 0x53, 0xEF. In a run of `Mount`, when that read finds the
magic, no format is run; when it returns two other bytes, the log holds exactly one
format, of that device, and neither a format nor a mount syscall comes before it. -/
theorem Mount_formats_only_without_magic {σ : Type} (d : CinderDriver) (req : VolumeMountReq)
    (env : Env σ) (s : σ) (dev : String) :
    (isExt4 dev env s).log = [Event.readAt dev 2 1080 ((env.fs s).ReadAt dev 2 1080)] ∧
    ((isExt4 dev env s).val = some (.ok true) ↔
      (env.fs s).ReadAt dev 2 1080 = .read [0x53, 0xEF] none) ∧
    (Event.readAt dev 2 1080 (.read [0x53, 0xEF] none) ∈ (d.Mount req env s).log →
      ∀ e ∈ (d.Mount req env s).log, e.kind ≠ .mkfs) ∧
    (∀ b0 b1, [b0, b1] ≠ [0x53, 0xEF] →
      Event.readAt dev 2 1080 (.read [b0, b1] none) ∈ (d.Mount req env s).log →
      ∃ before r after, (d.Mount req env s).log = before ++ Event.mkfs dev r :: after ∧
        (∀ e ∈ before, e.kind ≠ .mkfs ∧ e.kind ≠ .mount) ∧
        (∀ e ∈ after, e.kind ≠ .mkfs)) := by
  refine ⟨by rw [isExt4_run], ?_, ?_, ?_⟩
  · rw [isExt4_run]
    simp only [Option.some.injEq]
    exact isExt4Reply_true_iff _
  · intro hmem
    obtain ⟨pre, post, hL, hpre, htrue, _⟩ := Mount_log_of_read d req env s dev 2 1080 _ hmem
    rw [hL]
    intro e he
    rcases List.mem_append.1 he with he | he
    · exact (remoteKind_ne (hpre e he)).2.1
    · rcases List.mem_cons.1 he with he | he
      · simp [he, Event.kind]
      · exact htrue (by decide) e he
  · intro b0 b1 hne hmem
    obtain ⟨pre, post, hL, hpre, _, hfalse⟩ := Mount_log_of_read d req env s dev 2 1080 _ hmem
    obtain ⟨r, post2, hpost, hno⟩ := hfalse (isExt4Reply_two_bytes b0 b1 hne)
    refine ⟨pre ++ [Event.readAt dev 2 1080 (.read [b0, b1] none)], r, post2, ?_, ?_, hno⟩
    · rw [hL, hpost]
      simp
    · intro e he
      rcases List.mem_append.1 he with he | he
      · exact ⟨(remoteKind_ne (hpre e he)).2.1, (remoteKind_ne (hpre e he)).2.2⟩
      · simp only [List.mem_singleton] at he
        simp [he, Event.kind]

/-- C6 on a disk with the ext4 magic (`attachedFS`) and on a blank disk (`blankDiskFS`). -/
theorem Mount_formats_only_without_magic_witness :
    (∀ e ∈ (demoDriver.Mount { Name := "ns-vol1", ID := "" }
        (staticEnv [vol1] attachedFS) ()).log, e.kind ≠ .mkfs) ∧
    (∃ before r after,
      (demoDriver.Mount { Name := "ns-vol1", ID := "" } (staticEnv [vol1] blankDiskFS) ()).log
        = before ++ Event.mkfs "/dev/vdb" r :: after ∧
      (∀ e ∈ before, e.kind ≠ .mkfs ∧ e.kind ≠ .mount) ∧ (∀ e ∈ after, e.kind ≠ .mkfs)) :=
  ⟨(Mount_formats_only_without_magic demoDriver { Name := "ns-vol1", ID := "" }
      (staticEnv [vol1] attachedFS) () "/dev/vdb").2.2.1 (by decide),
    (Mount_formats_only_without_magic demoDriver { Name := "ns-vol1", ID := "" }
      (staticEnv [vol1] blankDiskFS) () "/dev/vdb").2.2.2 0 0 (by decide) (by decide)⟩

/-! ## Remove: detach, then delete -/

theorem passes_onlyCurrent (d : CinderDriver) :
    d.passes false true = fun att => decide (att.ServerID = d.serverID) := by
  funext att
  simp [CinderDriver.passes]

theorem passes_skipCurrent (d : CinderDriver) :
    d.passes true false = fun att => decide (att.ServerID ≠ d.serverID) := by
  funext att
  simp [CinderDriver.passes]

/-- The detach step of `Remove`. -/
theorem Remove_detach_step {σ : Type} (d : CinderDriver) (vol : Volume) (env : Env σ) (s : σ) :
    (∀ e ∈ ((if vol.Attachments.length > 0 then d.detachVolume vol false true
        else pure none : Prog σ (Option GoError)) env s).log, e.kind = .detach ∨ e.kind = .get) ∧
    ((if vol.Attachments.length > 0 then d.detachVolume vol false true
        else pure none : Prog σ (Option GoError)) env s).log.filterMap detachTarget
      <+: (vol.Attachments.filter (fun att => att.ServerID = d.serverID)).map
            (fun att => (att.ServerID, vol.ID)) ∧
    (((if vol.Attachments.length > 0 then d.detachVolume vol false true
        else pure none : Prog σ (Option GoError)) env s).val = some none →
      ((if vol.Attachments.length > 0 then d.detachVolume vol false true
        else pure none : Prog σ (Option GoError)) env s).log.filterMap detachTarget
      = (vol.Attachments.filter (fun att => att.ServerID = d.serverID)).map
            (fun att => (att.ServerID, vol.ID))) := by
  by_cases hlen : vol.Attachments.length > 0
  · rw [if_pos hlen]
    have h := detachLoop_targets d vol false true vol.Attachments env s
    rw [passes_onlyCurrent] at h
    exact ⟨detachLoop_kinds d vol false true vol.Attachments env s, h.1, h.2⟩
  · rw [if_neg hlen]
    have hnil : vol.Attachments = [] := List.length_eq_zero.1 (by omega)
    simp [hnil]

/-- The log of `Remove` for a volume found by name: after the listing, the calls of the
detach step; then either nothing more, or the delete request followed by the lookups
that wait for the deletion, in which case the detach step has sent a request for every
attachment on the current server. -/
theorem Remove_log {σ : Type} (d : CinderDriver) (req : VolumeRemoveReq) (env : Env σ)
    (s s1 : σ) (vol : Volume) (l : List Event)
    (hfind : d.findVolume req.Name env s = ⟨some (.ok vol), s1, l⟩) :
    ∃ dl, (∀ e ∈ dl, e.kind = .detach ∨ e.kind = .get) ∧
      dl.filterMap detachTarget
        <+: (vol.Attachments.filter (fun att => att.ServerID = d.serverID)).map
              (fun att => (att.ServerID, vol.ID)) ∧
      ((d.Remove req env s).log = l ++ dl ∨
        ∃ r post, (d.Remove req env s).log = l ++ dl ++ Event.volumesDelete vol.ID r :: post ∧
          dl.filterMap detachTarget
            = (vol.Attachments.filter (fun att => att.ServerID = d.serverID)).map
                (fun att => (att.ServerID, vol.ID)) ∧
          ∀ e ∈ post, e.kind = .serviceGet) := by
  rw [CinderDriver.Remove, Prog.bind_of_some hfind]
  simp only []
  rcases hm : isMounted (env.fs s1) (Join [propagatedMount, vol.ID]) with _ | m
  · have hread : (Prog.read (fun fs => isMounted fs (Join [propagatedMount, vol.ID])) :
        Prog σ _) env s1 = ⟨none, s1, []⟩ := by simp [hm]
    rw [Prog.bind_of_none hread]
    exact ⟨[], by simp, by simp, Or.inl (by simp)⟩
  · rw [Prog.read_bind_run _ _ _ _ _ hm]
    cases m with
    | error err => exact ⟨[], by simp, by simp, Or.inl (by simp)⟩
    | ok mounted =>
      cases mounted with
      | true => exact ⟨[], by simp, by simp, Or.inl (by simp)⟩
      | false =>
        simp only []
        obtain ⟨hk, hpre, heq⟩ := Remove_detach_step d vol env s1
        rcases hR : (if vol.Attachments.length > 0 then d.detachVolume vol false true
          else pure none : Prog σ (Option GoError)) env s1 with ⟨dv, ds, dl⟩
        rw [hR] at hk hpre heq
        simp only at hk hpre heq
        refine ⟨dl, hk, hpre, ?_⟩
        cases dv with
        | none => left; rw [Prog.bind_of_none hR]
        | some de =>
          rw [Prog.bind_of_some hR]
          cases de with
          | some err => left; simp
          | none =>
            right
            simp only [Prog.call_bind_run]
            rcases hdel : env.volumesDelete vol.ID ds with ⟨r, s3⟩
            cases r with
            | some err => exact ⟨some err, [], by simp, heq rfl, by simp⟩
            | none =>
              simp only []
              rcases hw : d.waitForVolumeDeletion vol.ID 60 env s3 with ⟨wv, ws, wl⟩
              have hwl : ∀ e ∈ wl, e.kind = .serviceGet := by
                have := waitForVolumeDeletion_kinds d vol.ID 60 env s3
                rw [hw] at this
                exact this
              cases wv with
              | none => exact ⟨none, wl, by simp [Prog.bind_of_none hw], heq rfl, hwl⟩
              | some w =>
                rw [Prog.bind_of_some hw]
                cases w <;> exact ⟨none, wl, by simp, heq rfl, hwl⟩

theorem findVolume_log_kinds {σ : Type} (d : CinderDriver) (name : String) (env : Env σ)
    (s s1 : σ) (r : Except GoError Volume) (l : List Event)
    (hfind : d.findVolume name env s = ⟨some r, s1, l⟩) : ∀ e ∈ l, e.kind = .list := by
  have := findVolume_kinds d name env s
  rw [hfind] at this
  exact this

/-- C7 fails for a volume attached to the current server `srv-A` and to `srv-B`: `Remove`
of the unmounted volume sends one detach request, for `srv-A`, and then the delete
request; the attachment on `srv-B` gets no detach request. -/
theorem Remove_leaves_foreign_attachment :
    { ServerID := "srv-B", VolumeID := "vol-1" } ∈ vol2.Attachments ∧
    isMounted attachedFS (Join [propagatedMount, vol2.ID]) = some (.ok false) ∧
    (demoDriver.Remove { Name := "ns-vol1" } (staticEnv [vol2] attachedFS) ()).log.filterMap
        detachTarget = [("srv-A", "vol-1")] ∧
    Event.volumesDelete "vol-1" none ∈
      (demoDriver.Remove { Name := "ns-vol1" } (staticEnv [vol2] attachedFS) ()).log := by
  refine ⟨by decide, by decide, by decide, by decide⟩

/-- C7, amended: for a volume found by name, every detach request of `Remove` is for the
volume on the current server, and whenever `Remove` issues the delete call, the calls
before it hold a detach request for every attachment of the volume whose server is the
current one, in the order of the attachment list, and no detach request follows. -/
theorem Remove_detaches_current_server_before_delete {σ : Type} (d : CinderDriver)
    (req : VolumeRemoveReq) (env : Env σ) (s s1 : σ) (vol : Volume) (l : List Event)
    (hfind : d.findVolume req.Name env s = ⟨some (.ok vol), s1, l⟩) :
    (∀ serverID volumeID reply,
      Event.attachDelete serverID volumeID reply ∈ (d.Remove req env s).log →
        serverID = d.serverID ∧ volumeID = vol.ID) ∧
    (∀ id reply, Event.volumesDelete id reply ∈ (d.Remove req env s).log →
      id = vol.ID ∧
      ∃ pre post, (d.Remove req env s).log = pre ++ Event.volumesDelete id reply :: post ∧
        pre.filterMap detachTarget
          = (vol.Attachments.filter (fun att => att.ServerID = d.serverID)).map
              (fun att => (att.ServerID, vol.ID)) ∧
        (∀ e ∈ pre, e.kind ≠ .delete) ∧ (∀ e ∈ post, e.kind ≠ .detach)) := by
  have hl := findVolume_log_kinds d req.Name env s s1 _ l hfind
  obtain ⟨dl, hk, hpre, hL⟩ := Remove_log d req env s s1 vol l hfind
  have hdl : ∀ serverID volumeID reply, Event.attachDelete serverID volumeID reply ∈ dl →
      serverID = d.serverID ∧ volumeID = vol.ID := by
    intro serverID volumeID reply hin
    have h1 : (serverID, volumeID) ∈ dl.filterMap detachTarget :=
      List.mem_filterMap.2 ⟨_, hin, rfl⟩
    have h2 := hpre.subset h1
    obtain ⟨att, hatt, heq⟩ := List.mem_map.1 h2
    have h3 := (List.mem_filter.1 hatt).2
    simp only [decide_eq_true_eq] at h3
    simp only [Prod.mk.injEq] at heq
    exact ⟨heq.1 ▸ h3, heq.2.symm⟩
  constructor
  · intro serverID volumeID reply hin
    rcases hL with hL | ⟨r, post, hL, _, hpost⟩
    · rw [hL] at hin
      rcases List.mem_append.1 hin with h | h
      · exact absurd (hl _ h) (by simp [Event.kind])
      · exact hdl _ _ _ h
    · rw [hL] at hin
      rcases List.mem_append.1 hin with h | h
      · rcases List.mem_append.1 h with h | h
        · exact absurd (hl _ h) (by simp [Event.kind])
        · exact hdl _ _ _ h
      · rcases List.mem_cons.1 h with h | h
        · cases h
        · exact absurd (hpost _ h) (by simp [Event.kind])
  · intro id reply hin
    have hnot : Event.volumesDelete id reply ∉ l ++ dl := by
      intro h
      rcases List.mem_append.1 h with h | h
      · exact absurd (hl _ h) (by simp [Event.kind])
      · rcases hk _ h with h | h <;> simp [Event.kind] at h
    rcases hL with hL | ⟨r, post, hL, heq, hpost⟩
    · rw [hL] at hin
      exact absurd hin hnot
    · rw [hL] at hin
      rcases List.mem_append.1 hin with h | h
      · exact absurd h hnot
      · rcases List.mem_cons.1 h with h | h
        · injection h with h1 h2
          subst h1 h2
          refine ⟨rfl, l ++ dl, post, hL, ?_, ?_, ?_⟩
          · rw [List.filterMap_append, heq,
              filterMap_detachTarget_eq_nil l (fun e he => by simp [hl e he])]
            rfl
          · intro e he
            rcases List.mem_append.1 he with h | h
            · simp [hl e h]
            · rcases hk e h with h | h <;> simp [h]
          · intro e he
            simp [hpost e he]
        · exact absurd (hpost _ h) (by simp [Event.kind])

/-- C7, amended, for the volume attached to `srv-A` and `srv-B`. -/
theorem Remove_detaches_current_server_before_delete_witness :
    ∃ pre post,
      (demoDriver.Remove { Name := "ns-vol1" } (staticEnv [vol2] attachedFS) ()).log
        = pre ++ Event.volumesDelete "vol-1" none :: post ∧
      pre.filterMap detachTarget
        = (vol2.Attachments.filter (fun att => att.ServerID = demoDriver.serverID)).map
            (fun att => (att.ServerID, vol2.ID)) ∧
      (∀ e ∈ pre, e.kind ≠ .delete) ∧ (∀ e ∈ post, e.kind ≠ .detach) :=
  ((Remove_detaches_current_server_before_delete demoDriver { Name := "ns-vol1" }
    (staticEnv [vol2] attachedFS) () () vol2 [Event.volumesList (.ok [vol2])]
    (by decide)).2 "vol-1" none (by decide)).2

/-! ## Mount: detach before attach -/

theorem mountDevice_kinds {σ : Type} (d : CinderDriver) (req : VolumeMountReq) (vol : Volume)
    (dev : String) : Prog.logAll localKind (d.mountDevice req vol dev : Prog σ _) := by
  unfold CinderDriver.mountDevice
  apply Prog.logAll_bind
  · unfold isExt4
    apply Prog.logAll_bind
    · exact Prog.logAll_call _ _ _ (fun _ => Or.inl rfl)
    · intro _
      exact Prog.logAll_pure _ _
  · intro r
    cases r with
    | error err => exact Prog.logAll_pure _ _
    | ok fsDetected =>
      dsimp only
      apply Prog.logAll_bind
      · apply Prog.logAll_ite
        · exact Prog.logAll_mono (fun e he => Or.inr (Or.inl he)) (format_kinds d _)
        · exact Prog.logAll_pure _ _
      · intro f
        cases f with
        | some err => exact Prog.logAll_pure _ _
        | none =>
          exact Prog.logAll_mono (fun e he => Or.inr (Or.inr he)) (mountFilesystem_kinds d _ _ _)

theorem localKind_ne {e : Event} (h : localKind e) :
    e.kind ≠ .detach ∧ e.kind ≠ .attach ∧ e.kind ≠ .list := by
  rcases h with h | h | h | h | h | h <;> simp [h]

/-- The log of `mountVolume`: the calls of its detach step, then calls among which there
is no detach request. -/
theorem mountVolume_log {σ : Type} (d : CinderDriver) (req : VolumeMountReq) (vol : Volume)
    (dev : String) (alreadyAttached : Bool) (env : Env σ) (s : σ) :
    ∃ rest, (d.mountVolume req vol dev alreadyAttached env s).log
        = ((if vol.Multiattach = false ∧ vol.Attachments.length > 0 then
              d.detachVolume vol true false
            else pure none : Prog σ (Option GoError)) env s).log ++ rest ∧
      ∀ e ∈ rest, e.kind ≠ .detach := by
  rw [CinderDriver.mountVolume]
  rcases hR : (if vol.Multiattach = false ∧ vol.Attachments.length > 0 then
      d.detachVolume vol true false
    else pure none : Prog σ (Option GoError)) env s with ⟨dv, ds, dl⟩
  cases dv with
  | none => exact ⟨[], by simp [Prog.bind_of_none hR], by simp⟩
  | some de =>
    rw [Prog.bind_of_some hR]
    cases de with
    | some err => exact ⟨[], by simp, by simp⟩
    | none =>
      refine ⟨_, rfl, ?_⟩
      refine (show Prog.logAll (fun e => e.kind ≠ .detach) _ from ?_) env ds
      apply Prog.logAll_bind
      · apply Prog.logAll_ite
        · refine Prog.logAll_mono (fun e he => ?_) (attachVolume_kinds d vol)
          rcases he with h | h | h <;> simp [h]
        · exact Prog.logAll_pure _ _
      · intro attached
        cases attached with
        | error err => exact Prog.logAll_pure _ _
        | ok dev2 =>
          exact Prog.logAll_mono (fun e he => (localKind_ne he).1) (mountDevice_kinds d _ _ _)

/-- The run of `Mount` for a volume found by name, by the outcome of the probe for its
device: a device or `errDeviceNotFound` lead to `mountVolume`; anything else ends the call
after the listing. -/
theorem Mount_log_cases {σ : Type} (d : CinderDriver) (req : VolumeMountReq) (env : Env σ)
    (s s1 : σ) (vol : Volume) (l : List Event)
    (hfind : d.findVolume req.Name env s = ⟨some (.ok vol), s1, l⟩) :
    (∀ dev, findDevWithSerial (env.fs s1) vol.ID = some (.ok dev) →
      d.Mount req env s = ⟨(d.mountVolume req vol dev true env s1).val,
        (d.mountVolume req vol dev true env s1).st,
        l ++ (d.mountVolume req vol dev true env s1).log⟩) ∧
    (findDevWithSerial (env.fs s1) vol.ID = some (.error .errDeviceNotFound) →
      d.Mount req env s = ⟨(d.mountVolume req vol "" false env s1).val,
        (d.mountVolume req vol "" false env s1).st,
        l ++ (d.mountVolume req vol "" false env s1).log⟩) ∧
    ((d.Mount req env s).log = l ∨
      ∃ dev alreadyAttached,
        (d.Mount req env s).log = l ++ (d.mountVolume req vol dev alreadyAttached env s1).log) := by
  rw [CinderDriver.Mount, Prog.bind_of_some hfind]
  simp only []
  rcases hp : findDevWithSerial (env.fs s1) vol.ID with _ | probe
  · have hread : (Prog.read (fun fs => findDevWithSerial fs vol.ID) : Prog σ _) env s1
        = ⟨none, s1, []⟩ := by simp [hp]
    rw [Prog.bind_of_none hread]
    simp
  · rw [Prog.read_bind_run _ _ _ _ _ hp]
    cases probe with
    | ok dev =>
      simp only [ne_eq, not_true_eq_false, false_and, if_false, decide_True]
      refine ⟨?_, by simp, Or.inr ⟨dev, true, rfl⟩⟩
      intro dev2 h2
      simp only [Option.some.injEq, Except.ok.injEq] at h2
      subst h2
      rfl
    | error err =>
      by_cases he : err = .errDeviceNotFound
      · subst he
        simp only [ne_eq, not_true_eq_false, and_false, if_false]
        exact ⟨by simp, fun _ => rfl, Or.inr ⟨"", false, rfl⟩⟩
      · have hc : (some err ≠ none ∧ some err ≠ some GoError.errDeviceNotFound) := by
          simp [he]
        simp only [if_pos hc]
        simp [he]

/-- The run of the predicate polled by `waitForVolumeAttachStatus`: one lookup of the
volume. -/
theorem attachStatusPredicate_run {σ : Type} (volID serverID : String) (needed : Bool)
    (env : Env σ) (s : σ) :
    attachStatusPredicate volID serverID needed env s
      = ⟨some (match (env.volumesGet volID s).1 with
          | .failed err => .failed err
          | .ok vol =>
            if vol.Attachments.any (fun att => att.ServerID = serverID) then .ok needed
            else .ok (!needed)),
         (env.volumesGet volID s).2, [Event.volumesGet volID (env.volumesGet volID s).1]⟩ := by
  rw [attachStatusPredicate, Prog.call_bind_run]
  rcases env.volumesGet volID s with ⟨r, s2⟩
  cases r with
  | failed err => rfl
  | ok vol =>
    simp only []
    split <;> rfl

/-- In a wait for a detachment that fails, no poll shows the attachment gone. -/
theorem wait_failed_never_shows_detached {σ : Type} (volID serverID : String) (n : Nat)
    (env : Env σ) (s : σ) (err : String)
    (h : (WaitFor n (attachStatusPredicate volID serverID false) env s).val = some (some err)) :
    ∀ e ∈ (WaitFor n (attachStatusPredicate volID serverID false) env s).log,
      showsDetached serverID e = false := by
  induction n generalizing s with
  | zero =>
    intro e he
    simp [WaitFor] at he
  | succ n ih =>
    rw [WaitFor, Prog.bind_of_some (attachStatusPredicate_run volID serverID false env s)] at h ⊢
    revert h
    rcases hg : env.volumesGet volID s with ⟨r, s2⟩
    simp only []
    cases r with
    | failed e1 =>
      intro _ e he
      simp only [Prog.run_pure, List.append_nil, List.mem_singleton] at he
      subst he
      rfl
    | ok vol =>
      simp only []
      by_cases ha : vol.Attachments.any (fun att => att.ServerID = serverID) = true
      · simp only [ha, if_true]
        intro h e he
        simp only [List.singleton_append, List.mem_cons] at he
        rcases he with he | he
        · subst he
          simp [showsDetached, ha]
        · exact ih s2 h e he
      · simp only [ha]
        intro h
        simp at h

theorem detachesConfirmed_append_false (a b : List Event) (h : detachesConfirmed b = false) :
    detachesConfirmed (a ++ b) = false := by
  induction a with
  | nil => exact h
  | cons e rest ih => simp [detachesConfirmed, ih]

/-- When `detachVolume` does not return nil although each detach request it made
succeeded, its last request is followed by no lookup that shows the attachment gone. -/
theorem detachLoop_failed_unconfirmed {σ : Type} (d : CinderDriver) (vol : Volume)
    (skipCurrent onlyCurrent : Bool) (atts : List Attachment) (env : Env σ) (s : σ)
    (hval : (d.detachLoop vol skipCurrent onlyCurrent atts env s).val ≠ some none)
    (hreq : ∀ e ∈ (d.detachLoop vol skipCurrent onlyCurrent atts env s).log,
      detachError e = none) :
    detachesConfirmed (d.detachLoop vol skipCurrent onlyCurrent atts env s).log = false := by
  induction atts generalizing s with
  | nil => simp [CinderDriver.detachLoop] at hval
  | cons att rest ih =>
    revert hval hreq
    rw [CinderDriver.detachLoop]
    by_cases h1 : skipCurrent = true ∧ att.ServerID = d.serverID
    · rw [if_pos h1]
      exact ih s
    · rw [if_neg h1]
      by_cases h2 : onlyCurrent = true ∧ att.ServerID ≠ d.serverID
      · rw [if_pos h2]
        exact ih s
      · rw [if_neg h2, Prog.call_bind_run]
        rcases hdel : env.attachDelete att.ServerID vol.ID s with ⟨r, s2⟩
        cases r with
        | some err =>
          intro _ hreq
          have := hreq (Event.attachDelete att.ServerID vol.ID (some err)) (by simp)
          simp [detachError] at this
        | none =>
          simp only []
          rcases hw : d.waitForVolumeAttachStatus att.VolumeID att.ServerID false 60 env s2
            with ⟨wv, ws, wl⟩
          obtain ⟨w, hwv⟩ := waitForVolumeAttachStatus_returns d att.VolumeID att.ServerID
            false 60 env s2
          rw [hw] at hwv
          simp only at hwv
          subst hwv
          rw [Prog.bind_of_some hw]
          cases w with
          | some err =>
            intro _ _
            have hpolls := wait_failed_never_shows_detached att.VolumeID att.ServerID 60 env s2
              err (by
                have : (d.waitForVolumeAttachStatus att.VolumeID att.ServerID false 60 env
                  s2).val = some (some err) := by rw [hw]
                exact this)
            have hwl : ∀ e ∈ wl, showsDetached att.ServerID e = false := by
              have h3 : (d.waitForVolumeAttachStatus att.VolumeID att.ServerID false 60 env
                  s2).log = wl := by rw [hw]
              intro e he
              exact hpolls e (by
                rw [← h3] at he
                exact he)
            have hany : wl.any (showsDetached att.ServerID) = false := by
              rw [List.any_eq_false]
              intro e he
              simp [hwl e he]
            simp [detachesConfirmed, detachTarget, hany]
          | none =>
            intro hval hreq
            have hrest := ih ws hval (fun e he => hreq e (by simp [he]))
            have := detachesConfirmed_append_false
              (Event.attachDelete att.ServerID vol.ID none :: wl) _ hrest
            simpa using this

/-- The log of `mountVolume`: the calls of its detach step, then calls among which there
is no detach request, and none at all unless the detach step returned nil. -/
theorem mountVolume_log_after_step {σ : Type} (d : CinderDriver) (req : VolumeMountReq)
    (vol : Volume) (dev : String) (alreadyAttached : Bool) (env : Env σ) (s : σ) :
    ∃ rest, (d.mountVolume req vol dev alreadyAttached env s).log
        = ((if vol.Multiattach = false ∧ vol.Attachments.length > 0 then
              d.detachVolume vol true false
            else pure none : Prog σ (Option GoError)) env s).log ++ rest ∧
      (∀ e ∈ rest, e.kind ≠ .detach) ∧
      (((if vol.Multiattach = false ∧ vol.Attachments.length > 0 then
            d.detachVolume vol true false
          else pure none : Prog σ (Option GoError)) env s).val ≠ some none → rest = []) := by
  rw [CinderDriver.mountVolume]
  rcases hR : (if vol.Multiattach = false ∧ vol.Attachments.length > 0 then
      d.detachVolume vol true false
    else pure none : Prog σ (Option GoError)) env s with ⟨dv, ds, dl⟩
  cases dv with
  | none => exact ⟨[], by simp [Prog.bind_of_none hR], by simp, fun _ => rfl⟩
  | some de =>
    rw [Prog.bind_of_some hR]
    cases de with
    | some err => exact ⟨[], by simp, by simp, fun _ => rfl⟩
    | none =>
      refine ⟨_, rfl, ?_, fun h => absurd rfl h⟩
      refine (show Prog.logAll (fun e => e.kind ≠ .detach) _ from ?_) env ds
      apply Prog.logAll_bind
      · apply Prog.logAll_ite
        · refine Prog.logAll_mono (fun e he => ?_) (attachVolume_kinds d vol)
          rcases he with h | h | h <;> simp [h]
        · exact Prog.logAll_pure _ _
      · intro attached
        cases attached with
        | error err => exact Prog.logAll_pure _ _
        | ok dev2 =>
          exact Prog.logAll_mono (fun e he => (localKind_ne he).1) (mountDevice_kinds d _ _ _)

/-- The detach step of `Mount` for a volume that is not multiattach: its calls are detach
requests and lookups; the requests go, in order, to attachments on other servers, to all
of them when the step returns nil; when it does not return nil although every request
succeeded, the last request is followed by no lookup that shows the attachment gone. -/
theorem Mount_detach_step {σ : Type} (d : CinderDriver) (vol : Volume) (env : Env σ) (s : σ)
    (hM : vol.Multiattach = false) :
    (∀ e ∈ ((if vol.Multiattach = false ∧ vol.Attachments.length > 0 then
          d.detachVolume vol true false
        else pure none : Prog σ (Option GoError)) env s).log,
      e.kind = .detach ∨ e.kind = .get) ∧
    ((if vol.Multiattach = false ∧ vol.Attachments.length > 0 then
          d.detachVolume vol true false
        else pure none : Prog σ (Option GoError)) env s).log.filterMap detachTarget
      <+: (vol.Attachments.filter (fun att => att.ServerID ≠ d.serverID)).map
            (fun att => (att.ServerID, vol.ID)) ∧
    (((if vol.Multiattach = false ∧ vol.Attachments.length > 0 then
          d.detachVolume vol true false
        else pure none : Prog σ (Option GoError)) env s).val = some none →
      ((if vol.Multiattach = false ∧ vol.Attachments.length > 0 then
          d.detachVolume vol true false
        else pure none : Prog σ (Option GoError)) env s).log.filterMap detachTarget
        = (vol.Attachments.filter (fun att => att.ServerID ≠ d.serverID)).map
            (fun att => (att.ServerID, vol.ID))) ∧
    (((if vol.Multiattach = false ∧ vol.Attachments.length > 0 then
          d.detachVolume vol true false
        else pure none : Prog σ (Option GoError)) env s).val ≠ some none →
      (∀ e ∈ ((if vol.Multiattach = false ∧ vol.Attachments.length > 0 then
            d.detachVolume vol true false
          else pure none : Prog σ (Option GoError)) env s).log, detachError e = none) →
      detachesConfirmed ((if vol.Multiattach = false ∧ vol.Attachments.length > 0 then
          d.detachVolume vol true false
        else pure none : Prog σ (Option GoError)) env s).log = false) := by
  by_cases hlen : vol.Attachments.length > 0
  · rw [if_pos ⟨hM, hlen⟩]
    obtain ⟨t1, t2⟩ := detachLoop_targets d vol true false vol.Attachments env s
    rw [passes_skipCurrent] at t1 t2
    exact ⟨detachLoop_kinds d vol true false vol.Attachments env s, t1, t2,
      detachLoop_failed_unconfirmed d vol true false vol.Attachments env s⟩
  · have hnil : vol.Attachments = [] := List.length_eq_zero.1 (by omega)
    rw [if_neg (fun h => hlen h.2)]
    simp [hnil]

/-- C4 fails in two ways although every remote call made is answered with success. On
the host `twoSerialFS` two disks carry the serial of the volume, so the probe for the
device fails: the volume is not multiattach and has an attachment on the other server
`srv-B`, and `Mount` ends after the listing without any detach request. In the world
`lingerEnv` the detach request for `srv-B` is accepted but the attachment stays in the
list of the volume: the volume is not multiattach and is attached to the other servers
`srv-B` and `srv-C`, the probe finds its device, every call of the run is answered with
success, no lookup after the detach request shows the attachment to `srv-B` gone, and
`Mount` ends with the timeout of the wait for `srv-B`, without a detach request for
`srv-C`. -/
theorem Mount_leaves_foreign_attachment_unrequested :
    (vol2.Multiattach = false ∧
      { ServerID := "srv-B", VolumeID := "vol-1" } ∈ vol2.Attachments ∧
      "srv-B" ≠ demoDriver.serverID ∧
      findDevWithSerial twoSerialFS vol2.ID = some (.error .errMoreThanOneFound) ∧
      (demoDriver.Mount { Name := "ns-vol1", ID := "" } (staticEnv [vol2] twoSerialFS) ()).log
        = [Event.volumesList (.ok [vol2])] ∧
      (demoDriver.Mount { Name := "ns-vol1", ID := "" }
        (staticEnv [vol2] twoSerialFS) ()).log.filterMap detachTarget = []) ∧
    (vol4.Multiattach = false ∧
      { ServerID := "srv-C", VolumeID := "vol-1" } ∈ vol4.Attachments ∧
      "srv-C" ≠ demoDriver.serverID ∧
      demoDriver.findVolume "ns-vol1" (lingerEnv attachedFS) vol4.Attachments
        = ⟨some (.ok vol4), vol4.Attachments, [Event.volumesList (.ok [vol4])]⟩ ∧
      findDevWithSerial attachedFS vol4.ID = some (.ok "/dev/vdb") ∧
      (∀ e ∈ (demoDriver.Mount { Name := "ns-vol1", ID := "" } (lingerEnv attachedFS)
          vol4.Attachments).log, e.replyOk = true) ∧
      detachesConfirmed (demoDriver.Mount { Name := "ns-vol1", ID := "" }
          (lingerEnv attachedFS) vol4.Attachments).log = false ∧
      (demoDriver.Mount { Name := "ns-vol1", ID := "" } (lingerEnv attachedFS)
          vol4.Attachments).log.map Event.kind
        = [.list, .detach] ++ List.replicate 60 .get ∧
      (demoDriver.Mount { Name := "ns-vol1", ID := "" } (lingerEnv attachedFS)
          vol4.Attachments).log.filterMap detachTarget = [("srv-B", "vol-1")] ∧
      (demoDriver.Mount { Name := "ns-vol1", ID := "" } (lingerEnv attachedFS)
          vol4.Attachments).val
        = some { Mountpoint := "", Err := "error waiting for volume ns-vol1 to be detached "
            ++ "from server srv-B: A timeout occurred" }) := by
  refine ⟨⟨by decide, by decide, by decide, by decide, by decide, by decide⟩,
    by decide, by decide, by decide, by decide, by decide, by decide, by decide, by decide,
    by decide, by decide⟩

/-- C4, amended: in `Mount` of a volume found by name,
* if the volume is multiattach, no detach request is issued, whatever its attachments;
* if it is not, the detach requests issued go, in the order of the attachment list, to
  attachments whose server is not the current one, without a gap, and never to an
  attachment of the current server; before any attach request there has been a detach
  request for each attachment on another server; and when the probe for the device
  returns a device or `errDeviceNotFound`, every detach request of the run is answered
  with success and each is followed by a lookup of the volume that shows the attachment
  gone (the wait for the detachment did not time out), the detach requests issued are
  those for the attachments on other servers, each of them;
* in every case all detach requests come before any attach request. -/
theorem Mount_detaches_foreign_attachments_first {σ : Type} (d : CinderDriver)
    (req : VolumeMountReq) (env : Env σ) (s s1 : σ) (vol : Volume) (l : List Event)
    (hfind : d.findVolume req.Name env s = ⟨some (.ok vol), s1, l⟩) :
    (vol.Multiattach = true → ∀ e ∈ (d.Mount req env s).log, e.kind ≠ .detach) ∧
    (vol.Multiattach = false →
      (d.Mount req env s).log.filterMap detachTarget
        <+: (vol.Attachments.filter (fun att => att.ServerID ≠ d.serverID)).map
              (fun att => (att.ServerID, vol.ID)) ∧
      (∀ pre e post, (d.Mount req env s).log = pre ++ e :: post → e.kind = .attach →
        pre.filterMap detachTarget
          = (vol.Attachments.filter (fun att => att.ServerID ≠ d.serverID)).map
              (fun att => (att.ServerID, vol.ID))) ∧
      (((∃ dev, findDevWithSerial (env.fs s1) vol.ID = some (.ok dev)) ∨
          findDevWithSerial (env.fs s1) vol.ID = some (.error .errDeviceNotFound)) →
        (∀ e ∈ (d.Mount req env s).log, detachError e = none) →
        detachesConfirmed (d.Mount req env s).log = true →
        (d.Mount req env s).log.filterMap detachTarget
          = (vol.Attachments.filter (fun att => att.ServerID ≠ d.serverID)).map
              (fun att => (att.ServerID, vol.ID)))) ∧
    (∃ pre post, (d.Mount req env s).log = pre ++ post ∧
      (∀ e ∈ pre, e.kind ≠ .attach) ∧ (∀ e ∈ post, e.kind ≠ .detach)) := by
  have hl := findVolume_log_kinds d req.Name env s s1 _ l hfind
  have hlnil : l.filterMap detachTarget = [] :=
    filterMap_detachTarget_eq_nil l (fun e he => by simp [hl e he])
  obtain ⟨hok, hnf, hcases⟩ := Mount_log_cases d req env s s1 vol l hfind
  refine ⟨?_, ?_, ?_⟩
  · intro hM e he
    rcases hcases with h | ⟨dev, aa, h⟩
    · rw [h] at he
      simp [hl e he]
    · obtain ⟨rest, hlog, hrest⟩ := mountVolume_log d req vol dev aa env s1
      rw [h, hlog] at he
      simp only [hM, Bool.true_eq_false, false_and, if_false, Prog.run_pure,
        List.nil_append] at he
      rcases List.mem_append.1 he with he | he
      · simp [hl e he]
      · exact hrest e he
  · intro hM
    refine ⟨?_, ?_, ?_⟩
    · rcases hcases with h | ⟨dev, aa, h⟩
      · rw [h, hlnil]
        exact List.nil_prefix
      · obtain ⟨rest, hlog, hrest, _⟩ := mountVolume_log_after_step d req vol dev aa env s1
        obtain ⟨_, t1, _, _⟩ := Mount_detach_step d vol env s1 hM
        rw [h, hlog, List.filterMap_append, List.filterMap_append, hlnil,
          filterMap_detachTarget_eq_nil rest hrest, List.nil_append, List.append_nil]
        exact t1
    · intro pre e post hsplit hk
      rcases hcases with h | ⟨dev, aa, h⟩
      · have he : e ∈ l := by
          rw [← h, hsplit]
          simp
        rw [hl e he] at hk
        exact absurd hk (by decide)
      · obtain ⟨rest, hlog, hrest, hstop⟩ := mountVolume_log_after_step d req vol dev aa env s1
        obtain ⟨k1, _, t2, _⟩ := Mount_detach_step d vol env s1 hM
        rw [h, hlog, ← List.append_assoc] at hsplit
        have hnot : ∀ x ∈ l ++ ((if vol.Multiattach = false ∧ vol.Attachments.length > 0 then
            d.detachVolume vol true false
          else pure none : Prog σ (Option GoError)) env s1).log, x.kind ≠ .attach := by
          intro x hx
          rcases List.mem_append.1 hx with hx | hx
          · simp [hl x hx]
          · rcases k1 x hx with hx | hx <;> simp [hx]
        have hval : ((if vol.Multiattach = false ∧ vol.Attachments.length > 0 then
            d.detachVolume vol true false
          else pure none : Prog σ (Option GoError)) env s1).val = some none := by
          by_contra hne
          rw [hstop hne, List.append_nil] at hsplit
          exact hnot e (by rw [hsplit]; simp) hk
        rcases List.append_eq_append_iff.1 hsplit with ⟨a2, hpre, hrest2⟩ | ⟨c2, hpre, hpost⟩
        · rw [hpre, List.filterMap_append, List.filterMap_append, hlnil, List.nil_append,
            t2 hval]
          have : a2.filterMap detachTarget = [] := by
            apply filterMap_detachTarget_eq_nil
            intro x hx
            exact hrest x (by rw [hrest2]; simp [hx])
          rw [this, List.append_nil]
        · cases c2 with
          | nil =>
            rw [List.append_nil] at hpre
            rw [← hpre, List.filterMap_append, hlnil, List.nil_append, t2 hval]
          | cons c cs =>
            simp only [List.cons_append, List.cons.injEq] at hpost
            exact absurd hk (hnot e (by rw [hpre, hpost.1]; simp))
    · intro hprobe hreq hconf
      have hrun : ∃ dev aa, (d.Mount req env s).log
          = l ++ (d.mountVolume req vol dev aa env s1).log := by
        rcases hprobe with ⟨dev, hdev⟩ | hnot
        · exact ⟨dev, true, by rw [hok dev hdev]⟩
        · exact ⟨"", false, by rw [hnf hnot]⟩
      obtain ⟨dev, aa, h⟩ := hrun
      obtain ⟨rest, hlog, hrest, hstop⟩ := mountVolume_log_after_step d req vol dev aa env s1
      obtain ⟨_, _, t2, t3⟩ := Mount_detach_step d vol env s1 hM
      by_cases hval : ((if vol.Multiattach = false ∧ vol.Attachments.length > 0 then
          d.detachVolume vol true false
        else pure none : Prog σ (Option GoError)) env s1).val = some none
      · rw [h, hlog, List.filterMap_append, List.filterMap_append, hlnil,
          filterMap_detachTarget_eq_nil rest hrest, List.nil_append, List.append_nil]
        exact t2 hval
      · exfalso
        rw [h, hlog, hstop hval, List.append_nil] at hreq hconf
        have hf := detachesConfirmed_append_false l _
          (t3 hval (fun e he => hreq e (List.mem_append_right _ he)))
        rw [hf] at hconf
        exact absurd hconf (by decide)
  · rcases hcases with h | ⟨dev, aa, h⟩
    · exact ⟨l, [], by simp [h], fun e he => by simp [hl e he], by simp⟩
    · obtain ⟨rest, hlog, hrest⟩ := mountVolume_log d req vol dev aa env s1
      refine ⟨l ++ ((if vol.Multiattach = false ∧ vol.Attachments.length > 0 then
          d.detachVolume vol true false
        else pure none : Prog σ (Option GoError)) env s1).log, rest, ?_, ?_, hrest⟩
      · rw [h, hlog, List.append_assoc]
      · intro e he
        rcases List.mem_append.1 he with he | he
        · simp [hl e he]
        · have hk : e.kind = .detach ∨ e.kind = .get := by
            by_cases hc : vol.Multiattach = false ∧ vol.Attachments.length > 0
            · rw [if_pos hc] at he
              exact detachLoop_kinds d vol true false vol.Attachments env s1 e he
            · rw [if_neg hc] at he
              simp at he
          rcases hk with hk | hk <;> simp [hk]

/-- C4, amended, on the simulated host, where the volume is attached to `srv-B` and the
probe does not find its device: the detach request for `srv-B` succeeds, the next lookup
shows the attachment gone, and the one detach request of `Mount` is the one for `srv-B`,
made before the attach request. -/
theorem Mount_detaches_foreign_attachments_first_witness :
    (∀ e ∈ (demoDriver.Mount { Name := "ns-vol1", ID := "" } simEnv freshHost).log,
      detachError e = none) ∧
    detachesConfirmed (demoDriver.Mount { Name := "ns-vol1", ID := "" } simEnv freshHost).log
      = true ∧
    (demoDriver.Mount { Name := "ns-vol1", ID := "" } simEnv freshHost).log.filterMap
        detachTarget
      = (freshHost.volume.Attachments.filter (fun att => att.ServerID ≠ demoDriver.serverID)).map
          (fun att => (att.ServerID, freshHost.volume.ID)) ∧
    (freshHost.volume.Attachments.filter (fun att => att.ServerID ≠ demoDriver.serverID)).map
        (fun att => (att.ServerID, freshHost.volume.ID)) = [("srv-B", "vol-1")] ∧
    (demoDriver.Mount { Name := "ns-vol1", ID := "" } simEnv freshHost).log.map Event.kind
      = [.list, .detach, .get, .attach, .get, .sleep, .readAt, .mkfs, .mkdirAll, .mount,
          .mkdir, .chown] :=
  ⟨by decide, by decide,
    ((Mount_detaches_foreign_attachments_first demoDriver { Name := "ns-vol1", ID := "" }
      simEnv freshHost freshHost freshHost.volume [Event.volumesList (.ok [freshHost.volume])]
      (by decide)).2.1 (by decide)).2.2 (Or.inr (by decide)) (by decide) (by decide),
    by decide, by decide⟩

/-! ## Mount: a second call -/

theorem detachLoop_skip_all {σ : Type} (d : CinderDriver) (vol : Volume)
    (skipCurrent onlyCurrent : Bool) (atts : List Attachment)
    (h : ∀ att ∈ atts, d.passes skipCurrent onlyCurrent att = false) (env : Env σ) (s : σ) :
    d.detachLoop vol skipCurrent onlyCurrent atts env s = ⟨some none, s, []⟩ := by
  induction atts with
  | nil => simp [CinderDriver.detachLoop]
  | cons att rest ih =>
    have hrest := ih (fun a ha => h a (List.mem_cons_of_mem _ ha))
    have hp := h att (List.mem_cons_self _ _)
    rw [CinderDriver.detachLoop]
    by_cases h1 : skipCurrent = true ∧ att.ServerID = d.serverID
    · rw [if_pos h1]; exact hrest
    · rw [if_neg h1]
      by_cases h2 : onlyCurrent = true ∧ att.ServerID ≠ d.serverID
      · rw [if_pos h2]; exact hrest
      · exfalso
        simp only [CinderDriver.passes] at hp
        cases skipCurrent <;> cases onlyCurrent <;> simp_all

theorem prepareDatadir_path {σ : Type} (d : CinderDriver) (vol : Volume) (mountpoint : String) :
    Prog.valAll (fun resp => resp.Mountpoint = "" ∨ resp.Mountpoint = Join [mountpoint, "data"])
      (d.prepareDatadir vol mountpoint : Prog σ _) := by
  unfold CinderDriver.prepareDatadir
  apply Prog.valAll_bind
  intro r
  cases r with
  | found => exact Prog.valAll_pure _ _ (Or.inr rfl)
  | failed err => exact Prog.valAll_pure _ _ (Or.inl rfl)
  | notExist =>
    dsimp only
    split
    · exact Prog.valAll_pure _ _ (Or.inl rfl)
    · apply Prog.valAll_bind
      intro r1
      cases r1 with
      | some err => exact Prog.valAll_pure _ _ (Or.inl rfl)
      | none =>
        apply Prog.valAll_bind
        intro r2
        cases r2 with
        | some err => exact Prog.valAll_pure _ _ (Or.inl rfl)
        | none => exact Prog.valAll_pure _ _ (Or.inr rfl)

theorem mountDevice_path {σ : Type} (d : CinderDriver) (req : VolumeMountReq) (vol : Volume)
    (dev : String) :
    Prog.valAll (fun resp => resp.Mountpoint = "" ∨
        resp.Mountpoint = Join [Join [propagatedMount, vol.ID], "data"])
      (d.mountDevice req vol dev : Prog σ _) := by
  unfold CinderDriver.mountDevice
  apply Prog.valAll_bind
  intro r
  cases r with
  | error err => exact Prog.valAll_pure _ _ (Or.inl rfl)
  | ok fsDetected =>
    apply Prog.valAll_bind
    intro f
    cases f with
    | some err => exact Prog.valAll_pure _ _ (Or.inl rfl)
    | none =>
      unfold CinderDriver.mountFilesystem
      apply Prog.valAll_bind
      intro m
      cases m with
      | error err => exact Prog.valAll_pure _ _ (Or.inl rfl)
      | ok mounted =>
        apply Prog.valAll_bind
        intro me
        cases me with
        | some err => exact Prog.valAll_pure _ _ (Or.inl rfl)
        | none => exact prepareDatadir_path d vol _

/-- Whenever `Mount` returns a mountpoint for a volume found by name, it is the data
directory under the mount root joined with the volume ID. -/
theorem Mount_path {σ : Type} (d : CinderDriver) (req : VolumeMountReq) (env : Env σ)
    (s s1 : σ) (vol : Volume) (l : List Event)
    (hfind : d.findVolume req.Name env s = ⟨some (.ok vol), s1, l⟩) (resp : VolumeMountResp)
    (hresp : (d.Mount req env s).val = some resp) :
    resp.Mountpoint = "" ∨ resp.Mountpoint = Join [Join [propagatedMount, vol.ID], "data"] := by
  rw [CinderDriver.Mount, Prog.bind_of_some hfind] at hresp
  simp only [] at hresp
  refine (show Prog.valAll (fun resp => resp.Mountpoint = "" ∨
    resp.Mountpoint = Join [Join [propagatedMount, vol.ID], "data"]) _ from ?_) env s1 resp hresp
  apply Prog.valAll_bind
  intro probe
  cases probe <;>
  · dsimp only
    apply Prog.valAll_ite
    · exact Prog.valAll_pure _ _ (Or.inl rfl)
    · unfold CinderDriver.mountVolume
      apply Prog.valAll_bind
      intro de
      cases de with
      | some err => exact Prog.valAll_pure _ _ (Or.inl rfl)
      | none =>
        apply Prog.valAll_bind
        intro attached
        cases attached with
        | error err => exact Prog.valAll_pure _ _ (Or.inl rfl)
        | ok dev2 => exact mountDevice_path d req vol dev2

/-- The run of `mountVolume` in the state a successful `Mount` leaves. -/
theorem mountVolume_run_mounted {σ : Type} (d : CinderDriver) (req : VolumeMountReq)
    (env : Env σ) (s1 : σ) (vol : Volume) (dev : String)
    (hatt : vol.Multiattach = true ∨ ∀ att ∈ vol.Attachments, att.ServerID = d.serverID)
    (hext4 : (env.fs s1).ReadAt dev 2 1080 = .read [0x53, 0xEF] none)
    (hmnt : isMounted (env.fs s1) (Join [propagatedMount, vol.ID]) = some (.ok true))
    (hstat : (env.fs s1).Stat (Join [Join [propagatedMount, vol.ID], "data"]) = .found) :
    d.mountVolume req vol dev true env s1
      = ⟨some { Mountpoint := Join [Join [propagatedMount, vol.ID], "data"], Err := "" }, s1,
          [Event.readAt dev 2 1080 (.read [0x53, 0xEF] none)]⟩ := by
  have hstep : (if vol.Multiattach = false ∧ vol.Attachments.length > 0 then
        d.detachVolume vol true false
      else pure none : Prog σ (Option GoError)) env s1 = ⟨some none, s1, []⟩ := by
    by_cases hc : vol.Multiattach = false ∧ vol.Attachments.length > 0
    · rw [if_pos hc]
      rcases hatt with hM | hall
      · rw [hM] at hc
        simp at hc
      · apply detachLoop_skip_all
        intro att ha
        simp [CinderDriver.passes, hall att ha]
    · rw [if_neg hc]
      rfl
  have hx : isExt4 dev env s1
      = ⟨some (.ok true), s1, [Event.readAt dev 2 1080 (.read [0x53, 0xEF] none)]⟩ := by
    rw [isExt4_run, hext4]
    rfl
  have hst : (fun fs : FS => some (fs.Stat (Join [Join [propagatedMount, vol.ID], "data"])))
      (env.fs s1) = some .found := by
    simp [hstat]
  rw [CinderDriver.mountVolume, Prog.bind_of_some hstep]
  simp only [Bool.not_true, Bool.false_eq_true, if_false, Prog.pure_bind_run, List.nil_append]
  rw [CinderDriver.mountDevice, Prog.bind_of_some hx]
  simp only [Bool.not_true, Bool.false_eq_true, if_false, Prog.pure_bind_run]
  rw [CinderDriver.mountFilesystem, Prog.read_bind_run _ _ _ _ _ hmnt]
  simp only [Bool.not_true, Bool.false_eq_true, if_false, Prog.pure_bind_run]
  rw [CinderDriver.prepareDatadir, Prog.read_bind_run _ _ _ _ _ hst]
  simp

/-- A second call, where the mount-state check finds the mountpoint: `Mount` on a volume
found by name whose device resolves by serial and for whose mountpoint `isMounted` answers
yes, in the state a first successful `Mount` leaves (a volume that is not multiattach
attached to the current server only, the ext4 magic on the device, the data directory in
place): it returns the data directory under the mountpoint with an empty error, which is
`/var/lib/cinder/<volume ID>/data` when the ID is a file name; it issues no attach
request, no mount syscall and no format; and any call of `Mount` for that volume that
returned a mountpoint returned this same path. -/
theorem Mount_again_when_isMounted_answers_yes {σ : Type} (d : CinderDriver)
    (req : VolumeMountReq) (env : Env σ) (s s1 : σ) (vol : Volume) (l : List Event) (dev : String)
    (hfind : d.findVolume req.Name env s = ⟨some (.ok vol), s1, l⟩)
    (hdev : findDevWithSerial (env.fs s1) vol.ID = some (.ok dev))
    (hatt : vol.Multiattach = true ∨ ∀ att ∈ vol.Attachments, att.ServerID = d.serverID)
    (hext4 : (env.fs s1).ReadAt dev 2 1080 = .read [0x53, 0xEF] none)
    (hmnt : isMounted (env.fs s1) (Join [propagatedMount, vol.ID]) = some (.ok true))
    (hstat : (env.fs s1).Stat (Join [Join [propagatedMount, vol.ID], "data"]) = .found) :
    (d.Mount req env s).val
      = some { Mountpoint := Join [Join [propagatedMount, vol.ID], "data"], Err := "" } ∧
    (isFileName vol.ID →
      Join [Join [propagatedMount, vol.ID], "data"] = "/var/lib/cinder/" ++ vol.ID ++ "/data") ∧
    (∀ e ∈ (d.Mount req env s).log,
      e.kind ≠ .attach ∧ e.kind ≠ .mount ∧ e.kind ≠ .mkfs) ∧
    (∀ (s0 s2 : σ) (vol0 : Volume) (l0 : List Event) (resp0 : VolumeMountResp),
      d.findVolume req.Name env s0 = ⟨some (.ok vol0), s2, l0⟩ → vol0.ID = vol.ID →
      (d.Mount req env s0).val = some resp0 → resp0.Mountpoint ≠ "" →
      resp0.Mountpoint = Join [Join [propagatedMount, vol.ID], "data"]) := by
  have hl := findVolume_log_kinds d req.Name env s s1 _ l hfind
  have hrun := (Mount_log_cases d req env s s1 vol l hfind).1 dev hdev
  rw [mountVolume_run_mounted d req env s1 vol dev hatt hext4 hmnt hstat] at hrun
  refine ⟨by rw [hrun], Join_datadir vol.ID, ?_, ?_⟩
  · rw [hrun]
    intro e he
    rcases List.mem_append.1 he with he | he
    · simp [hl e he]
    · simp only [List.mem_singleton] at he
      simp [he, Event.kind]
  · intro s0 s2 vol0 l0 resp0 hfind0 hid hval hne
    rcases Mount_path d req env s0 s2 vol0 l0 hfind0 resp0 hval with h | h
    · exact absurd h hne
    · rw [h, hid]

/-- Two calls in a row on the simulated host: the first `Mount` from `freshHost` detaches
the volume from
`srv-B`, attaches, formats and mounts it; `Mount` in the state it leaves returns the same
path and issues no attach request, no mount syscall and no format. -/
theorem Mount_twice_on_simulated_host :
    (demoDriver.Mount { Name := "ns-vol1", ID := "" } simEnv freshHost).val
      = some { Mountpoint := "/var/lib/cinder/vol-1/data", Err := "" } ∧
    (demoDriver.Mount { Name := "ns-vol1", ID := "" } simEnv freshHost).log.map Event.kind
      = [.list, .detach, .get, .attach, .get, .sleep, .readAt, .mkfs, .mkdirAll, .mount,
          .mkdir, .chown] ∧
    (demoDriver.Mount { Name := "ns-vol1", ID := "" } simEnv
        (demoDriver.Mount { Name := "ns-vol1", ID := "" } simEnv freshHost).st).val
      = some { Mountpoint := Join [Join [propagatedMount, "vol-1"], "data"], Err := "" } ∧
    Join [Join [propagatedMount, "vol-1"], "data"] = "/var/lib/cinder/vol-1/data" ∧
    (∀ e ∈ (demoDriver.Mount { Name := "ns-vol1", ID := "" } simEnv
        (demoDriver.Mount { Name := "ns-vol1", ID := "" } simEnv freshHost).st).log,
      e.kind ≠ .attach ∧ e.kind ≠ .mount ∧ e.kind ≠ .mkfs) :=
  have h := Mount_again_when_isMounted_answers_yes demoDriver { Name := "ns-vol1", ID := "" }
    simEnv
    (demoDriver.Mount { Name := "ns-vol1", ID := "" } simEnv freshHost).st
    (demoDriver.Mount { Name := "ns-vol1", ID := "" } simEnv freshHost).st
    { vol1 with Attachments := [{ ServerID := "srv-A", VolumeID := "vol-1" }] }
    [Event.volumesList (.ok
      [{ vol1 with Attachments := [{ ServerID := "srv-A", VolumeID := "vol-1" }] }])]
    "/dev/vdb"
    (by decide) (by decide) (Or.inr (by decide)) (by decide) (by decide) (by decide)
  ⟨by decide, by decide, h.1, by decide, h.2.2.1⟩

/-! ## What the mount-state check does guarantee -/

theorem listMountsLoop_eq_foldl (lines : List String) (m : List (String × String))
    (hwf : ∀ line ∈ lines, 2 ≤ (Split line ' ').length) :
    listMountsLoop lines m
      = some ((lines.filterMap mountEntry).foldl (fun acc e => mapInsert acc e.1 e.2) m) := by
  induction lines generalizing m with
  | nil => rfl
  | cons line rest ih =>
    have hrest : ∀ x ∈ rest, 2 ≤ (Split x ' ').length :=
      fun x hx => hwf x (List.mem_cons_of_mem _ hx)
    have hlen := hwf line (List.mem_cons_self _ _)
    obtain ⟨w0, w1, tail, hw⟩ : ∃ w0 w1 tail, Split line ' ' = w0 :: w1 :: tail := by
      match h : Split line ' ', hlen with
      | w0 :: w1 :: tail, _ => exact ⟨w0, w1, tail, rfl⟩
    rw [listMountsLoop, List.filterMap_cons]
    simp only [hw, mountEntry, List.getElem?_cons_zero, List.getElem?_cons_succ,
      Option.bind_eq_bind, Option.some_bind]
    by_cases hp : HasPrefix w1 propagatedMount = true
    · simp [hp, ih _ hrest]
    · simp [hp, ih _ hrest]

theorem mem_mapInsert {m : List (String × String)} {k v : String} {kv : String × String}
    (h : kv ∈ mapInsert m k v) : kv = (k, v) ∨ kv ∈ m := by
  simp only [mapInsert, List.mem_cons, List.mem_filter] at h
  rcases h with h | h
  · exact Or.inl h
  · exact Or.inr h.1

theorem mem_foldl_mapInsert (es m : List (String × String)) (kv : String × String)
    (h : kv ∈ es.foldl (fun acc e => mapInsert acc e.1 e.2) m) : kv ∈ m ∨ kv ∈ es := by
  induction es generalizing m with
  | nil => exact Or.inl h
  | cons e rest ih =>
    rcases ih _ h with h1 | h1
    · rcases mem_mapInsert h1 with h2 | h2
      · exact Or.inr (by simp [h2])
      · exact Or.inl h2
    · exact Or.inr (List.mem_cons_of_mem _ h1)

theorem foldl_mapInsert_of_distinct (es m : List (String × String)) (kv : String × String)
    (hnodup : (es.map Prod.fst).Nodup) (hdisj : ∀ e ∈ es, ∀ x ∈ m, x.1 ≠ e.1)
    (h : kv ∈ m ∨ kv ∈ es) : kv ∈ es.foldl (fun acc e => mapInsert acc e.1 e.2) m := by
  induction es generalizing m with
  | nil => simpa using h
  | cons e rest ih =>
    simp only [List.map_cons, List.nodup_cons, List.mem_map, not_exists, not_and] at hnodup
    have hfilter : m.filter (fun x => decide (x.1 ≠ e.1)) = m := by
      apply List.filter_eq_self.2
      intro x hx
      simpa using hdisj e (List.mem_cons_self _ _) x hx
    apply ih _ hnodup.2
    · intro e2 he2 x hx
      simp only [mapInsert, hfilter, List.mem_cons] at hx
      rcases hx with hx | hx
      · subst hx
        exact fun heq => hnodup.1 e2 he2 heq.symm
      · exact hdisj e2 (List.mem_cons_of_mem _ he2) x hx
    · simp only [mapInsert, hfilter, List.mem_cons]
      rcases h with h | h
      · exact Or.inl (Or.inr h)
      · rcases List.mem_cons.1 h with h | h
        · exact Or.inl (Or.inl h)
        · exact Or.inr h

theorem mountEntry_eq_some {line : String} {e : String × String} (h : mountEntry line = some e) :
    (Split line ' ')[1]? = some e.2 ∧ HasPrefix e.2 propagatedMount = true := by
  unfold mountEntry at h
  cases h0 : (Split line ' ')[0]? with
  | none => simp [h0] at h
  | some w0 =>
    cases h1 : (Split line ' ')[1]? with
    | none => simp [h0, h1] at h
    | some w1 =>
      simp only [h0, h1] at h
      by_cases hp : HasPrefix w1 propagatedMount = true
      · simp only [hp, if_true, Option.some.injEq] at h
        subst h
        exact ⟨rfl, hp⟩
      · simp [hp] at h

/-- Where every line of the mount table has at least two fields and no two entries under
the mount root share their source device, `isMounted(P)` for a path `P` that starts with
the mount root is true exactly when a line of the table has `P` as its second field. -/
theorem isMounted_iff_of_distinct_sources (fs : FS) (f : Scan) (P : String)
    (hopen : fs.Open "/proc/mounts" = .ok f)
    (hwf : ∀ line ∈ f.lines, 2 ≤ (Split line ' ').length)
    (hdistinct : ((f.lines.filterMap mountEntry).map Prod.fst).Nodup)
    (hP : HasPrefix P propagatedMount = true) :
    ∃ b, isMounted fs P = some (.ok b) ∧
      (b = true ↔ ∃ line ∈ f.lines, (Split line ' ')[1]? = some P) := by
  refine ⟨((f.lines.filterMap mountEntry).foldl (fun acc e => mapInsert acc e.1 e.2) []).any
    (fun kv => decide (kv.2 = P)),
    by simp only [isMounted, listMounts, hopen, listMountsLoop_eq_foldl f.lines [] hwf], ?_⟩
  simp only [List.any_eq_true, decide_eq_true_eq]
  constructor
  · rintro ⟨kv, hkv, htarget⟩
    rcases mem_foldl_mapInsert _ _ _ hkv with h | h
    · simp at h
    · obtain ⟨line, hline, he⟩ := List.mem_filterMap.1 h
      exact ⟨line, hline, htarget ▸ (mountEntry_eq_some he).1⟩
  · rintro ⟨line, hline, hw1⟩
    have hlen := hwf line hline
    obtain ⟨w0, w1, tail, hw⟩ : ∃ w0 w1 tail, Split line ' ' = w0 :: w1 :: tail := by
      match h : Split line ' ', hlen with
      | w0 :: w1 :: tail, _ => exact ⟨w0, w1, tail, rfl⟩
    have h1 : w1 = P := by simpa [hw] using hw1
    have he : mountEntry line = some (w0, P) := by
      simp [mountEntry, hw, h1, hP]
    refine ⟨(w0, P), ?_, rfl⟩
    apply foldl_mapInsert_of_distinct _ _ _ hdistinct (by simp)
    exact Or.inr (List.mem_filterMap.2 ⟨line, hline, he⟩)

/-- When `isMounted` answers true for the mountpoint of a volume found by name, `Remove`
returns `volume is still mounted` and issues no call after the listing. -/
theorem Remove_refuses_when_isMounted {σ : Type} (d : CinderDriver) (req : VolumeRemoveReq)
    (env : Env σ) (s s1 : σ) (vol : Volume) (l : List Event)
    (hfind : d.findVolume req.Name env s = ⟨some (.ok vol), s1, l⟩)
    (hmnt : isMounted (env.fs s1) (Join [propagatedMount, vol.ID]) = some (.ok true)) :
    d.Remove req env s = ⟨some { Err := "volume is still mounted" }, s1, l⟩ := by
  rw [CinderDriver.Remove, Prog.bind_of_some hfind]
  simp only []
  rw [Prog.read_bind_run _ _ _ _ _ hmnt]
  simp

/-! ## Mount: a second call on a table with a shared source device -/

/-- C5 fails on a mount table in which a later entry shares the source device of the
volume. On the host `sharedSourceFS` the device of the volume resolves by serial, a line
of the mount table has the mountpoint of the volume as its target, the device carries the
ext4 magic and the data directory exists; `Mount` returns the data directory, but it
issues `MkdirAll` and a mount syscall of the device on the mountpoint again. The same
happens on the simulated host: the first `Mount` from `freshHost` succeeds and its mount
syscall adds the line of the mountpoint to the table; once the disk is also mounted on a
second directory under the mount root, the next `Mount` returns the same path and issues
a second mount syscall. -/
theorem Mount_mounts_again_with_mountpoint_in_table :
    (findDevWithSerial sharedSourceFS vol1.ID = some (.ok "/dev/vdb") ∧
      (∃ line ∈ sharedSourceMounts,
        (Split line ' ')[1]? = some (Join [propagatedMount, vol1.ID])) ∧
      (demoDriver.Mount { Name := "ns-vol1", ID := "" } (staticEnv [vol1] sharedSourceFS) ()).val
        = some { Mountpoint := "/var/lib/cinder/vol-1/data", Err := "" } ∧
      (demoDriver.Mount { Name := "ns-vol1", ID := "" }
          (staticEnv [vol1] sharedSourceFS) ()).log.map Event.kind
        = [.list, .readAt, .mkdirAll, .mount] ∧
      Event.mountSyscall "/dev/vdb" "/var/lib/cinder/vol-1" "ext4" MS_RELATIME "" none
        ∈ (demoDriver.Mount { Name := "ns-vol1", ID := "" }
            (staticEnv [vol1] sharedSourceFS) ()).log) ∧
    ((demoDriver.Mount { Name := "ns-vol1", ID := "" } simEnv freshHost).val
        = some { Mountpoint := "/var/lib/cinder/vol-1/data", Err := "" } ∧
      remountedHost.mounts
        = ["/dev/vda1 / ext4 rw,relatime 0 0",
           "/dev/vdb /var/lib/cinder/vol-1 ext4 rw,relatime 0 0",
           "/dev/vdb /var/lib/cinder/inspect ext4 rw,relatime 0 0"] ∧
      findDevWithSerial remountedHost.fs remountedHost.volume.ID = some (.ok "/dev/vdb") ∧
      (demoDriver.Mount { Name := "ns-vol1", ID := "" } simEnv remountedHost).val
        = some { Mountpoint := "/var/lib/cinder/vol-1/data", Err := "" } ∧
      (demoDriver.Mount { Name := "ns-vol1", ID := "" } simEnv remountedHost).log.map Event.kind
        = [.list, .readAt, .mkdirAll, .mount] ∧
      Event.mountSyscall "/dev/vdb" "/var/lib/cinder/vol-1" "ext4" MS_RELATIME "" none
        ∈ (demoDriver.Mount { Name := "ns-vol1", ID := "" } simEnv remountedHost).log) := by
  refine ⟨⟨by decide, ⟨"/dev/vdb /var/lib/cinder/vol-1 ext4 rw,relatime 0 0", by decide,
    by decide⟩, by decide, by decide, by decide⟩,
    by decide, by decide, by decide, by decide, by decide, by decide⟩

/-! ## Path and the mount table -/

/-- On a readable mount table whose lines have at least two fields, `isMounted` returns
an answer, and answers yes only for a path that a line of the table has as its second
field. -/
theorem isMounted_sound (fs : FS) (f : Scan) (P : String)
    (hopen : fs.Open "/proc/mounts" = .ok f)
    (hwf : ∀ line ∈ f.lines, 2 ≤ (Split line ' ').length) :
    ∃ b, isMounted fs P = some (.ok b) ∧
      (b = true → ∃ line ∈ f.lines, (Split line ' ')[1]? = some P) := by
  refine ⟨((f.lines.filterMap mountEntry).foldl (fun acc e => mapInsert acc e.1 e.2) []).any
    (fun kv => decide (kv.2 = P)),
    by simp only [isMounted, listMounts, hopen, listMountsLoop_eq_foldl f.lines [] hwf], ?_⟩
  simp only [List.any_eq_true, decide_eq_true_eq]
  rintro ⟨kv, hkv, htarget⟩
  rcases mem_foldl_mapInsert _ _ _ hkv with h | h
  · simp at h
  · obtain ⟨line, hline, he⟩ := List.mem_filterMap.1 h
    exact ⟨line, hline, htarget ▸ (mountEntry_eq_some he).1⟩

/-- On the host `sharedSourceFS` a line of the mount table has the mountpoint of `vol-1`
as its target, two entries under the mount root share the source device `/dev/vdb`, and
`Path` answers `volume not mounted`: the defect of `listMounts` shown by
`isMounted_misses_shared_source`, as `Path` passes it on. -/
theorem Path_on_shared_source :
    (∃ line ∈ sharedSourceMounts,
      (Split line ' ')[1]? = some (Join [propagatedMount, vol1.ID])) ∧
    ¬ ((sharedSourceMounts.filterMap mountEntry).map Prod.fst).Nodup ∧
    (demoDriver.Path { Name := "ns-vol1" } (staticEnv [vol1] sharedSourceFS) ()).val
      = some { Mountpoint := "", Err := "volume not mounted" } := by
  refine ⟨⟨"/dev/vdb /var/lib/cinder/vol-1 ext4 rw,relatime 0 0", by decide, by decide⟩,
    by decide, by decide⟩

theorem HasPrefix_mountpoint (id : String) (hid : isFileName id) :
    HasPrefix (Join [propagatedMount, id]) propagatedMount = true := by
  rw [Join_mountpoint id hid]
  simp [HasPrefix, propagatedMount, List.isPrefixOf]

/-- C8, amended: for a volume found by name, on a readable mount table whose lines have
at least two fields. If no line of the table has the mountpoint of the volume (mount root
joined with the volume ID) as its target, `Path` returns the empty mountpoint and the
error `volume not mounted`. If a line has it, the volume ID is a file name and no two
entries of the table under the mount root share their source device, `Path` returns
`/var/lib/cinder/<volume ID>/data` with an empty error. -/
theorem Path_follows_mount_table {σ : Type} (d : CinderDriver) (req : VolumePathReq)
    (env : Env σ) (s s1 : σ) (vol : Volume) (l : List Event) (f : Scan)
    (hfind : d.findVolume req.Name env s = ⟨some (.ok vol), s1, l⟩)
    (hopen : (env.fs s1).Open "/proc/mounts" = .ok f)
    (hwf : ∀ line ∈ f.lines, 2 ≤ (Split line ' ').length) :
    ((∀ line ∈ f.lines, (Split line ' ')[1]? ≠ some (Join [propagatedMount, vol.ID])) →
      (d.Path req env s).val = some { Mountpoint := "", Err := "volume not mounted" }) ∧
    ((∃ line ∈ f.lines, (Split line ' ')[1]? = some (Join [propagatedMount, vol.ID])) →
      isFileName vol.ID →
      ((f.lines.filterMap mountEntry).map Prod.fst).Nodup →
      (d.Path req env s).val
        = some { Mountpoint := "/var/lib/cinder/" ++ vol.ID ++ "/data", Err := "" }) := by
  obtain ⟨p1, p2⟩ := Path_follows_isMounted d req env s s1 vol l hfind
  constructor
  · intro hno
    obtain ⟨b, hb, hline⟩ := isMounted_sound (env.fs s1) f (Join [propagatedMount, vol.ID])
      hopen hwf
    cases b with
    | false => exact p1 hb
    | true =>
      obtain ⟨line, hin, htarget⟩ := hline rfl
      exact absurd htarget (hno line hin)
  · intro hline hid hdistinct
    obtain ⟨b, hb, hiff⟩ := isMounted_iff_of_distinct_sources (env.fs s1) f
      (Join [propagatedMount, vol.ID]) hopen hwf hdistinct (HasPrefix_mountpoint vol.ID hid)
    have hbt : b = true := hiff.2 hline
    subst hbt
    obtain ⟨q1, q2⟩ := p2 hb
    rw [q1, q2 hid]

/-- C8, amended, on the hosts `attachedFS`, whose mount table has no entry under the mount
root, and `mountedFS`, whose table has the line of the mountpoint of `vol-1`. -/
theorem Path_follows_mount_table_witness :
    (demoDriver.Path { Name := "ns-vol1" } (staticEnv [vol1] attachedFS) ()).val
      = some { Mountpoint := "", Err := "volume not mounted" } ∧
    (demoDriver.Path { Name := "ns-vol1" } (staticEnv [vol1] mountedFS) ()).val
      = some { Mountpoint := "/var/lib/cinder/" ++ vol1.ID ++ "/data", Err := "" } :=
  ⟨(Path_follows_mount_table demoDriver { Name := "ns-vol1" } (staticEnv [vol1] attachedFS)
      () () vol1 [Event.volumesList (.ok [vol1])]
      { lines := ["/dev/vda1 / ext4 rw,relatime 0 0"], err := none }
      (by decide) (by decide) (by decide)).1 (by decide),
    (Path_follows_mount_table demoDriver { Name := "ns-vol1" } (staticEnv [vol1] mountedFS)
      () () vol1 [Event.volumesList (.ok [vol1])]
      { lines := ["/dev/vda1 / ext4 rw,relatime 0 0",
          "/dev/vdb /var/lib/cinder/vol-1 ext4 rw,relatime 0 0"], err := none }
      (by decide) (by decide) (by decide)).2
      ⟨"/dev/vdb /var/lib/cinder/vol-1 ext4 rw,relatime 0 0", by decide, by decide⟩
      (by decide) (by decide)⟩

/-! ## Unmount -/

theorem Unmount_kinds {σ : Type} (d : CinderDriver) (req : VolumeUnmountReq) :
    Prog.logAll (fun e => e.kind = .list ∨ e.kind = .unmount ∨ e.kind = .remove)
      (d.Unmount req : Prog σ _) := by
  unfold CinderDriver.Unmount
  apply Prog.logAll_bind
  · exact Prog.logAll_mono (fun e he => Or.inl he) (findVolume_kinds d _)
  · intro r
    cases r with
    | error err => exact Prog.logAll_pure _ _
    | ok vol =>
      dsimp only
      apply Prog.logAll_bind
      · exact Prog.logAll_read _ _
      · intro m
        cases m with
        | error err => exact Prog.logAll_pure _ _
        | ok mounted =>
          cases mounted with
          | false => exact Prog.logAll_pure _ _
          | true =>
            apply Prog.logAll_bind
            · exact Prog.logAll_call _ _ _ (fun _ => Or.inr (Or.inl rfl))
            · intro u
              cases u with
              | some err => exact Prog.logAll_pure _ _
              | none =>
                apply Prog.logAll_bind
                · exact Prog.logAll_call _ _ _ (fun _ => Or.inr (Or.inr rfl))
                · intro _
                  exact Prog.logAll_pure _ _

/-- C11: in every world and state and for every request, each call `Unmount` issues is
the listing of the volumes, the unmount syscall or the removal of the mountpoint
directory; so no detach request and no attach request is issued on any path, whether the
volume is not found, not mounted, the unmount syscall fails, or the call succeeds. -/
theorem Unmount_never_detaches {σ : Type} (d : CinderDriver) (req : VolumeUnmountReq)
    (env : Env σ) (s : σ) :
    ∀ e ∈ (d.Unmount req env s).log,
      (e.kind = .list ∨ e.kind = .unmount ∨ e.kind = .remove) ∧
      e.kind ≠ .detach ∧ e.kind ≠ .attach := by
  intro e he
  have h := Unmount_kinds d req env s e he
  refine ⟨h, ?_, ?_⟩ <;> rcases h with h | h | h <;> simp [h]

/-- C11 on the simulated host after a first mount: `Unmount` succeeds with the listing,
the unmount syscall and the removal of the directory, and the attachments of the volume
are what they were. -/
theorem Unmount_never_detaches_witness :
    (demoDriver.Unmount { Name := "ns-vol1", ID := "" } simEnv
        (demoDriver.Mount { Name := "ns-vol1", ID := "" } simEnv freshHost).st).val
      = some { Err := "" } ∧
    (demoDriver.Unmount { Name := "ns-vol1", ID := "" } simEnv
        (demoDriver.Mount { Name := "ns-vol1", ID := "" } simEnv freshHost).st).log.map Event.kind
      = [.list, .unmount, .remove] ∧
    (demoDriver.Unmount { Name := "ns-vol1", ID := "" } simEnv
        (demoDriver.Mount { Name := "ns-vol1", ID := "" } simEnv freshHost).st).st.attachments
      = (demoDriver.Mount { Name := "ns-vol1", ID := "" } simEnv freshHost).st.attachments ∧
    ((Event.unmountSyscall "/var/lib/cinder/vol-1" 0 none).kind = .list ∨
        (Event.unmountSyscall "/var/lib/cinder/vol-1" 0 none).kind = .unmount ∨
        (Event.unmountSyscall "/var/lib/cinder/vol-1" 0 none).kind = .remove) ∧
      (Event.unmountSyscall "/var/lib/cinder/vol-1" 0 none).kind ≠ .detach ∧
      (Event.unmountSyscall "/var/lib/cinder/vol-1" 0 none).kind ≠ .attach :=
  ⟨by decide, by decide, by decide,
    Unmount_never_detaches demoDriver { Name := "ns-vol1", ID := "" } simEnv
      (demoDriver.Mount { Name := "ns-vol1", ID := "" } simEnv freshHost).st
      (Event.unmountSyscall "/var/lib/cinder/vol-1" 0 none) (by decide)⟩

/-! ## detachVolume -/

/-- How `detachVolume` ends: it never panics; when it returns without error every detach
request it made succeeded; when it returns an error, the last detach request it made is
the one that failed or whose wait failed, the error names the server of that request,
every earlier request succeeded, and after it come only polls of its wait. -/
theorem detachLoop_outcome {σ : Type} (d : CinderDriver) (vol : Volume)
    (skipCurrent onlyCurrent : Bool) (atts : List Attachment) (env : Env σ) (s : σ) :
    (∃ res, (d.detachLoop vol skipCurrent onlyCurrent atts env s).val = some res) ∧
    ((d.detachLoop vol skipCurrent onlyCurrent atts env s).val = some none →
      ∀ serverID volumeID reply, Event.attachDelete serverID volumeID reply ∈
        (d.detachLoop vol skipCurrent onlyCurrent atts env s).log → reply = none) ∧
    (∀ e, (d.detachLoop vol skipCurrent onlyCurrent atts env s).val = some (some e) →
      ∃ pre serverID reply polls,
        (d.detachLoop vol skipCurrent onlyCurrent atts env s).log
          = pre ++ Event.attachDelete serverID vol.ID reply :: polls ∧
        (∀ x ∈ polls, x.kind = .get) ∧
        (∀ serverID2 volumeID2 reply2,
          Event.attachDelete serverID2 volumeID2 reply2 ∈ pre → reply2 = none) ∧
        ((∃ err, reply = some err ∧ polls = [] ∧
            e = .errorf ("could not detach volume " ++ vol.Name ++ " from server "
              ++ serverID ++ ": " ++ err)) ∨
          (reply = none ∧ ∃ err,
            e = .errorf ("error waiting for volume " ++ vol.Name
              ++ " to be detached from server " ++ serverID ++ ": " ++ err)))) := by
  induction atts generalizing s with
  | nil => simp [CinderDriver.detachLoop]
  | cons att rest ih =>
    rw [CinderDriver.detachLoop]
    by_cases h1 : skipCurrent = true ∧ att.ServerID = d.serverID
    · rw [if_pos h1]
      exact ih s
    · rw [if_neg h1]
      by_cases h2 : onlyCurrent = true ∧ att.ServerID ≠ d.serverID
      · rw [if_pos h2]
        exact ih s
      · rw [if_neg h2, Prog.call_bind_run]
        rcases hdel : env.attachDelete att.ServerID vol.ID s with ⟨r, s2⟩
        cases r with
        | some err =>
          refine ⟨⟨_, rfl⟩, by simp, ?_⟩
          intro e he
          simp only [Prog.run_pure, Option.some.injEq] at he
          exact ⟨[], att.ServerID, some err, [], by simp, by simp, by simp,
            Or.inl ⟨err, rfl, rfl, he.symm⟩⟩
        | none =>
          simp only []
          rcases hw : d.waitForVolumeAttachStatus att.VolumeID att.ServerID false 60 env s2
            with ⟨wv, ws, wl⟩
          have hwl : ∀ x ∈ wl, x.kind = .get := by
            have := waitForVolumeAttachStatus_kinds d att.VolumeID att.ServerID false 60 env s2
            rw [hw] at this
            exact this
          obtain ⟨w, hwv⟩ := waitForVolumeAttachStatus_returns d att.VolumeID att.ServerID
            false 60 env s2
          rw [hw] at hwv
          simp only at hwv
          subst hwv
          rw [Prog.bind_of_some hw]
          cases w with
          | some err =>
            refine ⟨⟨_, rfl⟩, by simp, ?_⟩
            intro e he
            simp only [Prog.run_pure, Option.some.injEq] at he
            exact ⟨[], att.ServerID, none, wl, by simp, hwl, by simp,
              Or.inr ⟨rfl, err, he.symm⟩⟩
          | none =>
            obtain ⟨ih1, ih2, ih3⟩ := ih ws
            refine ⟨ih1, ?_, ?_⟩
            · intro hv serverID volumeID reply hin
              simp only [List.mem_cons, List.mem_append] at hin
              rcases hin with hin | hin | hin
              · injection hin with _ _ h3
              · exact absurd (hwl _ hin) (by simp [Event.kind])
              · exact ih2 hv _ _ _ hin
            · intro e he
              obtain ⟨pre, serverID, reply, polls, hlog, hpolls, hpre, hcase⟩ := ih3 e he
              refine ⟨Event.attachDelete att.ServerID vol.ID none :: wl ++ pre, serverID, reply,
                polls, by simp [hlog], hpolls, ?_, hcase⟩
              intro serverID2 volumeID2 reply2 hin
              simp only [List.cons_append, List.mem_cons, List.mem_append] at hin
              rcases hin with hin | hin | hin
              · injection hin with _ _ h3
              · exact absurd (hwl _ hin) (by simp [Event.kind])
              · exact hpre _ _ _ hin

theorem passes_neither (d : CinderDriver) : d.passes false false = fun _ => true := by
  funext att
  simp [CinderDriver.passes]

/-- The loop of `detachVolume` over a list `xs ++ ys`, when over `xs` it returns nil: it
goes on over `ys` from the state reached. -/
theorem detachLoop_append {σ : Type} (d : CinderDriver) (vol : Volume)
    (skipCurrent onlyCurrent : Bool) (xs ys : List Attachment) (env : Env σ) (s s1 : σ)
    (l1 : List Event)
    (h : d.detachLoop vol skipCurrent onlyCurrent xs env s = ⟨some none, s1, l1⟩) :
    d.detachLoop vol skipCurrent onlyCurrent (xs ++ ys) env s
      = ⟨(d.detachLoop vol skipCurrent onlyCurrent ys env s1).val,
          (d.detachLoop vol skipCurrent onlyCurrent ys env s1).st,
          l1 ++ (d.detachLoop vol skipCurrent onlyCurrent ys env s1).log⟩ := by
  induction xs generalizing s l1 with
  | nil =>
    simp only [CinderDriver.detachLoop, Prog.run_pure, Res.mk.injEq] at h
    obtain ⟨_, hs, hl⟩ := h
    subst hs
    subst hl
    simp
  | cons att rest ih =>
    revert h
    rw [List.cons_append, CinderDriver.detachLoop, CinderDriver.detachLoop]
    by_cases h1 : skipCurrent = true ∧ att.ServerID = d.serverID
    · rw [if_pos h1, if_pos h1]
      exact ih s l1
    · rw [if_neg h1, if_neg h1]
      by_cases h2 : onlyCurrent = true ∧ att.ServerID ≠ d.serverID
      · rw [if_pos h2, if_pos h2]
        exact ih s l1
      · rw [if_neg h2, if_neg h2, Prog.call_bind_run, Prog.call_bind_run]
        rcases hdel : env.attachDelete att.ServerID vol.ID s with ⟨r, s2⟩
        cases r with
        | some err => simp
        | none =>
          simp only []
          rcases hw : d.waitForVolumeAttachStatus att.VolumeID att.ServerID false 60 env s2
            with ⟨wv, ws, wl⟩
          cases wv with
          | none => simp [Prog.bind_of_none hw]
          | some w =>
            rw [Prog.bind_of_some hw, Prog.bind_of_some hw]
            cases w with
            | some err => simp
            | none =>
              simp only [Res.mk.injEq]
              rintro ⟨hv, hs, hl⟩
              rcases hr : d.detachLoop vol skipCurrent onlyCurrent rest env ws with ⟨rv, rs, rl⟩
              rw [hr] at hv hs hl
              simp only at hv hs hl
              subst hv
              subst hs
              subst hl
              rw [ih ws rl hr]
              simp

/-- The run of the loop of `detachVolume` at an attachment that passes the filter: a
refused request ends it with the error of the request; after an accepted request a failed
wait ends it with the error of the wait; after a wait that succeeded it goes on. -/
theorem detachLoop_step {σ : Type} (d : CinderDriver) (vol : Volume)
    (skipCurrent onlyCurrent : Bool) (att : Attachment) (rest : List Attachment)
    (hp : d.passes skipCurrent onlyCurrent att = true) (env : Env σ) (s : σ) :
    (∀ err s2, env.attachDelete att.ServerID vol.ID s = (some err, s2) →
      d.detachLoop vol skipCurrent onlyCurrent (att :: rest) env s
        = ⟨some (some (.errorf ("could not detach volume " ++ vol.Name ++ " from server "
            ++ att.ServerID ++ ": " ++ err))), s2,
           [Event.attachDelete att.ServerID vol.ID (some err)]⟩) ∧
    (∀ s2, env.attachDelete att.ServerID vol.ID s = (none, s2) →
      (∀ err, (d.waitForVolumeAttachStatus att.VolumeID att.ServerID false 60 env s2).val
          = some (some err) →
        d.detachLoop vol skipCurrent onlyCurrent (att :: rest) env s
          = ⟨some (some (.errorf ("error waiting for volume " ++ vol.Name
              ++ " to be detached from server " ++ att.ServerID ++ ": " ++ err))),
             (d.waitForVolumeAttachStatus att.VolumeID att.ServerID false 60 env s2).st,
             Event.attachDelete att.ServerID vol.ID none
               :: (d.waitForVolumeAttachStatus att.VolumeID att.ServerID false 60 env s2).log⟩) ∧
      ((d.waitForVolumeAttachStatus att.VolumeID att.ServerID false 60 env s2).val = some none →
        d.detachLoop vol skipCurrent onlyCurrent [att] env s
          = ⟨some none,
             (d.waitForVolumeAttachStatus att.VolumeID att.ServerID false 60 env s2).st,
             Event.attachDelete att.ServerID vol.ID none
               :: (d.waitForVolumeAttachStatus att.VolumeID att.ServerID false 60 env s2).log⟩)) := by
  have h1 : ¬(skipCurrent = true ∧ att.ServerID = d.serverID) := by
    intro h
    simp [CinderDriver.passes, h.1, h.2] at hp
  have h2 : ¬(onlyCurrent = true ∧ att.ServerID ≠ d.serverID) := by
    intro h
    simp [CinderDriver.passes, h.1, h.2] at hp
  refine ⟨?_, ?_⟩
  · intro err s2 hdel
    rw [CinderDriver.detachLoop, if_neg h1, if_neg h2, Prog.call_bind_run, hdel]
    rfl
  · intro s2 hdel
    constructor
    · intro err hw
      rcases hwr : d.waitForVolumeAttachStatus att.VolumeID att.ServerID false 60 env s2
        with ⟨wv, ws, wl⟩
      rw [hwr] at hw
      simp only at hw
      subst hw
      rw [CinderDriver.detachLoop, if_neg h1, if_neg h2, Prog.call_bind_run, hdel]
      simp only []
      rw [Prog.bind_of_some hwr]
      simp
    · intro hw
      rcases hwr : d.waitForVolumeAttachStatus att.VolumeID att.ServerID false 60 env s2
        with ⟨wv, ws, wl⟩
      rw [hwr] at hw
      simp only at hw
      subst hw
      rw [CinderDriver.detachLoop, if_neg h1, if_neg h2, Prog.call_bind_run, hdel]
      simp only []
      rw [Prog.bind_of_some hwr]
      simp [CinderDriver.detachLoop]

/-- C12: `detachVolume(vol, skipCurrent, onlyCurrent)` returns nil or an error. Its detach
requests go, in the order of the attachment list, to attachments that pass the filter,
without a gap; when it returns nil they are all of them and every request succeeded; when
it returns an error, the last request made is the one that failed, or whose wait failed,
every earlier request succeeded and no request follows. It stops at the first failure: at
an attachment that passes the filter, reached after the loop over the attachments before
it returned nil, a refused request makes `detachVolume` return the error of that request
with the request as its last call; after an accepted request, a wait that fails makes it
return the error of that wait with the polls of the wait as its last calls; and only after
a wait that succeeded does the loop get past the attachment. The filter lets through, with
(true, false), the attachments whose server is not the current one; with (false, true),
those whose server is the current one; with (false, false), every attachment. -/
theorem detachVolume_requests_filtered_in_order {σ : Type} (d : CinderDriver) (vol : Volume)
    (skipCurrent onlyCurrent : Bool) (env : Env σ) (s : σ) :
    (∃ res, (d.detachVolume vol skipCurrent onlyCurrent env s).val = some res) ∧
    (d.detachVolume vol skipCurrent onlyCurrent env s).log.filterMap detachTarget
      <+: (vol.Attachments.filter (d.passes skipCurrent onlyCurrent)).map
            (fun att => (att.ServerID, vol.ID)) ∧
    ((d.detachVolume vol skipCurrent onlyCurrent env s).val = some none →
      (d.detachVolume vol skipCurrent onlyCurrent env s).log.filterMap detachTarget
        = (vol.Attachments.filter (d.passes skipCurrent onlyCurrent)).map
            (fun att => (att.ServerID, vol.ID)) ∧
      ∀ serverID volumeID reply, Event.attachDelete serverID volumeID reply ∈
        (d.detachVolume vol skipCurrent onlyCurrent env s).log → reply = none) ∧
    (∀ e, (d.detachVolume vol skipCurrent onlyCurrent env s).val = some (some e) →
      ∃ pre serverID reply polls,
        (d.detachVolume vol skipCurrent onlyCurrent env s).log
          = pre ++ Event.attachDelete serverID vol.ID reply :: polls ∧
        (∀ x ∈ polls, x.kind = .get) ∧
        (∀ serverID2 volumeID2 reply2,
          Event.attachDelete serverID2 volumeID2 reply2 ∈ pre → reply2 = none) ∧
        ((∃ err, reply = some err ∧ polls = [] ∧
            e = .errorf ("could not detach volume " ++ vol.Name ++ " from server "
              ++ serverID ++ ": " ++ err)) ∨
          (reply = none ∧ ∃ err,
            e = .errorf ("error waiting for volume " ++ vol.Name
              ++ " to be detached from server " ++ serverID ++ ": " ++ err)))) ∧
    (∀ (done rest : List Attachment) (att : Attachment) (s1 : σ) (l1 : List Event),
      vol.Attachments = done ++ att :: rest →
      d.passes skipCurrent onlyCurrent att = true →
      d.detachLoop vol skipCurrent onlyCurrent done env s = ⟨some none, s1, l1⟩ →
      (∀ err s2, env.attachDelete att.ServerID vol.ID s1 = (some err, s2) →
        d.detachVolume vol skipCurrent onlyCurrent env s
          = ⟨some (some (.errorf ("could not detach volume " ++ vol.Name ++ " from server "
              ++ att.ServerID ++ ": " ++ err))), s2,
             l1 ++ [Event.attachDelete att.ServerID vol.ID (some err)]⟩) ∧
      (∀ s2, env.attachDelete att.ServerID vol.ID s1 = (none, s2) →
        (∀ err, (d.waitForVolumeAttachStatus att.VolumeID att.ServerID false 60 env s2).val
            = some (some err) →
          d.detachVolume vol skipCurrent onlyCurrent env s
            = ⟨some (some (.errorf ("error waiting for volume " ++ vol.Name
                ++ " to be detached from server " ++ att.ServerID ++ ": " ++ err))),
               (d.waitForVolumeAttachStatus att.VolumeID att.ServerID false 60 env s2).st,
               l1 ++ Event.attachDelete att.ServerID vol.ID none
                 :: (d.waitForVolumeAttachStatus att.VolumeID att.ServerID false 60 env s2).log⟩) ∧
        ((d.waitForVolumeAttachStatus att.VolumeID att.ServerID false 60 env s2).val
            = some none →
          d.detachLoop vol skipCurrent onlyCurrent (done ++ [att]) env s
            = ⟨some none,
               (d.waitForVolumeAttachStatus att.VolumeID att.ServerID false 60 env s2).st,
               l1 ++ Event.attachDelete att.ServerID vol.ID none
                 :: (d.waitForVolumeAttachStatus att.VolumeID att.ServerID false 60 env
                      s2).log⟩))) ∧
    vol.Attachments.filter (d.passes true false)
      = vol.Attachments.filter (fun att => att.ServerID ≠ d.serverID) ∧
    vol.Attachments.filter (d.passes false true)
      = vol.Attachments.filter (fun att => att.ServerID = d.serverID) ∧
    vol.Attachments.filter (d.passes false false) = vol.Attachments := by
  obtain ⟨h1, h2, h3⟩ := detachLoop_outcome d vol skipCurrent onlyCurrent vol.Attachments env s
  obtain ⟨t1, t2⟩ := detachLoop_targets d vol skipCurrent onlyCurrent vol.Attachments env s
  refine ⟨h1, t1, fun hv => ⟨t2 hv, h2 hv⟩, h3, ?_, ?_, ?_, ?_⟩
  · intro done rest att s1 l1 hsplit hp hdone
    obtain ⟨q1, q2⟩ := detachLoop_step d vol skipCurrent onlyCurrent att rest hp env s1
    obtain ⟨_, q3⟩ := detachLoop_step d vol skipCurrent onlyCurrent att [] hp env s1
    refine ⟨?_, ?_⟩
    · intro err s2 hdel
      rw [CinderDriver.detachVolume, hsplit,
        detachLoop_append d vol skipCurrent onlyCurrent done (att :: rest) env s s1 l1 hdone,
        q1 err s2 hdel]
    · intro s2 hdel
      constructor
      · intro err hw
        rw [CinderDriver.detachVolume, hsplit,
          detachLoop_append d vol skipCurrent onlyCurrent done (att :: rest) env s s1 l1 hdone,
          (q2 s2 hdel).1 err hw]
      · intro hw
        rw [detachLoop_append d vol skipCurrent onlyCurrent done [att] env s s1 l1 hdone,
          (q3 s2 hdel).2 hw]
  · rw [passes_skipCurrent]
  · rw [passes_onlyCurrent]
  · rw [passes_neither]
    simp

/-- C12 on a volume attached to `srv-A`, `srv-B`, `srv-C`, with the flags (false, false):
where every request succeeds the three servers get a request in that order; where the
request for `srv-B` is refused, `detachVolume` returns the error for `srv-B` after the
successful request for `srv-A`, its wait, and the refused request; where the request for
`srv-B` is accepted but the attachment stays, `detachVolume` returns the timeout of the
wait for `srv-B` after the sixty polls of that wait, and `srv-C` gets no request. -/
theorem detachVolume_requests_filtered_in_order_witness :
    ((demoDriver.detachVolume vol3 false false (staticEnv [vol3] attachedFS) ()).log.filterMap
        detachTarget
      = (vol3.Attachments.filter (demoDriver.passes false false)).map
          (fun att => (att.ServerID, vol3.ID)) ∧
      ∀ serverID volumeID reply, Event.attachDelete serverID volumeID reply ∈
        (demoDriver.detachVolume vol3 false false (staticEnv [vol3] attachedFS) ()).log →
        reply = none) ∧
    (vol3.Attachments.filter (demoDriver.passes false false)).map
        (fun att => (att.ServerID, vol3.ID))
      = [("srv-A", "vol-1"), ("srv-B", "vol-1"), ("srv-C", "vol-1")] ∧
    (demoDriver.detachVolume vol3 false false (refusingEnv [vol3] attachedFS) ()).log.filterMap
        detachTarget = [("srv-A", "vol-1"), ("srv-B", "vol-1")] ∧
    (∃ pre serverID reply polls,
      (demoDriver.detachVolume vol3 false false (refusingEnv [vol3] attachedFS) ()).log
        = pre ++ Event.attachDelete serverID vol3.ID reply :: polls ∧
      (∀ x ∈ polls, x.kind = .get) ∧
      (∀ serverID2 volumeID2 reply2,
        Event.attachDelete serverID2 volumeID2 reply2 ∈ pre → reply2 = none) ∧
      ((∃ err, reply = some err ∧ polls = [] ∧
          GoError.errorf "could not detach volume ns-vol1 from server srv-B: 409 Conflict"
            = .errorf ("could not detach volume " ++ vol3.Name ++ " from server "
              ++ serverID ++ ": " ++ err)) ∨
        (reply = none ∧ ∃ err,
          GoError.errorf "could not detach volume ns-vol1 from server srv-B: 409 Conflict"
            = .errorf ("error waiting for volume " ++ vol3.Name
              ++ " to be detached from server " ++ serverID ++ ": " ++ err)))) ∧
    demoDriver.detachVolume vol4 false false (lingerEnv attachedFS) vol4.Attachments
      = ⟨some (some (.errorf ("error waiting for volume " ++ vol4.Name
          ++ " to be detached from server " ++ "srv-B" ++ ": " ++ "A timeout occurred"))),
         (demoDriver.waitForVolumeAttachStatus "vol-1" "srv-B" false 60 (lingerEnv attachedFS)
           [{ ServerID := "srv-B", VolumeID := "vol-1" },
            { ServerID := "srv-C", VolumeID := "vol-1" }]).st,
         [Event.attachDelete "srv-A" "vol-1" none,
          Event.volumesGet "vol-1" (.ok { vol4 with Attachments :=
            [{ ServerID := "srv-B", VolumeID := "vol-1" },
             { ServerID := "srv-C", VolumeID := "vol-1" }] })]
           ++ Event.attachDelete "srv-B" vol4.ID none
             :: (demoDriver.waitForVolumeAttachStatus "vol-1" "srv-B" false 60
                  (lingerEnv attachedFS)
                  [{ ServerID := "srv-B", VolumeID := "vol-1" },
                   { ServerID := "srv-C", VolumeID := "vol-1" }]).log⟩ ∧
    (demoDriver.detachVolume vol4 false false (lingerEnv attachedFS)
        vol4.Attachments).log.map Event.kind
      = [.detach, .get, .detach] ++ List.replicate 60 .get ∧
    (demoDriver.detachVolume vol4 false false (lingerEnv attachedFS)
        vol4.Attachments).log.filterMap detachTarget
      = [("srv-A", "vol-1"), ("srv-B", "vol-1")] :=
  ⟨(detachVolume_requests_filtered_in_order demoDriver vol3 false false
      (staticEnv [vol3] attachedFS) ()).2.2.1 (by decide),
    by decide, by decide,
    (detachVolume_requests_filtered_in_order demoDriver vol3 false false
      (refusingEnv [vol3] attachedFS) ()).2.2.2.1
      (.errorf "could not detach volume ns-vol1 from server srv-B: 409 Conflict") (by decide),
    (((detachVolume_requests_filtered_in_order demoDriver vol4 false false
      (lingerEnv attachedFS) vol4.Attachments).2.2.2.2.1
      [{ ServerID := "srv-A", VolumeID := "vol-1" }]
      [{ ServerID := "srv-C", VolumeID := "vol-1" }]
      { ServerID := "srv-B", VolumeID := "vol-1" }
      [{ ServerID := "srv-B", VolumeID := "vol-1" }, { ServerID := "srv-C", VolumeID := "vol-1" }]
      [Event.attachDelete "srv-A" "vol-1" none,
       Event.volumesGet "vol-1" (.ok { vol4 with Attachments :=
         [{ ServerID := "srv-B", VolumeID := "vol-1" },
          { ServerID := "srv-C", VolumeID := "vol-1" }] })]
      (by decide) (by decide) (by decide)).2
      [{ ServerID := "srv-B", VolumeID := "vol-1" }, { ServerID := "srv-C", VolumeID := "vol-1" }]
      (by decide)).1 "A timeout occurred" (by decide),
    by decide, by decide⟩

/-! ## Create: the size of the request -/

/-- The run of `Create` for a prefixed name once the size is resolved to `size`: the
create request comes first and carries that size; only the status wait can follow. -/
theorem Create_log_of_size {σ : Type} (d : CinderDriver) (req : VolumeCreateReq)
    (env : Env σ) (s : σ) (size : Int)
    (hp : HasPrefix req.Name d.volumePrefix = true)
    (hsize : (if req.Opts.Size ≠ "" then Atoi req.Opts.Size else .ok d.defaultSize)
      = .ok size) :
    ∃ opts reply rest, (d.Create req env s).log = Event.volumesCreate opts reply :: rest ∧
      opts.Size = size ∧ opts.Name = req.Name ∧ (∀ e ∈ rest, e.kind = .waitStatus) := by
  unfold CinderDriver.Create
  rw [hsize]
  simp only [hp, Bool.not_true, Bool.false_eq_true, if_false, Prog.call_bind_run]
  rcases hc : env.volumesCreate
      { Name := req.Name, Size := size, AvailabilityZone := req.Opts.AvailabilityZone,
        ConsistencyGroupID := req.Opts.ConsistencyGroupID,
        Description := req.Opts.Description, SnapshotID := req.Opts.SnapshotID,
        BackupID := req.Opts.BackupID, VolumeType := req.Opts.VolumeType,
        Metadata := [(metadataFieldUID, req.Opts.Uid), (metadataFieldGID, req.Opts.Gid),
          (metadataFieldMode, req.Opts.Mode)] } s with ⟨r, s2⟩
  cases r with
  | failed err => exact ⟨_, _, [], rfl, rfl, rfl, by simp⟩
  | ok vol =>
    simp only [Prog.call_bind_run]
    refine ⟨_, _, _, rfl, rfl, rfl, ?_⟩
    intro e he
    simp only [List.mem_cons] at he
    rcases he with he | he
    · rw [he]; rfl
    · cases hw : (env.volumesWaitForStatus vol.ID "available" 60 s2).1 <;>
        simp [hw] at he

/-- C13: for a name with the configured prefix, `Create` first submits a create request
whose size is the configured default when the size option is empty, and the integer
`strconv.Atoi` reads from the option when it is not empty; when the option is not empty
and `strconv.Atoi` rejects it, `Create` returns a non-empty error and issues no call. -/
theorem Create_resolves_size {σ : Type} (d : CinderDriver) (req : VolumeCreateReq)
    (env : Env σ) (s : σ) (hp : HasPrefix req.Name d.volumePrefix = true) :
    (req.Opts.Size = "" →
      ∃ opts reply rest, (d.Create req env s).log = Event.volumesCreate opts reply :: rest ∧
        opts.Size = d.defaultSize ∧ opts.Name = req.Name ∧
        (∀ e ∈ rest, e.kind = .waitStatus)) ∧
    (∀ n, req.Opts.Size ≠ "" → Atoi req.Opts.Size = .ok n →
      ∃ opts reply rest, (d.Create req env s).log = Event.volumesCreate opts reply :: rest ∧
        opts.Size = n ∧ opts.Name = req.Name ∧ (∀ e ∈ rest, e.kind = .waitStatus)) ∧
    (∀ err, req.Opts.Size ≠ "" → Atoi req.Opts.Size = .error err →
      ∃ resp, (d.Create req env s).val = some resp ∧ resp.Err ≠ "" ∧
        (d.Create req env s).log = [] ∧ (d.Create req env s).st = s) := by
  refine ⟨?_, ?_, ?_⟩
  · intro h0
    exact Create_log_of_size d req env s d.defaultSize hp (by simp [h0])
  · intro n hne hn
    exact Create_log_of_size d req env s n hp (by simp [hne, hn])
  · intro err hne herr
    refine ⟨{ Err := "could not convert volume size (" ++ req.Opts.Size
      ++ ") from string to int: " ++ err }, ?_, ?_, ?_, ?_⟩
    · simp [CinderDriver.Create, hp, hne, herr]
    · intro e
      have := congrArg String.length e
      simp [String.length_append] at this
      have h2 : "could not convert volume size (".length = 31 := by decide
      omega
    · simp [CinderDriver.Create, hp, hne, herr]
    · simp [CinderDriver.Create, hp, hne, herr]

/-- C13 for the name `ns-vol1` under the prefix `ns-` and the default size 20: the empty
size gives a request of size 20, the size `50` one of size 50, and the size `big` an error
without any call. -/
theorem Create_resolves_size_witness :
    (∃ opts reply rest,
      (demoDriver.Create
        { Name := "ns-vol1", Opts := ⟨"", "", "", "", "", "", "", "1000", "1000", "750"⟩ }
        (staticEnv [] twoDiskFS) ()).log = Event.volumesCreate opts reply :: rest ∧
      opts.Size = 20 ∧ opts.Name = "ns-vol1" ∧ (∀ e ∈ rest, e.kind = .waitStatus)) ∧
    (∃ opts reply rest,
      (demoDriver.Create
        { Name := "ns-vol1", Opts := ⟨"50", "", "", "", "", "", "", "1000", "1000", "750"⟩ }
        (staticEnv [] twoDiskFS) ()).log = Event.volumesCreate opts reply :: rest ∧
      opts.Size = 50 ∧ opts.Name = "ns-vol1" ∧ (∀ e ∈ rest, e.kind = .waitStatus)) ∧
    (∃ resp, (demoDriver.Create
        { Name := "ns-vol1", Opts := ⟨"big", "", "", "", "", "", "", "1000", "1000", "750"⟩ }
        (staticEnv [] twoDiskFS) ()).val = some resp ∧ resp.Err ≠ "" ∧
      (demoDriver.Create
        { Name := "ns-vol1", Opts := ⟨"big", "", "", "", "", "", "", "1000", "1000", "750"⟩ }
        (staticEnv [] twoDiskFS) ()).log = [] ∧
      (demoDriver.Create
        { Name := "ns-vol1", Opts := ⟨"big", "", "", "", "", "", "", "1000", "1000", "750"⟩ }
        (staticEnv [] twoDiskFS) ()).st = ()) :=
  ⟨(Create_resolves_size demoDriver
      { Name := "ns-vol1", Opts := ⟨"", "", "", "", "", "", "", "1000", "1000", "750"⟩ }
      (staticEnv [] twoDiskFS) () (by decide)).1 (by decide),
    (Create_resolves_size demoDriver
      { Name := "ns-vol1", Opts := ⟨"50", "", "", "", "", "", "", "1000", "1000", "750"⟩ }
      (staticEnv [] twoDiskFS) () (by decide)).2.1 50 (by decide) (by decide),
    (Create_resolves_size demoDriver
      { Name := "ns-vol1", Opts := ⟨"big", "", "", "", "", "", "", "1000", "1000", "750"⟩ }
      (staticEnv [] twoDiskFS) () (by decide)).2.2
      "strconv.Atoi: parsing \"big\": invalid syntax" (by decide) (by decide)⟩

/-! ## List -/

theorem listLoop_run {σ : Type} (d : CinderDriver) (env : Env σ) (s : σ) (vols : List Volume)
    (acc : List ListVolume)
    (hm : ∀ vol ∈ vols, ∃ b,
      isMounted (env.fs s) (Join [propagatedMount, vol.ID]) = some (.ok b)) :
    d.listLoop vols acc env s
      = ⟨some { Volumes := acc ++ listEntries (env.fs s) vols, Err := "" }, s, []⟩ := by
  induction vols generalizing acc with
  | nil => simp [CinderDriver.listLoop, listEntries]
  | cons vol rest ih =>
    obtain ⟨b, hb⟩ := hm vol (List.mem_cons_self _ _)
    rw [CinderDriver.listLoop]
    simp only []
    rw [Prog.read_bind_run _ _ _ _ _ hb]
    simp only []
    rw [ih _ (fun v hv => hm v (List.mem_cons_of_mem _ hv))]
    cases b <;> simp [hb, mountpointIfMounted, listEntries]

/-- What `List` does by way of `isMounted`: when the remote listing succeeds and
`isMounted` returns an answer for the mountpoint of every listed volume with the
configured prefix, `List` returns, in the order of the listing, one entry for each of
these volumes and for no other, with the name of the volume and, as mountpoint, the data
directory under its mountpoint when the answer is yes and the empty string when it is
no. -/
theorem List_follows_isMounted {σ : Type} (d : CinderDriver) (env : Env σ) (s s1 : σ)
    (list : List Volume) (hlist : env.volumesList s = (.ok list, s1))
    (hm : ∀ vol ∈ list.filter (fun v => HasPrefix v.Name d.volumePrefix), ∃ b,
      isMounted (env.fs s1) (Join [propagatedMount, vol.ID]) = some (.ok b)) :
    (d.List env s).val
      = some { Volumes := listEntries (env.fs s1)
                  (list.filter (fun v => HasPrefix v.Name d.volumePrefix)),
               Err := "" } := by
  have hl : d.listVolumes env s
      = ⟨some (.ok (list.filter (fun v => HasPrefix v.Name d.volumePrefix))), s1,
          [Event.volumesList (.ok list)]⟩ := by
    simp [CinderDriver.listVolumes, Prog.call_bind_run, hlist]
  rw [CinderDriver.List, Prog.bind_of_some hl]
  simp only []
  rw [listLoop_run d env s1 _ [] hm]
  simp

/-- C14 fails on the host `sharedSourceFS`: the remote listing and the mount table are
read, the mount table holds the mountpoint of the listed volume `vol-1`, so the volume is
mounted, and `List` returns its entry with an empty mountpoint. -/
theorem List_reports_mounted_volume_unmounted :
    (∃ line ∈ sharedSourceMounts,
      (Split line ' ')[1]? = some (Join [propagatedMount, vol1.ID])) ∧
    sharedSourceFS.Open "/proc/mounts" = .ok { lines := sharedSourceMounts, err := none } ∧
    (demoDriver.List (staticEnv [vol1] sharedSourceFS) ()).val
      = some { Volumes := [{ Name := "ns-vol1", Mountpoint := "" }], Err := "" } := by
  refine ⟨⟨"/dev/vdb /var/lib/cinder/vol-1 ext4 rw,relatime 0 0", by decide, by decide⟩,
    by decide, by decide⟩

/-! ## The line parsers and short lines -/

theorem Split_head (s : String) (sep : Char) : ∃ t0, (Split s sep)[0]? = some t0 := by
  unfold Split
  cases h : splitChars sep s.data with
  | nil => exact absurd h (splitChars_ne_nil sep s.data)
  | cons w ws => exact ⟨String.mk w, by simp⟩

/-- The loop of `listMounts` panics exactly when a line has no second field. -/
theorem listMountsLoop_eq_none_iff (lines : List String) (m : List (String × String)) :
    listMountsLoop lines m = none ↔ ∃ line ∈ lines, (Split line ' ')[1]? = none := by
  induction lines generalizing m with
  | nil => simp [listMountsLoop]
  | cons line rest ih =>
    rw [listMountsLoop]
    cases h1 : (Split line ' ')[1]? with
    | none =>
      have hlen : (Split line ' ').length ≤ 1 := by simpa using h1
      simp [h1, hlen]
    | some w1 =>
      obtain ⟨w0, h0⟩ := Split_head line ' '
      have hlen : ¬ (Split line ' ').length ≤ 1 := by
        intro hle
        have hnone : (Split line ' ')[1]? = none := by simpa using hle
        rw [h1] at hnone
        cases hnone
      by_cases hp : HasPrefix w1 propagatedMount = true
      · simp [h1, h0, hp, ih, hlen]
      · simp [h1, hp, ih, hlen]

/-- The loop of `readUevent` panics exactly when a line is `MAJOR` or `MINOR` without a
value after an equals sign. -/
theorem readUeventLoop_eq_none_iff (lines : List String) (acc : String × String) :
    readUeventLoop lines acc = none ↔
      ∃ line ∈ lines, ((Split line '=')[0]? = some "MAJOR" ∨ (Split line '=')[0]? = some "MINOR")
        ∧ (Split line '=')[1]? = none := by
  induction lines generalizing acc with
  | nil =>
    obtain ⟨major, minor⟩ := acc
    simp [readUeventLoop]
  | cons line rest ih =>
    obtain ⟨major, minor⟩ := acc
    obtain ⟨t0, h0⟩ := Split_head line '='
    rw [readUeventLoop]
    simp only [h0, Option.bind_eq_bind, Option.some_bind, List.mem_cons, exists_eq_or_imp,
      Option.some.injEq]
    by_cases hM : t0 = "MAJOR"
    · subst hM
      have hne : ¬ ("MAJOR" = "MINOR") := by decide
      cases h1 : (Split line '=')[1]? with
      | none => simp
      | some t1 => simp [hne, ih]
    · by_cases hm : t0 = "MINOR"
      · subst hm
        cases h1 : (Split line '=')[1]? with
        | none => simp [hM]
        | some t1 => simp [hM, ih]
      · simp [hM, hm, ih]

/-- When the loop of `readUdevData` panics, a line is `E:ID_SERIAL_SHORT` without a value
after an equals sign. -/
theorem readUdevDataLoop_eq_none (lines : List String) (h : readUdevDataLoop lines = none) :
    ∃ line ∈ lines, (Split line '=')[0]? = some "E:ID_SERIAL_SHORT"
      ∧ (Split line '=')[1]? = none := by
  induction lines with
  | nil => simp [readUdevDataLoop] at h
  | cons line rest ih =>
    obtain ⟨t0, h0⟩ := Split_head line '='
    rw [readUdevDataLoop] at h
    simp only [h0, Option.bind_eq_bind, Option.some_bind] at h
    by_cases hk : t0 = "E:ID_SERIAL_SHORT"
    · subst hk
      simp only [if_true] at h
      exact ⟨line, List.mem_cons_self _ _, h0, h⟩
    · simp only [hk, if_false] at h
      obtain ⟨l, hl, hl2⟩ := ih h
      exact ⟨l, List.mem_cons_of_mem _ hl, hl2⟩

/-- C15 fails: a mount table with an empty line or a line without a space makes
`listMounts` panic, a uevent file with the line `MAJOR` makes `readUevent` panic, and a
udev record with the line `E:ID_SERIAL_SHORT` makes `readUdevData` panic. -/
theorem parsers_panic_on_short_lines :
    listMounts (tableFS [] [("/proc/mounts", ["/dev/vda1 / ext4 rw 0 0", ""])] [] []) = none ∧
    listMounts (tableFS [] [("/proc/mounts", ["none"])] [] []) = none ∧
    readUevent (tableFS ["vdb"] [("/sys/class/block/vdb/uevent", ["MAJOR", "MINOR=16"])] [] [])
      "vdb" = none ∧
    readUdevData (tableFS [] [("/run/udev/data/b252:16", ["I:3771", "E:ID_SERIAL_SHORT"])] [] [])
      "252" "16" = none := by
  refine ⟨by decide, by decide, by decide, by decide⟩

/-- C15, amended: the line parsers return a value or an error rather than panic on every
file content in which each line has the token they index. `listMounts` returns when every
line of the mount table has a second space-separated field; `readUevent` returns when
every line whose text before the first equals sign is `MAJOR` or `MINOR` has an equals
sign; `readUdevData` returns when every line whose text before the first equals sign is
`E:ID_SERIAL_SHORT` has an equals sign. Empty lines and other lines without an equals
sign do no harm in the uevent and udev files. -/
theorem parsers_return_on_lines_with_their_token (fs : FS) (sysname major minor : String) :
    ((∀ f, fs.Open "/proc/mounts" = .ok f →
        ∀ line ∈ f.lines, (Split line ' ')[1]? ≠ none) →
      ∃ r, listMounts fs = some r) ∧
    ((∀ f, fs.Open (Join ["/sys/class/block", sysname, "uevent"]) = .ok f →
        ∀ line ∈ f.lines,
          (Split line '=')[0]? = some "MAJOR" ∨ (Split line '=')[0]? = some "MINOR" →
          (Split line '=')[1]? ≠ none) →
      ∃ r, readUevent fs sysname = some r) ∧
    ((∀ f, fs.Open ("/run/udev/data/b" ++ major ++ ":" ++ minor) = .ok f →
        ∀ line ∈ f.lines, (Split line '=')[0]? = some "E:ID_SERIAL_SHORT" →
          (Split line '=')[1]? ≠ none) →
      ∃ r, readUdevData fs major minor = some r) := by
  refine ⟨?_, ?_, ?_⟩
  · intro h
    unfold listMounts
    cases ho : fs.Open "/proc/mounts" with
    | error err => exact ⟨_, rfl⟩
    | ok f =>
      simp only []
      cases hl : listMountsLoop f.lines [] with
      | none =>
        obtain ⟨line, hline, hbad⟩ := (listMountsLoop_eq_none_iff f.lines []).1 hl
        exact absurd hbad (h f ho line hline)
      | some mounts => exact ⟨_, rfl⟩
  · intro h
    unfold readUevent
    simp only []
    cases ho : fs.Open (Join ["/sys/class/block", sysname, "uevent"]) with
    | error err => exact ⟨_, rfl⟩
    | ok f =>
      simp only []
      cases hl : readUeventLoop f.lines ("", "") with
      | none =>
        obtain ⟨line, hline, hkey, hbad⟩ := (readUeventLoop_eq_none_iff f.lines _).1 hl
        exact absurd hbad (h f ho line hline hkey)
      | some mm =>
        obtain ⟨ma, mi⟩ := mm
        simp only []
        cases f.err with
        | some err => exact ⟨_, rfl⟩
        | none =>
          simp only []
          split <;> exact ⟨_, rfl⟩
  · intro h
    unfold readUdevData
    simp only []
    cases ho : fs.Open ("/run/udev/data/b" ++ major ++ ":" ++ minor) with
    | error err => exact ⟨_, rfl⟩
    | ok f =>
      simp only []
      cases hl : readUdevDataLoop f.lines with
      | none =>
        obtain ⟨line, hline, hkey, hbad⟩ := readUdevDataLoop_eq_none f.lines hl
        exact absurd hbad (h f ho line hline hkey)
      | some serial =>
        simp only []
        cases f.err <;> exact ⟨_, rfl⟩

/-- C15, amended, on the host `raggedFS`, whose files hold empty lines and lines without
an equals sign, but no short line where a parser indexes. -/
theorem parsers_return_on_lines_with_their_token_witness :
    (∃ r, listMounts raggedFS = some r) ∧
    (∃ r, readUevent raggedFS "vdb" = some r) ∧
    (∃ r, readUdevData raggedFS "252" "16" = some r) ∧
    readUevent raggedFS "vdb" = some (.ok ("252", "16")) ∧
    readUdevData raggedFS "252" "16" = some (.ok "vol-1") :=
  ⟨(parsers_return_on_lines_with_their_token raggedFS "vdb" "252" "16").1
      (fun f hf => by
        have h2 : (Except.ok ⟨["/dev/vda1 / ext4 rw,relatime 0 0",
            "/dev/vdb /var/lib/cinder/vol-1 ext4 rw,relatime 0 0"], none⟩ :
            Except String Scan) = .ok f := hf
        injection h2 with h3
        subst h3
        decide),
    (parsers_return_on_lines_with_their_token raggedFS "vdb" "252" "16").2.1
      (fun f hf => by
        have h2 : (Except.ok ⟨["", "MAJOR=252", "DEVNAME", "MINOR=16"], none⟩ :
            Except String Scan) = .ok f := hf
        injection h2 with h3
        subst h3
        decide),
    (parsers_return_on_lines_with_their_token raggedFS "vdb" "252" "16").2.2
      (fun f hf => by
        have h2 : (Except.ok ⟨["", "I:3771", "E:ID_SERIAL_SHORT=vol-1"], none⟩ :
            Except String Scan) = .ok f := hf
        injection h2 with h3
        subst h3
        decide),
    by decide, by decide⟩

end Cinder
